import Mathlib

/-!
# Cell-linked-list neighbour search of SPHinXsys (2D build)

A shallow embedding of `MeshCellLinkedList::searchNeighborsByParticles`
(`for_2D_build/meshes/mesh_cell_linked_list.hpp`), of the search-depth functors of
`shared/body_relations/base_body_relation.h`, of the `Neighborhood` class of
`shared/particles/neighbor_relation.h`, of the particle store operations of
`shared/particles/base_particles.cpp` and of `RealBody::updateCellLinkedList` and
`RealBody::updateCellLinkedListWithParticleSort` of `shared/bodies/base_body.cpp`.

Conventions of the embedding:

* `Real` (a `double` in the sources) is a rational number. The search-depth functors and the
  lattice scenario on `double` round each operation to the nearest `double` (`roundToDouble`,
  `roundSqrt`); elsewhere the operations are exact and their rounding is outside the model.
* `int` and `size_t` are `Int` and `Nat`. Wrap-around is modelled where a statement depends on
  it: the decrement of `total_real_particles_` (`sizeDecrement`), the `int` arithmetic of the
  scan window (`searchParticleInt32`) and the `size_t` arithmetic of `getUniformNdRange`.
* `StdLargeVec<T>` is `List T`; reading a slot that does not exist yields the default value and
  writing to it does nothing.
* `parallel_for` over `[0, total_real_particles)` is the sequential loop over `0, 1, ...`; that the
  result does not depend on the order is a theorem below.
* Functions that the sources call without defining are parameters (`BodyFunctions`,
  `CellIndexFromPosition`) or are modelled from the specification, which their doc comment says.
-/

namespace SPH

/-! ## Data types -/

/-- The floating-point type `Real` of the sources: its values are rational numbers; where the
rounding of an operation is modelled, the operation is `fmul` or `fdiv`. -/
abbrev Real := ℚ

/-- A 2D vector of reals (`Vecd` in the 2D build). -/
abbrev Vecd := Real × Real

/-- A 2D vector of unsigned integers (`Vecu` in the 2D build). -/
abbrev Vecu := Nat × Nat

/-- An entry of a cell bucket, `ListData = std::pair<size_t, Vecd>`: particle index and cached
position. -/
abbrev ListData := Nat × Vecd

/-- The bucket of one cell, `CellListDataVector`. -/
abbrev CellListDataVector := List ListData

/-- Class `Neighborhood` of `neighbor_relation.h`: the neighbours of one particle. Only the first
`current_size_` slots of the five arrays are meaningful. -/
structure Neighborhood where
  current_size_ : Nat
  allocated_size_ : Nat
  j_ : List Nat
  W_ij_ : List Real
  dW_ij_ : List Real
  r_ij_ : List Real
  e_ij_ : List Vecd
deriving DecidableEq

/-- The constructor `Neighborhood() : current_size_(0), allocated_size_(0)`. -/
instance : Inhabited Neighborhood := ⟨⟨0, 0, [], [], [], [], []⟩⟩

/-- Alias `ParticleConfiguration = StdLargeVec<Neighborhood>`. -/
abbrev ParticleConfiguration := List Neighborhood

/-- A 2 x 2 matrix of reals (`Matd` in the 2D build), by rows. -/
abbrev Matd := Vecd × Vecd

/-- The registered particle variables, `ParticleData`: the arrays of `Real`, `Vecd`, `Matd` and
`int` values (`std::get<0>` to `std::get<3>` of the tuple), one entry per particle in each. -/
structure ParticleData where
  reals : List (List Real)
  vecds : List (List Vecd)
  matds : List (List Matd)
  ints : List (List Int)
deriving DecidableEq

/-- No registered variable. -/
instance : Inhabited ParticleData := ⟨⟨[], [], [], []⟩⟩

/-- The particle store `BaseParticles`: the positions `pos_n_` (registered as "Position"), the
three particle counts, the id arrays and, in `all_particle_data_`, the registered arrays other
than `pos_n_`. -/
structure BaseParticles where
  pos_n_ : List Vecd
  total_real_particles_ : Nat
  real_particles_bound_ : Nat
  total_ghost_particles_ : Nat
  unsorted_id_ : List Nat := []
  sorted_id_ : List Nat := []
  sequence_ : List Nat := []
  all_particle_data_ : ParticleData := default

/-- The part of `MeshCellLinkedList` read by the neighbour search. `CellIndexFromPosition` is a
member function of the mesh whose body is not part of the sources at hand; it is carried as a
field. `cell_linked_lists_ l m` is the cell `cell_linked_lists_[l][m]`. -/
structure MeshCellLinkedList where
  grid_spacing_ : Real
  number_of_cells_ : Vecu
  cell_linked_lists_ : Nat → Nat → CellListDataVector
  CellIndexFromPosition : Vecd → Vecu

/-! ## The neighbour search -/

/-- Modelled from the spec: the macro `SMAX` (its definition is not part of the sources at hand),
the larger of two values; the scan window is "clipped to grid bounds". -/
def SMAX (a b : Int) : Int := if a ≥ b then a else b

/-- Modelled from the spec: the macro `SMIN` (its definition is not part of the sources at hand),
the smaller of two values; the scan window is "clipped to grid bounds". -/
def SMIN (a b : Int) : Int := if a ≤ b then a else b

/-- The values taken by `l` in `for (int l = lo; l <= hi; ++l)`. -/
def forRange (lo hi : Int) : List Int :=
  (List.range (hi + 1 - lo).toNat).map (fun (k : Nat) => lo + (k : Int))

/-- The type of the functor `get_neighbor_relation(neighborhood, displacement, index_i, index_j)`;
the neighbourhood is passed by reference, so the functor returns its new value. -/
abbrev GetNeighborRelation := Neighborhood → Vecd → Nat → Nat → Neighborhood

/-- The loop `for (const ListData& list_data : target_particles)` of
`searchNeighborsByParticles`, lines 36-41. -/
def searchCell (get_neighbor_relation : GetNeighborRelation) (particle_position : Vecd)
    (index_i : Nat) (target_particles : CellListDataVector)
    (particle_configuration : ParticleConfiguration) : ParticleConfiguration :=
  target_particles.foldl
    (fun cfg list_data =>
      let displacement := particle_position - list_data.2
      cfg.modify (fun neighborhood =>
        get_neighbor_relation neighborhood displacement index_i list_data.1) index_i)
    particle_configuration

/-- The body of the loop over `num` of `searchNeighborsByParticles`, lines 24-42. -/
def searchParticle (mesh : MeshCellLinkedList) (source_particles : BaseParticles)
    (get_particle_index : Nat → Nat) (get_search_range : Nat → Int)
    (get_neighbor_relation : GetNeighborRelation)
    (particle_configuration : ParticleConfiguration) (num : Nat) : ParticleConfiguration :=
  let index_i := get_particle_index num
  let particle_position := source_particles.pos_n_.getD index_i default
  let search_range := get_search_range index_i
  let target_cell_index := mesh.CellIndexFromPosition particle_position
  let i : Int := target_cell_index.1
  let j : Int := target_cell_index.2
  (forRange (SMAX (i - search_range) 0)
      (SMIN (i + search_range) ((mesh.number_of_cells_.1 : Int) - 1))).foldl
    (fun cfg l =>
      (forRange (SMAX (j - search_range) 0)
          (SMIN (j + search_range) ((mesh.number_of_cells_.2 : Int) - 1))).foldl
        (fun cfg m =>
          searchCell get_neighbor_relation particle_position index_i
            (mesh.cell_linked_lists_ l.toNat m.toNat) cfg)
        cfg)
    particle_configuration

/-- Function `MeshCellLinkedList::searchNeighborsByParticles`: the loop over
`num = 0, ..., total_real_particles - 1`. -/
def searchNeighborsByParticles (mesh : MeshCellLinkedList) (total_real_particles : Nat)
    (source_particles : BaseParticles) (particle_configuration : ParticleConfiguration)
    (get_particle_index : Nat → Nat) (get_search_range : Nat → Int)
    (get_neighbor_relation : GetNeighborRelation) : ParticleConfiguration :=
  (List.range total_real_particles).foldl
    (searchParticle mesh source_particles get_particle_index get_search_range
      get_neighbor_relation)
    particle_configuration

/-- The value of an `int`: 32 bits, two's complement, wrapping around. -/
def toInt32 (x : Int) : Int := (x + 2 ^ 31) % 2 ^ 32 - 2 ^ 31

/-- The integer `x` is a value of `int`. -/
def inInt32 (x : Int) : Prop := -2 ^ 31 ≤ x ∧ x < 2 ^ 31

instance (x : Int) : Decidable (inInt32 x) := by
  unfold inInt32
  exact inferInstance

/-- The body of the loop over `num` of `searchNeighborsByParticles`, lines 24-42, with the
arithmetic of `int`: the search range, the conversions `(int)target_cell_index[0]` and
`int(number_of_cells_[0])`, the sums and the differences are values of 32 bits that wrap around.
The counters `l` and `m` run up to their bounds, which are below the largest `int` unless
`int(number_of_cells_[0]) - 1` wraps. -/
def searchParticleInt32 (mesh : MeshCellLinkedList) (source_particles : BaseParticles)
    (get_particle_index : Nat → Nat) (get_search_range : Nat → Int)
    (get_neighbor_relation : GetNeighborRelation)
    (particle_configuration : ParticleConfiguration) (num : Nat) : ParticleConfiguration :=
  let index_i := get_particle_index num
  let particle_position := source_particles.pos_n_.getD index_i default
  let search_range := toInt32 (get_search_range index_i)
  let target_cell_index := mesh.CellIndexFromPosition particle_position
  let i : Int := toInt32 target_cell_index.1
  let j : Int := toInt32 target_cell_index.2
  (forRange (SMAX (toInt32 (i - search_range)) 0)
      (SMIN (toInt32 (i + search_range))
        (toInt32 (toInt32 (mesh.number_of_cells_.1 : Int) - 1)))).foldl
    (fun cfg l =>
      (forRange (SMAX (toInt32 (j - search_range)) 0)
          (SMIN (toInt32 (j + search_range))
            (toInt32 (toInt32 (mesh.number_of_cells_.2 : Int) - 1)))).foldl
        (fun cfg m =>
          searchCell get_neighbor_relation particle_position index_i
            (mesh.cell_linked_lists_ l.toNat m.toNat) cfg)
        cfg)
    particle_configuration

/-- Function `MeshCellLinkedList::searchNeighborsByParticles` with the arithmetic of `int`: the
loop over `num = 0, ..., total_real_particles - 1`. -/
def searchNeighborsByParticlesInt32 (mesh : MeshCellLinkedList) (total_real_particles : Nat)
    (source_particles : BaseParticles) (particle_configuration : ParticleConfiguration)
    (get_particle_index : Nat → Nat) (get_search_range : Nat → Int)
    (get_neighbor_relation : GetNeighborRelation) : ParticleConfiguration :=
  (List.range total_real_particles).foldl
    (searchParticleInt32 mesh source_particles get_particle_index get_search_range
      get_neighbor_relation)
    particle_configuration

/-- The `int` computations of the scan of the particle number `num` do not overflow: the cell
index of the particle, the numbers of cells of the grid and the search range are values of `int`,
and so are the sums and differences `i ± search_range` and `j ± search_range`. -/
def scanInInt32 (mesh : MeshCellLinkedList) (source_particles : BaseParticles)
    (get_particle_index : Nat → Nat) (get_search_range : Nat → Int) (num : Nat) : Prop :=
  inInt32 ((mesh.CellIndexFromPosition
    (source_particles.pos_n_.getD (get_particle_index num) default)).1 : Int) ∧
  inInt32 ((mesh.CellIndexFromPosition
    (source_particles.pos_n_.getD (get_particle_index num) default)).2 : Int) ∧
  inInt32 (mesh.number_of_cells_.1 : Int) ∧
  inInt32 (mesh.number_of_cells_.2 : Int) ∧
  inInt32 (get_search_range (get_particle_index num)) ∧
  inInt32 (((mesh.CellIndexFromPosition
    (source_particles.pos_n_.getD (get_particle_index num) default)).1 : Int) -
      get_search_range (get_particle_index num)) ∧
  inInt32 (((mesh.CellIndexFromPosition
    (source_particles.pos_n_.getD (get_particle_index num) default)).1 : Int) +
      get_search_range (get_particle_index num)) ∧
  inInt32 (((mesh.CellIndexFromPosition
    (source_particles.pos_n_.getD (get_particle_index num) default)).2 : Int) -
      get_search_range (get_particle_index num)) ∧
  inInt32 (((mesh.CellIndexFromPosition
    (source_particles.pos_n_.getD (get_particle_index num) default)).2 : Int) +
      get_search_range (get_particle_index num))

instance (mesh : MeshCellLinkedList) (source_particles : BaseParticles)
    (get_particle_index : Nat → Nat) (get_search_range : Nat → Int) (num : Nat) :
    Decidable (scanInInt32 mesh source_particles get_particle_index get_search_range num) := by
  unfold scanInInt32
  exact inferInstance

/-! ## Structure of the scan -/

/-- The successive neighbour-relation calls made for the entries of `entries`, applied to the
neighbourhood of particle `index_i` located at `particle_position`. -/
def applyRelation (get_neighbor_relation : GetNeighborRelation) (particle_position : Vecd)
    (index_i : Nat) (entries : CellListDataVector) (neighborhood : Neighborhood) :
    Neighborhood :=
  entries.foldl
    (fun nb list_data =>
      get_neighbor_relation nb (particle_position - list_data.2) index_i list_data.1)
    neighborhood

/-- The cells visited by the two nested loops over `l` and `m`, in the order of the visit, for
the owning cell `(i, j)` and the search range `search_range`. -/
def scanWindow (mesh : MeshCellLinkedList) (i j search_range : Int) : List (Int × Int) :=
  List.product
    (forRange (SMAX (i - search_range) 0)
      (SMIN (i + search_range) ((mesh.number_of_cells_.1 : Int) - 1)))
    (forRange (SMAX (j - search_range) 0)
      (SMIN (j + search_range) ((mesh.number_of_cells_.2 : Int) - 1)))

/-- The bucket entries met by the scan, in the order of the visit. -/
def scanEntries (mesh : MeshCellLinkedList) (i j search_range : Int) : CellListDataVector :=
  (scanWindow mesh i j search_range).flatMap
    (fun c => mesh.cell_linked_lists_ c.1.toNat c.2.toNat)

/-! ## Double-precision arithmetic -/

/-- The power `2 ^ e` of two with an integer exponent. -/
def pow2 (e : Int) : Real :=
  if 0 ≤ e then ((2 ^ e.toNat : Nat) : Real) else 1 / ((2 ^ (-e).toNat : Nat) : Real)

/-- Rounding to the nearest integer, a tie going to the even one. -/
def roundHalfEven (y : Real) : Int :=
  if y - ⌊y⌋ < 1 / 2 then ⌊y⌋
  else if 1 / 2 < y - ⌊y⌋ then ⌊y⌋ + 1
  else if ⌊y⌋ % 2 = 0 then ⌊y⌋ else ⌊y⌋ + 1

/-- The `double` nearest to `x > 0`: with `2 ^ k ≤ x < 2 ^ (k + 1)` the significand
`x / 2 ^ (k - 52)` is rounded to an integer of 53 bits, a tie going to the even one. -/
def roundPositive (x : Real) : Real :=
  (roundHalfEven (x / pow2 (Int.log 2 x - 52)) : Real) * pow2 (Int.log 2 x - 52)

/-- The rounding of an exact result to a `double` (IEEE 754 binary64, round to nearest, ties to
even). The exponent is not bounded: overflow, subnormal numbers, infinities and NaN are outside
the model. -/
def roundToDouble (x : Real) : Real :=
  if x = 0 then 0 else if 0 < x then roundPositive x else -roundPositive (-x)

/-- The product `a * b` of two `double`. -/
def fmul (a b : Real) : Real := roundToDouble (a * b)

/-- The quotient `a / b` of two `double`. -/
def fdiv (a b : Real) : Real := roundToDouble (a / b)

/-! ## Search-depth functors (`base_body_relation.h`) -/

/-- Modelled from the spec: class `Kernel`, whose definition is not part of the sources at hand.
`CutOffRadius` is the value of `CutOffRadius()`, `CutOffRadiusRatio h` that of
`CutOffRadius(h_ratio)`, the cutoff radius scaled by a smoothing-length ratio; `W` and `dW` give
the kernel value and its derivative from a distance and a displacement. -/
structure Kernel where
  CutOffRadius : Real
  CutOffRadiusRatio : Real → Real
  W : Real → Vecd → Real
  dW : Real → Vecd → Real

/-- The accessor `GridSpacing()` of a cell linked list. -/
def MeshCellLinkedList.GridSpacing (mesh : MeshCellLinkedList) : Real := mesh.grid_spacing_

/-- The part of `SPHBody` read by the search-depth functors: the kernel
`sph_adaptation_->getKernel()`, the particle variable "SmoothingLengthRatio" and the cell linked
list of the body itself. -/
structure SPHBody where
  kernel_ : Kernel
  h_ratio_ : List Real
  cell_linked_list_ : MeshCellLinkedList

/-- Functor `SearchDepthSingleResolution`: `operator()` returns 1. -/
def SearchDepthSingleResolution (_particle_index : Nat) : Int := 1

/-- Struct `SearchDepthContact`: its only member. -/
structure SearchDepthContact where
  search_depth_ : Int

/-- The constructor `SearchDepthContact(sph_body, target_cell_linked_list)`: the quotient
`1.0 / GridSpacing()` and the product with it are operations on `double`. The conversion `(int)`
is defined for a value inside the range of `int`; it and the addition of 1 are taken in the
integers. -/
def SearchDepthContact.new (sph_body : SPHBody) (target_cell_linked_list : MeshCellLinkedList) :
    SearchDepthContact :=
  let inv_grid_spacing_ : Real := fdiv 1 target_cell_linked_list.GridSpacing
  let kernel_ := sph_body.kernel_
  { search_depth_ := 1 + ⌊fmul kernel_.CutOffRadius inv_grid_spacing_⌋ }

/-- Member `SearchDepthContact::operator()`. -/
def SearchDepthContact.call (self : SearchDepthContact) (_particle_index : Nat) : Int :=
  self.search_depth_

/-- Struct `SearchDepthAdaptive`: its three members. -/
structure SearchDepthAdaptive where
  inv_grid_spacing_ : Real
  kernel_ : Kernel
  h_ratio_ : List Real

/-- The constructor `SearchDepthAdaptive(sph_body, target_cell_linked_list)`: the quotient
`1.0 / GridSpacing()` is an operation on `double`. -/
def SearchDepthAdaptive.new (sph_body : SPHBody) (target_cell_linked_list : MeshCellLinkedList) :
    SearchDepthAdaptive :=
  { inv_grid_spacing_ := fdiv 1 target_cell_linked_list.GridSpacing
    kernel_ := sph_body.kernel_
    h_ratio_ := sph_body.h_ratio_ }

/-- Member `SearchDepthAdaptive::operator()`: the product is an operation on `double`. The
conversion `(int)` is defined for a value inside the range of `int`; it and the addition of 1 are
taken in the integers. -/
def SearchDepthAdaptive.call (self : SearchDepthAdaptive) (particle_index : Nat) : Int :=
  1 + ⌊fmul (self.kernel_.CutOffRadiusRatio (self.h_ratio_.getD particle_index default))
    self.inv_grid_spacing_⌋

/-! ## The inner neighbour relation -/

/-- Modelled from the spec: the numerical primitives that the neighbour relation uses and the
sources at hand do not define: `norm`, the length of a displacement as a `Real` (the rounded
square root `Vecd::norm()`, recorded as the distance), and `TinyReal`, the "small epsilon floor"
added to the distance before normalising. -/
structure Numerics where
  norm : Vecd → Real
  TinyReal : Real

/-- Members of class `NeighborRelation` (`kernel_`, `cutoff_radius_`), with the numerical
primitives used by the relation. -/
structure NeighborRelation where
  kernel_ : Kernel
  cutoff_radius_ : Real
  numerics_ : Numerics

/-- The square of the Euclidean length of a displacement. -/
def squaredNorm (displacement : Vecd) : Real :=
  displacement.1 * displacement.1 + displacement.2 * displacement.2

/-- Modelled from the spec: the cutoff test `|displacement| < cutoff_radius` ("strict
less-than"), whose code is not part of the sources at hand. It is decided in exact arithmetic on
the squares, which needs no square root: a length is non-negative, so `|d| < c` holds exactly when
`0 < c` and `d.d < c * c`. -/
def withinCutoff (displacement : Vecd) (cutoff_radius : Real) : Bool :=
  decide (0 < cutoff_radius ∧ squaredNorm displacement < cutoff_radius * cutoff_radius)

/-- The growth of a `std::vector` by `resize`: new slots hold `fill`. -/
def resize {α : Type} (xs : List α) (new_size : Nat) (fill : α) : List α :=
  xs ++ List.replicate (new_size - xs.length) fill

/-- Modelled from the spec: the growth policy of a neighbourhood, "if `current_size ==
allocated_size`, double allocated capacity" (a capacity of 0 becomes 1, so that an entry fits);
the bodies of `createRelation` and `initializeRelation` are not part of the sources at hand. -/
def Neighborhood.reserve (neighborhood : Neighborhood) : Neighborhood :=
  if neighborhood.current_size_ = neighborhood.allocated_size_ then
    let new_size := if neighborhood.allocated_size_ = 0 then 1 else 2 * neighborhood.allocated_size_
    { neighborhood with
      allocated_size_ := new_size
      j_ := resize neighborhood.j_ new_size 0
      W_ij_ := resize neighborhood.W_ij_ new_size 0
      dW_ij_ := resize neighborhood.dW_ij_ new_size 0
      r_ij_ := resize neighborhood.r_ij_ new_size 0
      e_ij_ := resize neighborhood.e_ij_ new_size 0 }
  else neighborhood

/-- Modelled from the spec: the neighbour-relation function "appends `(j, W(r), dW(r), r,
displacement/r)` to `neighborhood[i]`", with the epsilon floor on `r`, after the growth policy;
the record is written to the slot `current_size`, which is then incremented. -/
def Neighborhood.append (numerics : Numerics) (kernel : Kernel) (neighborhood : Neighborhood)
    (displacement : Vecd) (j_index : Nat) : Neighborhood :=
  let nb := neighborhood.reserve
  let n := nb.current_size_
  let distance := numerics.norm displacement
  { current_size_ := n + 1
    allocated_size_ := nb.allocated_size_
    j_ := nb.j_.set n j_index
    W_ij_ := nb.W_ij_.set n (kernel.W distance displacement)
    dW_ij_ := nb.dW_ij_.set n (kernel.dW distance displacement)
    r_ij_ := nb.r_ij_.set n distance
    e_ij_ := nb.e_ij_.set n
      (displacement.1 / (distance + numerics.TinyReal),
        displacement.2 / (distance + numerics.TinyReal)) }

/-- Modelled from the spec: `NeighborRelationInner::operator()`, declared in
`neighbor_relation.h` without a body in the sources at hand: "if inner relation and `i == j`,
skip (no self-interaction); if `|displacement| < cutoff_radius`: invoke the neighbor-relation
function, which appends" a record for `j` to the neighbourhood. -/
def NeighborRelationInner (self : NeighborRelation) : GetNeighborRelation :=
  fun neighborhood displacement i_index j_index =>
    if i_index = j_index then neighborhood
    else if withinCutoff displacement self.cutoff_radius_ then
      Neighborhood.append self.numerics_ self.kernel_ neighborhood displacement j_index
    else neighborhood

/-- The neighbour indices recorded in a neighbourhood: the first `current_size_` entries of
`j_`. -/
def Neighborhood.neighbors (neighborhood : Neighborhood) : List Nat :=
  neighborhood.j_.take neighborhood.current_size_

/-- The state of a neighbourhood at the start of a rebuild: `current_size_` is 0 and the arrays
keep their allocated length. -/
def Neighborhood.isReset (neighborhood : Neighborhood) : Prop :=
  neighborhood.current_size_ = 0 ∧ neighborhood.j_.length = neighborhood.allocated_size_

instance (neighborhood : Neighborhood) : Decidable neighborhood.isReset := by
  unfold Neighborhood.isReset
  exact inferInstance

/-- Well-formedness of a neighbourhood: the array of neighbour indices has `allocated_size_` slots,
of which `current_size_` are in use. -/
def Neighborhood.WF (neighborhood : Neighborhood) : Prop :=
  neighborhood.j_.length = neighborhood.allocated_size_ ∧
    neighborhood.current_size_ ≤ neighborhood.allocated_size_

/-! ## The spatial grid -/

/-- The clamping of a cell index to `[0, n - 1]`. -/
def clampIndex (k : Int) (n : Nat) : Nat := (max 0 (min k ((n : Int) - 1))).toNat

/-- Modelled from the spec: `CellIndexFromPosition`, whose body is not part of the sources at
hand: "per axis: `floor(position / cell_size)` clamped to domain". -/
def CellIndexFromPositionSpec (grid_spacing : Real) (number_of_cells : Vecu) (position : Vecd) :
    Vecu :=
  (clampIndex ⌊position.1 / grid_spacing⌋ number_of_cells.1,
    clampIndex ⌊position.2 / grid_spacing⌋ number_of_cells.2)

/-- A grid with empty buckets, cell size `grid_spacing` and `number_of_cells` cells per axis. -/
def MeshCellLinkedList.new (grid_spacing : Real) (number_of_cells : Vecu) : MeshCellLinkedList :=
  { grid_spacing_ := grid_spacing
    number_of_cells_ := number_of_cells
    cell_linked_lists_ := fun _ _ => []
    CellIndexFromPosition := CellIndexFromPositionSpec grid_spacing number_of_cells }

/-- Modelled from the spec: `insert(particle_index, position)` "computes the integer cell index,
appends `(index, position)` to that cell's bucket"; its code is not part of the sources at
hand. -/
def MeshCellLinkedList.insert (mesh : MeshCellLinkedList) (particle_index : Nat)
    (position : Vecd) : MeshCellLinkedList :=
  let cell := mesh.CellIndexFromPosition position
  { mesh with
    cell_linked_lists_ := fun l m =>
      if l = cell.1 ∧ m = cell.2 then mesh.cell_linked_lists_ l m ++ [(particle_index, position)]
      else mesh.cell_linked_lists_ l m }

/-- Modelled from the spec: `rebuild(particle_store)`, the function `UpdateCellLists` called by
`RealBody::updateCellLinkedList`, whose code is not part of the sources at hand: "clears every
bucket, then inserts every real particle (and current ghosts)". -/
def MeshCellLinkedList.UpdateCellLists (mesh : MeshCellLinkedList)
    (base_particles : BaseParticles) : MeshCellLinkedList :=
  (List.range base_particles.total_real_particles_ ++
      (List.range base_particles.total_ghost_particles_).map
        (fun g => base_particles.real_particles_bound_ + g)).foldl
    (fun mesh index => mesh.insert index (base_particles.pos_n_.getD index default))
    { mesh with cell_linked_lists_ := fun _ _ => [] }

/-- The position `pos_n_[index]` read by the search. -/
def BaseParticles.position (particles : BaseParticles) (index : Nat) : Vecd :=
  particles.pos_n_.getD index default

/-- The cell of the particle `index`, with `int` coordinates as in the scan. -/
def cellOf (mesh : MeshCellLinkedList) (particles : BaseParticles) (index : Nat) : Int × Int :=
  (((mesh.CellIndexFromPosition (particles.position index)).1 : Int),
    ((mesh.CellIndexFromPosition (particles.position index)).2 : Int))

/-- The state of the grid after a rebuild for a body of `total_real_particles` real particles:
the cell of every real particle lies in the grid, and the bucket of every cell of the grid holds,
in some order, one entry `(j, pos_n_[j])` for each real particle `j` whose position falls in the
cell, and nothing else. -/
def MeshCellLinkedList.holdsRealParticles (mesh : MeshCellLinkedList)
    (particles : BaseParticles) (total_real_particles : Nat) : Prop :=
  (∀ i : Nat, i < total_real_particles →
    (mesh.CellIndexFromPosition (particles.position i)).1 < mesh.number_of_cells_.1 ∧
    (mesh.CellIndexFromPosition (particles.position i)).2 < mesh.number_of_cells_.2) ∧
  ∀ l m : Nat, l < mesh.number_of_cells_.1 → m < mesh.number_of_cells_.2 →
    (mesh.cell_linked_lists_ l m).Perm
      (((List.range total_real_particles).filter
        (fun j => decide (mesh.CellIndexFromPosition (particles.position j) = (l, m)))).map
        (fun j => (j, particles.position j)))

/-! ## Test data -/

/-- One Newton step for the square root of `s`. -/
def sqrtStep (s x : Real) : Real := if x = 0 then 0 else (x + s / x) / 2

/-- A rounded Euclidean norm: four Newton steps from `|d.1| + |d.2|`. -/
def exampleNorm (d : Vecd) : Real :=
  let s := d.1 * d.1 + d.2 * d.2
  sqrtStep s (sqrtStep s (sqrtStep s (sqrtStep s (|d.1| + |d.2|))))

/-- Numerical primitives of the test cases. -/
def exampleNumerics : Numerics := { norm := exampleNorm, TinyReal := 1 / 1000000 }

/-- A kernel of cutoff radius `rc / h_ratio` with a linear profile. -/
def exampleKernel (rc : Real) : Kernel :=
  { CutOffRadius := rc
    CutOffRadiusRatio := fun h_ratio => rc / h_ratio
    W := fun distance _ => 1 - distance / rc
    dW := fun _ _ => -1 / rc }

/-- The adaptive-depth scenario: a source particle at `(5.1, 5.5)`, a particle at distance 1.8 at
`(6.9, 5.5)` and a particle at distance 2.5 at `(7.6, 5.5)`. -/
def scenarioParticles : BaseParticles :=
  { pos_n_ := [(51 / 10, 11 / 2), (69 / 10, 11 / 2), (76 / 10, 11 / 2)]
    total_real_particles_ := 3
    real_particles_bound_ := 3
    total_ghost_particles_ := 0 }

/-- The rebuilt grid of the adaptive-depth scenario: cell size 1.0, 10 x 10 cells. -/
def scenarioMesh : MeshCellLinkedList :=
  (MeshCellLinkedList.new 1 (10, 10)).UpdateCellLists scenarioParticles

/-- The body of the adaptive-depth scenario: `CutOffRadius(h = 1) = 2.0`, every smoothing-length
ratio is 1. -/
def scenarioBody : SPHBody :=
  { kernel_ := exampleKernel 2, h_ratio_ := [1, 1, 1], cell_linked_list_ := scenarioMesh }

/-- The inner relation of the adaptive-depth scenario, cutoff radius 2.0. -/
def scenarioRelation : NeighborRelation :=
  { kernel_ := exampleKernel 2, cutoff_radius_ := 2, numerics_ := exampleNumerics }

/-- The neighbourhoods of the adaptive-depth scenario after the search with the adaptive depth. -/
def scenarioConfiguration : ParticleConfiguration :=
  searchNeighborsByParticles scenarioMesh 3 scenarioParticles (List.replicate 3 default)
    (fun num => num) (SearchDepthAdaptive.new scenarioBody scenarioMesh).call
    (NeighborRelationInner scenarioRelation)

/-- The `double` written `1.9`. -/
def doubleOnePointNine : Real := roundToDouble (19 / 10)

/-- A grid of cell size 1.9, 10 x 10 cells. -/
def roundingMesh : MeshCellLinkedList := MeshCellLinkedList.new doubleOnePointNine (10, 10)

/-- A body whose kernel has the cutoff radius 1.9, also for the smoothing-length ratio 1 of its
only particle. -/
def roundingBody : SPHBody :=
  { kernel_ := exampleKernel doubleOnePointNine, h_ratio_ := [1],
    cell_linked_list_ := roundingMesh }

/-- The lattice spacing `dp = 0.1` of the end-to-end scenario. -/
def latticeSpacing : Real := 1 / 10

/-- The end-to-end scenario: a uniform square lattice of spacing `dp` filling the box
`[0, 1] x [0, 1]`, 10 x 10 particles at the centres of the lattice cells; the particle `k` is at
`((k / 10 + 1/2) dp, (k % 10 + 1/2) dp)`. -/
def latticeParticles : BaseParticles :=
  { pos_n_ := (List.range 100).map (fun k =>
      ((((k / 10 : Nat) : Real) + 1 / 2) * latticeSpacing,
        (((k % 10 : Nat) : Real) + 1 / 2) * latticeSpacing))
    total_real_particles_ := 100
    real_particles_bound_ := 100
    total_ghost_particles_ := 0 }

/-- The rebuilt grid of the lattice: cell size equal to the cutoff radius `2 dp`, 5 x 5 cells. -/
def latticeMesh : MeshCellLinkedList :=
  (MeshCellLinkedList.new (2 * latticeSpacing) (5, 5)).UpdateCellLists latticeParticles

/-- The inner relation of the lattice, cutoff radius `2 dp`. -/
def latticeRelation : NeighborRelation :=
  { kernel_ := exampleKernel (2 * latticeSpacing)
    cutoff_radius_ := 2 * latticeSpacing
    numerics_ := exampleNumerics }

/-- The neighbourhoods of the lattice after the rebuild and the inner search of depth 1. -/
def latticeConfiguration : ParticleConfiguration :=
  searchNeighborsByParticles latticeMesh 100 latticeParticles (List.replicate 100 default)
    (fun num => num) SearchDepthSingleResolution (NeighborRelationInner latticeRelation)

/-- Two particles in one cell: positions `(0.5, 0.5)` and `(0.6, 0.5)`. -/
def pairParticles : BaseParticles :=
  { pos_n_ := [(1 / 2, 1 / 2), (3 / 5, 1 / 2)]
    total_real_particles_ := 2
    real_particles_bound_ := 2
    total_ghost_particles_ := 0 }

/-- The rebuilt grid of the two particles: cell size 1.0, 2 x 2 cells. -/
def pairMesh : MeshCellLinkedList :=
  (MeshCellLinkedList.new 1 (2, 2)).UpdateCellLists pairParticles

/-- The inner relation of the two particles, cutoff radius 1.0. -/
def pairRelation : NeighborRelation :=
  { kernel_ := exampleKernel 1, cutoff_radius_ := 1, numerics_ := exampleNumerics }

/-! ## The particle store (`base_particles.cpp`) -/

/-- The largest value of `size_t`. -/
def SIZE_MAX : Nat := 2 ^ 64 - 1

/-- The decrement `n - 1` of a `size_t`: it wraps to `SIZE_MAX` at 0. -/
def sizeDecrement (n : Nat) : Nat := if n = 0 then SIZE_MAX else n - 1

/-- The assignment `xs[this_index] = xs[another_index]` in one array. -/
def copyValue {α : Type} [Zero α] (xs : List α) (this_index another_index : Nat) : List α :=
  xs.set this_index (xs.getD another_index 0)

/-- Modelled from the spec: the functor `add_a_particle_value_`, whose code is not part of the
sources at hand: an entry is "created by append", one zero-initialised value at the end of every
registered array. -/
def BaseParticles.add_a_particle_value_ (particles : BaseParticles) : BaseParticles :=
  { particles with
    pos_n_ := particles.pos_n_ ++ [0]
    all_particle_data_ :=
      { reals := particles.all_particle_data_.reals.map (fun xs => xs ++ [0])
        vecds := particles.all_particle_data_.vecds.map (fun xs => xs ++ [0])
        matds := particles.all_particle_data_.matds.map (fun xs => xs ++ [0])
        ints := particles.all_particle_data_.ints.map (fun xs => xs ++ [0]) } }

/-- Modelled from the spec: the functor `copy_a_particle_value_`, whose code is not part of the
sources at hand: in every registered array the entry `this_index` receives the value of the entry
`another_index` (the copy of "swap-with-last-and-shrink" and of ghost creation). -/
def BaseParticles.copy_a_particle_value_ (particles : BaseParticles)
    (this_index another_index : Nat) : BaseParticles :=
  { particles with
    pos_n_ := copyValue particles.pos_n_ this_index another_index
    all_particle_data_ :=
      { reals := particles.all_particle_data_.reals.map
          (fun xs => copyValue xs this_index another_index)
        vecds := particles.all_particle_data_.vecds.map
          (fun xs => copyValue xs this_index another_index)
        matds := particles.all_particle_data_.matds.map
          (fun xs => copyValue xs this_index another_index)
        ints := particles.all_particle_data_.ints.map
          (fun xs => copyValue xs this_index another_index) } }

/-- Function `BaseParticles::addAParticleEntry`. -/
def BaseParticles.addAParticleEntry (particles : BaseParticles) : BaseParticles :=
  let p1 := { particles with unsorted_id_ := particles.unsorted_id_ ++ [particles.sequence_.length] }
  let p2 := { p1 with sorted_id_ := p1.sorted_id_ ++ [p1.sequence_.length] }
  let p3 := { p2 with sequence_ := p2.sequence_ ++ [0] }
  p3.add_a_particle_value_

/-- Function `BaseParticles::addBufferParticles`. -/
def BaseParticles.addBufferParticles (particles : BaseParticles) (buffer_size : Nat) :
    BaseParticles :=
  let p1 := Nat.iterate BaseParticles.addAParticleEntry buffer_size particles
  { p1 with real_particles_bound_ := p1.real_particles_bound_ + buffer_size }

/-- Function `BaseParticles::updateFromAnotherParticle`. -/
def BaseParticles.updateFromAnotherParticle (particles : BaseParticles)
    (this_index another_index : Nat) : BaseParticles :=
  particles.copy_a_particle_value_ this_index another_index

/-- Function `BaseParticles::copyFromAnotherParticle`. -/
def BaseParticles.copyFromAnotherParticle (particles : BaseParticles)
    (this_index another_index : Nat) : BaseParticles :=
  particles.updateFromAnotherParticle this_index another_index

/-- Function `BaseParticles::insertAGhostParticle`: the new store and the returned index. -/
def BaseParticles.insertAGhostParticle (particles : BaseParticles) (index_i : Nat) :
    BaseParticles × Nat :=
  let p1 := { particles with total_ghost_particles_ := particles.total_ghost_particles_ + 1 }
  let expected_size := p1.real_particles_bound_ + p1.total_ghost_particles_
  let expected_particle_index := expected_size - 1
  if expected_size ≤ p1.pos_n_.length then
    let p2 := p1.copyFromAnotherParticle expected_particle_index index_i
    ({ p2 with sorted_id_ := p2.sorted_id_.set expected_particle_index index_i },
      expected_particle_index)
  else
    let p2 := p1.addAParticleEntry
    let p3 := p2.copyFromAnotherParticle expected_particle_index index_i
    ({ p3 with sorted_id_ := p3.sorted_id_.set expected_particle_index index_i },
      expected_particle_index)

/-- The exchange `std::swap(xs[i], xs[j])`. -/
def swapValues (xs : List Nat) (i j : Nat) : List Nat :=
  (xs.set i (xs.getD j 0)).set j (xs.getD i 0)

/-- Function `BaseParticles::switchToBufferParticle`. -/
def BaseParticles.switchToBufferParticle (particles : BaseParticles) (index_i : Nat) :
    BaseParticles :=
  let last_real_particle_index := sizeDecrement particles.total_real_particles_
  let p1 :=
    if index_i < last_real_particle_index then
      let p2 := particles.updateFromAnotherParticle index_i last_real_particle_index
      let p3 := { p2 with
        unsorted_id_ := swapValues p2.unsorted_id_ index_i last_real_particle_index }
      { p3 with sorted_id_ := p3.sorted_id_.set (p3.unsorted_id_.getD index_i 0) index_i }
    else particles
  { p1 with total_real_particles_ := sizeDecrement p1.total_real_particles_ }

/-- The assignment `base_particles_->total_ghost_particles_ = 0` of
`RealBody::updateCellLinkedList`. -/
def BaseParticles.resetTotalGhostParticles (particles : BaseParticles) : BaseParticles :=
  { particles with total_ghost_particles_ := 0 }

/-- The lengths of the registered arrays, `pos_n_` first. -/
def BaseParticles.fieldLengths (particles : BaseParticles) : List Nat :=
  particles.pos_n_.length ::
    (particles.all_particle_data_.reals.map List.length ++
      particles.all_particle_data_.vecds.map List.length ++
      particles.all_particle_data_.matds.map List.length ++
      particles.all_particle_data_.ints.map List.length)

/-- The values of the registered variables of the particle in slot `index`. -/
def BaseParticles.slot (particles : BaseParticles) (index : Nat) :
    Vecd × List Real × List Vecd × List Matd × List Int :=
  (particles.pos_n_.getD index 0,
    particles.all_particle_data_.reals.map (fun xs => xs.getD index 0),
    particles.all_particle_data_.vecds.map (fun xs => xs.getD index 0),
    particles.all_particle_data_.matds.map (fun xs => xs.getD index 0),
    particles.all_particle_data_.ints.map (fun xs => xs.getD index 0))

/-- All registered arrays have one common length, that of `pos_n_`. -/
def BaseParticles.fieldsAligned (particles : BaseParticles) : Prop :=
  ∀ n ∈ particles.fieldLengths, n = particles.pos_n_.length

/-- The region invariant of the store: all registered arrays have one common length `L` (that of
`pos_n_`), `total_real_particles_ ≤ real_particles_bound_` and
`real_particles_bound_ + total_ghost_particles_ ≤ L`. -/
def BaseParticles.regionInvariant (particles : BaseParticles) : Prop :=
  particles.fieldsAligned ∧
  particles.total_real_particles_ ≤ particles.real_particles_bound_ ∧
  particles.real_particles_bound_ + particles.total_ghost_particles_ ≤ particles.pos_n_.length

instance (particles : BaseParticles) : Decidable particles.regionInvariant := by
  unfold BaseParticles.regionInvariant BaseParticles.fieldsAligned
  exact inferInstance

/-- Successive ghost insertions for the particles of `indices`: the final store and the returned
indices, in order. -/
def BaseParticles.insertGhostParticles (particles : BaseParticles) (indices : List Nat) :
    BaseParticles × List Nat :=
  indices.foldl
    (fun state index_i =>
      ((state.1.insertAGhostParticle index_i).1,
        state.2 ++ [(state.1.insertAGhostParticle index_i).2]))
    (particles, [])

/-- A store of four slots with the variables "Volume" and "Velocity" registered besides the
positions: three real particles, room for one more, no ghost. -/
def exampleStore : BaseParticles :=
  { pos_n_ := [(0, 0), (1, 0), (2, 0), (0, 0)]
    total_real_particles_ := 3
    real_particles_bound_ := 4
    total_ghost_particles_ := 0
    unsorted_id_ := [2, 0, 1, 3]
    sorted_id_ := [1, 2, 0, 3]
    sequence_ := [0, 0, 0, 0]
    all_particle_data_ :=
      { reals := [[1 / 2, 1 / 3, 1 / 4, 0]]
        vecds := [[(1, 1), (2, 2), (3, 3), (0, 0)]]
        matds := []
        ints := [] } }

/-! ## The cell linked list of a real body (`base_body.cpp`) -/

/-- A call made by `RealBody` to one of the two functions whose code is not part of the sources
at hand, with, for `UpdateCellLists`, the ghost count of the particle store it is handed. -/
inductive BodyCall where
  | sortParticles
  | UpdateCellLists (total_ghost_particles : Nat)
deriving DecidableEq

/-- The functions that `RealBody` calls and whose code is not part of the sources at hand:
`createCellLinkedList` (its result), `BaseParticles::sortParticles(cell_linked_list)` and
`BaseCellLinkedList::UpdateCellLists(base_particles)`. -/
structure BodyFunctions where
  createCellLinkedList : MeshCellLinkedList
  sortParticles : MeshCellLinkedList → BaseParticles → BaseParticles
  UpdateCellLists : MeshCellLinkedList → BaseParticles → MeshCellLinkedList

/-- The members of `RealBody` used by `updateCellLinkedList`, and `calls_`, the record of the
calls made so far to `sortParticles` and `UpdateCellLists`, oldest first. -/
structure RealBody where
  base_particles_ : BaseParticles
  cell_linked_list_created_ : Bool
  cell_linked_list_ptr_ : MeshCellLinkedList
  newly_moved_ : Bool
  to_update_cell_linked_list_ : Bool
  iteration_count_ : Nat
  sorting_interval_ : Nat
  calls_ : List BodyCall

/-- Function `RealBody::getCellLinkedList`: the body after the call; the returned reference is
its `cell_linked_list_ptr_`. -/
def RealBody.getCellLinkedList (functions : BodyFunctions) (body : RealBody) : RealBody :=
  if !body.cell_linked_list_created_ then
    { body with
      cell_linked_list_ptr_ := functions.createCellLinkedList
      cell_linked_list_created_ := true }
  else body

/-- The statement `base_particles_->sortParticles(getCellLinkedList())`. -/
def RealBody.sortParticles (functions : BodyFunctions) (body : RealBody) : RealBody :=
  let b1 := body.getCellLinkedList functions
  { b1 with
    base_particles_ := functions.sortParticles b1.cell_linked_list_ptr_ b1.base_particles_
    calls_ := b1.calls_ ++ [BodyCall.sortParticles] }

/-- The statement `getCellLinkedList().UpdateCellLists(*base_particles_)`. -/
def RealBody.UpdateCellLists (functions : BodyFunctions) (body : RealBody) : RealBody :=
  let b1 := body.getCellLinkedList functions
  { b1 with
    cell_linked_list_ptr_ := functions.UpdateCellLists b1.cell_linked_list_ptr_ b1.base_particles_
    calls_ := b1.calls_ ++ [BodyCall.UpdateCellLists b1.base_particles_.total_ghost_particles_] }

/-- Function `RealBody::updateCellLinkedList`. -/
def RealBody.updateCellLinkedList (functions : BodyFunctions) (body : RealBody) : RealBody :=
  if body.newly_moved_ && body.to_update_cell_linked_list_ then
    let b1 :=
      if body.iteration_count_ % body.sorting_interval_ = 0 then body.sortParticles functions
      else body
    let b2 := { b1 with iteration_count_ := b1.iteration_count_ + 1 }
    let b3 := b2.UpdateCellLists functions
    let b4 := { b3 with base_particles_ := b3.base_particles_.resetTotalGhostParticles }
    { b4 with newly_moved_ := false, to_update_cell_linked_list_ := false }
  else body

/-- Function `RealBody::updateCellLinkedList` with the remainder checked: the result is `none`
when `iteration_count_ % sorting_interval_` is evaluated with `sorting_interval_ = 0`, where the
program is stopped by the division by zero. -/
def RealBody.updateCellLinkedListChecked (functions : BodyFunctions) (body : RealBody) :
    Option RealBody :=
  if body.newly_moved_ && body.to_update_cell_linked_list_ then
    if body.sorting_interval_ = 0 then none
    else
      let b1 :=
        if body.iteration_count_ % body.sorting_interval_ = 0 then body.sortParticles functions
        else body
      let b2 := { b1 with iteration_count_ := b1.iteration_count_ + 1 }
      let b3 := b2.UpdateCellLists functions
      let b4 := { b3 with base_particles_ := b3.base_particles_.resetTotalGhostParticles }
      some { b4 with newly_moved_ := false, to_update_cell_linked_list_ := false }
  else some body

/-- Function `RealBody::updateCellLinkedListWithParticleSort`. -/
def RealBody.updateCellLinkedListWithParticleSort (functions : BodyFunctions) (body : RealBody)
    (particle_sorting_period : Nat) : RealBody :=
  let b1 :=
    if body.iteration_count_ % particle_sorting_period = 0 then body.sortParticles functions
    else body
  let b2 := { b1 with iteration_count_ := b1.iteration_count_ + 1 }
  b2.updateCellLinkedList functions

/-- The body marked as moved with the update of its cell linked list requested: both flags of
`updateCellLinkedList` set. -/
def RealBody.markMoved (body : RealBody) : RealBody :=
  { body with newly_moved_ := true, to_update_cell_linked_list_ := true }

/-- The run of `n` consecutive effective calls of `updateCellLinkedList`: before each call the
body is marked as moved and update-requested. -/
def RealBody.effectiveCalls (functions : BodyFunctions) (n : Nat) (body : RealBody) : RealBody :=
  Nat.iterate (fun b => b.markMoved.updateCellLinkedList functions) n body

/-- The run of `n` consecutive calls of `updateCellLinkedListWithParticleSort`, the body being
marked as moved and update-requested before each call. -/
def RealBody.callsWithParticleSort (functions : BodyFunctions) (particle_sorting_period : Nat)
    (n : Nat) (body : RealBody) : RealBody :=
  Nat.iterate
    (fun b => b.markMoved.updateCellLinkedListWithParticleSort functions particle_sorting_period)
    n body

/-- The number of calls of `sortParticles` recorded in a body. -/
def RealBody.sortCount (body : RealBody) : Nat :=
  body.calls_.count BodyCall.sortParticles

/-- Test functions: the particle sort leaves the store as it is, and the rebuild is the one of the
spatial grid. -/
def exampleFunctions : BodyFunctions :=
  { createCellLinkedList := MeshCellLinkedList.new 1 (2, 2)
    sortParticles := fun _ particles => particles
    UpdateCellLists := fun mesh particles => mesh.UpdateCellLists particles }

/-- The two particles of `pairParticles` with room for a third, and a ghost of the particle 0 in
slot 2, left by the previous step. -/
def ghostParticles : BaseParticles :=
  { pos_n_ := [(1 / 2, 1 / 2), (3 / 5, 1 / 2), (3 / 2, 1 / 2)]
    total_real_particles_ := 2
    real_particles_bound_ := 2
    total_ghost_particles_ := 1
    unsorted_id_ := [0, 1, 2]
    sorted_id_ := [0, 1, 0]
    sequence_ := [0, 0, 0] }

/-- A moved body whose update is requested, with the ghost of the previous step; no call made
yet, sorting every 100 iterations. -/
def exampleBody (iteration_count : Nat) : RealBody :=
  { base_particles_ := ghostParticles
    cell_linked_list_created_ := true
    cell_linked_list_ptr_ := MeshCellLinkedList.new 1 (2, 2)
    newly_moved_ := true
    to_update_cell_linked_list_ := true
    iteration_count_ := iteration_count
    sorting_interval_ := 100
    calls_ := [] }

/-- The number of calls of `UpdateCellLists` recorded in a body. -/
def RealBody.rebuildCount (body : RealBody) : Nat :=
  (body.calls_.filter (fun call => decide (call ≠ BodyCall.sortParticles))).length

/-! ## Checked array accesses -/

/-- The read `xs[index]`, defined for an index inside the array only. -/
def readAt {α : Type} (xs : List α) (index : Nat) : Option α :=
  if index < xs.length then xs[index]? else none

/-- The write `xs[index] = value`, defined for an index inside the array only. -/
def writeAt {α : Type} (xs : List α) (index : Nat) (value : α) : Option (List α) :=
  if index < xs.length then some (xs.set index value) else none

/-- The assignment `xs[this_index] = xs[another_index]` in one array, with both accesses
checked. -/
def copyValueChecked {α : Type} (xs : List α) (this_index another_index : Nat) :
    Option (List α) :=
  (readAt xs another_index).bind (fun value => writeAt xs this_index value)

/-- The assignment `xs[this_index] = xs[another_index]` in every array of a list of arrays, with
all accesses checked. -/
def copyValuesChecked {α : Type} : List (List α) → Nat → Nat → Option (List (List α))
  | [], _, _ => some []
  | xs :: rest, this_index, another_index =>
    (copyValueChecked xs this_index another_index).bind (fun ys =>
      (copyValuesChecked rest this_index another_index).bind (fun more => some (ys :: more)))

/-- The functor `copy_a_particle_value_` (see `BaseParticles.copy_a_particle_value_`) with every
array access checked. -/
def BaseParticles.copy_a_particle_value_checked (particles : BaseParticles)
    (this_index another_index : Nat) : Option BaseParticles :=
  (copyValueChecked particles.pos_n_ this_index another_index).bind (fun pos_n =>
  (copyValuesChecked particles.all_particle_data_.reals this_index another_index).bind
    (fun reals =>
  (copyValuesChecked particles.all_particle_data_.vecds this_index another_index).bind
    (fun vecds =>
  (copyValuesChecked particles.all_particle_data_.matds this_index another_index).bind
    (fun matds =>
  (copyValuesChecked particles.all_particle_data_.ints this_index another_index).bind
    (fun ints =>
  some { particles with
    pos_n_ := pos_n
    all_particle_data_ := { reals := reals, vecds := vecds, matds := matds, ints := ints } })))))

/-- The decrement `n - 1` of a `size_t`, defined when it does not wrap below zero. -/
def sizeDecrementChecked (n : Nat) : Option Nat := if n = 0 then none else some (n - 1)

/-- The exchange `std::swap(xs[i], xs[j])` with both elements inside the array. -/
def swapValuesChecked (xs : List Nat) (i j : Nat) : Option (List Nat) :=
  (readAt xs i).bind (fun a => (readAt xs j).bind (fun b =>
    (writeAt xs i b).bind (fun ys => writeAt ys j a)))

/-- Function `BaseParticles::switchToBufferParticle` with every array access and both
decrements of `total_real_particles_` checked: the result is `none` as soon as an index lies
outside its array or a decrement would wrap below zero. -/
def BaseParticles.switchToBufferParticleChecked (particles : BaseParticles) (index_i : Nat) :
    Option BaseParticles :=
  (sizeDecrementChecked particles.total_real_particles_).bind (fun last_real_particle_index =>
    let p1 : Option BaseParticles :=
      if index_i < last_real_particle_index then
        (particles.copy_a_particle_value_checked index_i last_real_particle_index).bind
          (fun p2 =>
        (swapValuesChecked p2.unsorted_id_ index_i last_real_particle_index).bind
          (fun unsorted_id =>
        (readAt unsorted_id index_i).bind (fun id =>
        (writeAt p2.sorted_id_ id index_i).bind (fun sorted_id =>
          some { p2 with unsorted_id_ := unsorted_id, sorted_id_ := sorted_id }))))
      else some particles
    p1.bind (fun p5 =>
      (sizeDecrementChecked p5.total_real_particles_).bind (fun total_real_particles =>
        some { p5 with total_real_particles_ := total_real_particles })))

/-! ## The execution instance (`execution_instance.h`) -/

/-- The number of values of `size_t`. -/
def SIZE_MODULUS : Nat := 2 ^ 64

/-- Function `ExecutionInstance::getUniformNdRange(global_size, local_size)`: the global and the
local range of the returned `sycl::nd_range<1>`. The arithmetic is that of `size_t`, modulo
`2 ^ 64`; the division by `local_size = 0` is undefined and gives `none`. -/
def getUniformNdRange (global_size local_size : Nat) : Option (Nat × Nat) :=
  if local_size = 0 then none
  else
    some
      (if global_size % local_size ≠ 0 then
          ((global_size / local_size + 1) % SIZE_MODULUS * local_size) % SIZE_MODULUS
        else global_size,
        local_size)

/-- The part of `ExecutionInstance` read by `getUniformNdRange`. -/
structure ExecutionInstance where
  work_group_size_ : Nat

/-- The constructor `ExecutionInstance()`: `work_group_size_(32)`. -/
def ExecutionInstance.new : ExecutionInstance := { work_group_size_ := 32 }

/-- Function `ExecutionInstance::getUniformNdRange(global_size)`. -/
def ExecutionInstance.getUniformNdRange (self : ExecutionInstance) (global_size : Nat) :
    Option (Nat × Nat) :=
  SPH.getUniformNdRange global_size self.work_group_size_

/-! ## Discrete variables (`base_variables.h`) -/

/-- The constant `sharedVariable`. -/
def sharedVariable : Bool := true

/-- One container of a `DiscreteVariableAssemble`: the vector of the addresses of the discrete
variables of one data type. An entry is given by the name of the variable it points to (the
member `name_` is `const`). -/
abbrev VariableContainer := List String

/-- The type `DiscreteVariableAssemble`: one container for each data type, selected by
`DataTypeIndex<DataType>::value` (the tuple type `DataContainerAddressAssemble` is not part of the
sources at hand). -/
abbrev DiscreteVariableAssemble := Nat → VariableContainer

/-- The assemble every container of which is empty. -/
def emptyAssemble : DiscreteVariableAssemble := fun _ => []

/-- A `DiscreteVariable<DataType>`: its name, the index of its data type and
`index_in_container_`. -/
structure DiscreteVariable where
  name_ : String
  type_index : Nat
  index_in_container_ : Nat
deriving DecidableEq

/-- Function `DiscreteVariable::IndexInContainer`. -/
def DiscreteVariable.IndexInContainer (self : DiscreteVariable) : Nat := self.index_in_container_

/-- The loop `while (i != variable_container.size())` of `determineIndex`, on the entries of the
container from position `i` on: the position of the first entry named `name`, or the size of the
container when the loop ends. -/
def determineIndexLoop (name : String) : VariableContainer → Nat → Nat
  | [], i => i
  | entry :: rest, i => if entry = name then i else determineIndexLoop name rest (i + 1)

/-- Function `DiscreteVariable::determineIndex`, for the variable named `name`. -/
def determineIndex (name : String) (variable_container : VariableContainer) : Nat :=
  determineIndexLoop name variable_container 0

/-- Function `DiscreteVariable::initializeIndex`, for the variable named `name` of the data type
number `type_index`: the assemble as the call leaves it, and the returned index, or the error
with which `exit(1)` ends the program. -/
def initializeIndex (name : String) (type_index : Nat)
    (variable_assemble : DiscreteVariableAssemble) (is_shared : Bool) :
    DiscreteVariableAssemble × Except String Nat :=
  let variable_container := variable_assemble type_index
  let determined_index := determineIndex name variable_container
  if determined_index = variable_container.length then
    (Function.update variable_assemble type_index (variable_container ++ [name]),
      Except.ok determined_index)
  else if !is_shared then
    (variable_assemble, Except.error ("Error: the variable: " ++ name ++ " is already used!"))
  else
    (variable_assemble, Except.ok determined_index)

/-- The constructor `DiscreteVariable(variable_assemble, name, is_shared)` for the data type
number `type_index` (`is_shared` is `!sharedVariable` when omitted): the assemble as the
constructor leaves it, and the variable constructed, or the error. -/
def DiscreteVariable.new (variable_assemble : DiscreteVariableAssemble) (type_index : Nat)
    (name : String) (is_shared : Bool) : DiscreteVariableAssemble × Except String DiscreteVariable :=
  let result := initializeIndex name type_index variable_assemble is_shared
  (result.1,
    match result.2 with
    | Except.ok index =>
      Except.ok { name_ := name, type_index := type_index, index_in_container_ := index }
    | Except.error message => Except.error message)

/-- A request for the construction of a discrete variable. -/
structure Construction where
  type_index : Nat
  name : String
  is_shared : Bool
deriving DecidableEq

/-- Successive constructions on one assemble, in the order of the list: the assemble at the end
and the variables constructed, in order. The first failing construction ends the program: the
remaining requests are not run and its error is the result. -/
def constructAll : DiscreteVariableAssemble → List Construction →
    DiscreteVariableAssemble × Except String (List DiscreteVariable)
  | variable_assemble, [] => (variable_assemble, Except.ok [])
  | variable_assemble, request :: rest =>
    match DiscreteVariable.new variable_assemble request.type_index request.name
        request.is_shared with
    | (assemble, Except.ok created) =>
      match constructAll assemble rest with
      | (final, Except.ok others) => (final, Except.ok (created :: others))
      | (final, Except.error message) => (final, Except.error message)
    | (assemble, Except.error message) => (assemble, Except.error message)

/-- Four requests: "Volume", "Velocity" and "Mass", then "Volume" again, declared shared. -/
def exampleConstructions : List Construction :=
  [{ type_index := 0, name := "Volume", is_shared := false },
    { type_index := 1, name := "Velocity", is_shared := false },
    { type_index := 0, name := "Mass", is_shared := false },
    { type_index := 0, name := "Volume", is_shared := true }]

/-! ## Interpolation to observers (`observer_dynamics.h`) -/

/-- The part of `InterpolatingAQuantity<VariableType>` read and written by `Interaction`, for
`VariableType = Real`: one neighbour configuration, one volume array and one data array for each
contact body. `TinyReal` is a constant whose definition is not part of the sources at hand; it is
carried as a field. -/
structure InterpolatingAQuantity where
  contact_configuration_ : List ParticleConfiguration
  contact_Vol_ : List (List Real)
  contact_data_ : List (List Real)
  interpolated_quantities_ : List Real
  TinyReal : Real

/-- The loop `for (size_t n = 0; n != contact_neighborhood.current_size_; ++n)` of
`Interaction`, on the pair `(observed_quantity, ttl_weight)`. -/
def interpolationLoop (Vol_k data_k : List Real) (contact_neighborhood : Neighborhood)
    (sums : Real × Real) : Real × Real :=
  (List.range contact_neighborhood.current_size_).foldl
    (fun sums n =>
      let index_j := contact_neighborhood.j_.getD n 0
      let weight_j := contact_neighborhood.W_ij_.getD n 0 * Vol_k.getD index_j 0
      (sums.1 + weight_j * data_k.getD index_j 0, sums.2 + weight_j))
    sums

/-- The contact neighbourhood `(*contact_configuration_[k])[index_i]`. -/
def InterpolatingAQuantity.contactNeighborhood (self : InterpolatingAQuantity)
    (k index_i : Nat) : Neighborhood :=
  (self.contact_configuration_.getD k []).getD index_i default

/-- The pair `(observed_quantity, ttl_weight)` of `Interaction` after the loop over the contact
bodies `k`, both started at 0. -/
def InterpolatingAQuantity.sums (self : InterpolatingAQuantity) (index_i : Nat) : Real × Real :=
  (List.range self.contact_configuration_.length).foldl
    (fun sums k =>
      interpolationLoop (self.contact_Vol_.getD k []) (self.contact_data_.getD k [])
        (self.contactNeighborhood k index_i) sums)
    (0, 0)

/-- The quotient `a / b`, defined for a divisor other than 0 only. -/
def divideChecked (a b : Real) : Option Real := if b = 0 then none else some (a / b)

/-- Function `InterpolatingAQuantity::Interaction(index_i)`; the result is `none` when the
division has the divisor 0. -/
def InterpolatingAQuantity.Interaction (self : InterpolatingAQuantity) (index_i : Nat) :
    Option InterpolatingAQuantity :=
  let sums := self.sums index_i
  (divideChecked sums.1 (sums.2 + self.TinyReal)).map
    (fun quotient =>
      { self with
        interpolated_quantities_ := self.interpolated_quantities_.set index_i quotient })

/-- The entries `(j_[n], W_ij_[n])`, `n < current_size_`, of a neighbourhood. -/
def Neighborhood.entries (neighborhood : Neighborhood) : List (Nat × Real) :=
  (List.range neighborhood.current_size_).map
    (fun n => (neighborhood.j_.getD n 0, neighborhood.W_ij_.getD n 0))

/-- An observer with one contact body of three particles; the observer particle 0 has the
neighbours 2, 0 and 1. -/
def exampleObserver : InterpolatingAQuantity :=
  { contact_configuration_ :=
      [[{ current_size_ := 3, allocated_size_ := 4, j_ := [2, 0, 1, 0],
          W_ij_ := [1 / 2, 1 / 4, 1 / 8, 0], dW_ij_ := [0, 0, 0, 0], r_ij_ := [1, 2, 3, 0],
          e_ij_ := [(1, 0), (1, 0), (1, 0), (0, 0)] }]]
    contact_Vol_ := [[1, 2, 4]]
    contact_data_ := [[8, 16, 32]]
    interpolated_quantities_ := [0]
    TinyReal := 1 / 1000000 }

/-- The observer `exampleObserver` with the neighbours of particle 0 listed in the order 1, 2, 0,
each with its own kernel value. -/
def exampleObserverPermuted : InterpolatingAQuantity :=
  { exampleObserver with
    contact_configuration_ :=
      [[{ current_size_ := 3, allocated_size_ := 4, j_ := [1, 2, 0, 0],
          W_ij_ := [1 / 8, 1 / 2, 1 / 4, 0], dW_ij_ := [0, 0, 0, 0], r_ij_ := [3, 1, 2, 0],
          e_ij_ := [(1, 0), (1, 0), (1, 0), (0, 0)] }]] }

/-- An observer whose particle 0 has no neighbour in its two contact bodies. -/
def lonelyObserver : InterpolatingAQuantity :=
  { contact_configuration_ := [[default], [default]]
    contact_Vol_ := [[1], [2]]
    contact_data_ := [[5], [7]]
    interpolated_quantities_ := [3]
    TinyReal := 1 / 1000000 }

/-! ## The configuration memories of the relations of a body -/

/-- A relation built on a body, `SPHRelation`: a `BaseInnerRelation` with its
`inner_configuration_`, or a `BaseContactRelation` with its `contact_configuration_`, one
neighbour configuration for each contact body. -/
inductive SPHRelation where
  | inner (inner_configuration_ : ParticleConfiguration)
  | contact (contact_configuration_ : List ParticleConfiguration)
deriving DecidableEq

/-- The `Neighborhood` arrays of a relation. -/
def SPHRelation.configurations : SPHRelation → List ParticleConfiguration
  | SPHRelation.inner inner_configuration_ => [inner_configuration_]
  | SPHRelation.contact contact_configuration_ => contact_configuration_

/-- Modelled from the spec: function `updateConfigurationMemories` of `BaseInnerRelation` and of
`BaseContactRelation`, declared in `base_body_relation.h`, whose bodies are not part of the
sources at hand: "grow the `Neighborhood` array (one slot per particle) preserving existing
entries", the slots being those of the particles below `real_particles_bound_` and a new slot
holding `Neighborhood()`. -/
def SPHRelation.updateConfigurationMemories (base_particles_ : BaseParticles) :
    SPHRelation → SPHRelation
  | SPHRelation.inner inner_configuration_ =>
    SPHRelation.inner (resize inner_configuration_ base_particles_.real_particles_bound_ default)
  | SPHRelation.contact contact_configuration_ =>
    SPHRelation.contact
      (contact_configuration_.map
        (fun configuration => resize configuration base_particles_.real_particles_bound_ default))

/-- The part of `SPHBody` read and written by `allocateConfigurationMemoriesForBufferParticles`:
the particle store and the list `all_relations_` of the relations built on the body.
`memory_updates_` is the record of the calls of `updateConfigurationMemories`, by the position of
the relation called in `all_relations_`. -/
structure SPHBodyRelations where
  base_particles_ : BaseParticles
  all_relations_ : List SPHRelation
  memory_updates_ : List Nat

/-- Function `SPHBody::allocateConfigurationMemoriesForBufferParticles`: the loop over
`i = 0, ..., all_relations_.size() - 1`. -/
def SPHBodyRelations.allocateConfigurationMemoriesForBufferParticles
    (body : SPHBodyRelations) : SPHBodyRelations :=
  (List.range body.all_relations_.length).foldl
    (fun body i =>
      { body with
        all_relations_ := body.all_relations_.modify
          (fun relation => relation.updateConfigurationMemories body.base_particles_) i
        memory_updates_ := body.memory_updates_ ++ [i] })
    body

/-- The body after `addBufferParticles(k)` on its particle store. -/
def SPHBodyRelations.addBufferParticles (body : SPHBodyRelations) (buffer_size : Nat) :
    SPHBodyRelations :=
  { body with base_particles_ := body.base_particles_.addBufferParticles buffer_size }

/-- A body on the store `exampleStore` (four slots) with an inner relation and a contact relation
to two bodies; particle 1 has one inner neighbour. -/
def exampleBodyRelations : SPHBodyRelations :=
  { base_particles_ := exampleStore
    all_relations_ :=
      [SPHRelation.inner
          [default,
            { current_size_ := 1, allocated_size_ := 1, j_ := [0], W_ij_ := [1 / 2],
              dW_ij_ := [1], r_ij_ := [1], e_ij_ := [(1, 0)] },
            default, default],
        SPHRelation.contact [[default, default, default, default], []]]
    memory_updates_ := [] }

/-! ## The wall function of the turbulence model (`k-epsilon_turbulent_model.cpp`) -/

/-- The scalar product `a.dot(b)` of two vectors. -/
def dot (a b : Vecd) : Real := a.1 * b.1 + a.2 * b.2

/-- The part of `StandardWallFunctionCorrection` read by `interaction` up to the assignment of
`y_p_`: for each contact body a neighbour configuration, the volumes and the normals of its
particles. `TinyReal` and the function `findSignedDistance` of the level set shape are not part
of the sources at hand; they are carried as fields. -/
structure StandardWallFunctionCorrection where
  contact_configuration_ : List ParticleConfiguration
  contact_Vol_ : List (List Real)
  contact_n_ : List (List Vecd)
  pos_ : List Vecd
  vel_ : List Vecd
  particle_spacing_ : Real
  cutoff_radius_ : Real
  offset_dist_ : Real
  dimension_ : Int
  TinyReal : Real
  findSignedDistance : Vecd → Real

/-- The local variables of `interaction(index_i)` and the values of the entries `index_i` of the
arrays it writes, up to the assignment of `y_p_`. -/
structure WallFunctionState where
  r_dummy_normal : Real
  r_min : Real
  e_i_nearest_tau : Vecd
  e_i_nearest_n : Vecd
  ttl_weight : Real
  r_dmy_itfc_n_sum : Real
  count_average : Int
  is_near_wall_P2_ : Int
  index_nearest : Int
  velo_tan_ : Real
  dist_to_dmy_interface_ : Real
  dist_to_dmy_itfc_ls_ : Real
  dist_to_dmy_itfc_aver_ : Real
  is_near_wall_P1_ : Int
  y_p_ : Real
deriving DecidableEq

/-- The contact neighbourhood `(*contact_configuration_[k])[index_i]`. -/
def StandardWallFunctionCorrection.contactNeighborhood (self : StandardWallFunctionCorrection)
    (k index_i : Nat) : Neighborhood :=
  (self.contact_configuration_.getD k []).getD index_i default

/-- The distance `r_dmy_n_j` of `interaction` for a neighbour at the distance `r_ij` in the
direction `e_ij` whose normal is `n_k_j`. -/
def StandardWallFunctionCorrection.distanceToDummyInterface
    (self : StandardWallFunctionCorrection) (n_k_j : Vecd) (r_ij : Real) (e_ij : Vecd) : Real :=
  |dot n_k_j (r_ij * e_ij.1, r_ij * e_ij.2)| - 1 / 2 * self.particle_spacing_

/-- The body of the loop over `n` of `interaction`, lines 555-596. The messages of the double
check, which change no variable, are left out. -/
def StandardWallFunctionCorrection.neighborStep (self : StandardWallFunctionCorrection)
    (Vol_k : List Real) (n_k : List Vecd) (contact_neighborhood : Neighborhood)
    (state : WallFunctionState) (n : Nat) : WallFunctionState :=
  let index_j := contact_neighborhood.j_.getD n 0
  let weight_j := contact_neighborhood.W_ij_.getD n 0 * Vol_k.getD index_j 0
  let r_ij := contact_neighborhood.r_ij_.getD n 0
  let e_ij := contact_neighborhood.e_ij_.getD n 0
  let n_k_j := n_k.getD index_j 0
  let r_dmy_n_j := self.distanceToDummyInterface n_k_j r_ij e_ij
  let s1 :=
    if r_ij < state.r_min ∧ r_dmy_n_j > 0 + self.TinyReal then
      { state with
        r_min := r_ij
        r_dummy_normal := r_dmy_n_j
        e_i_nearest_n := n_k_j
        e_i_nearest_tau :=
          if self.dimension_ = 2 then (n_k_j.2, n_k_j.1 * (-1)) else state.e_i_nearest_tau
        dist_to_dmy_interface_ := r_dmy_n_j
        index_nearest := (index_j : Int) }
    else state
  if r_dmy_n_j - s1.r_dummy_normal > -1 * self.TinyReal then
    { s1 with
      count_average := s1.count_average + 1
      r_dmy_itfc_n_sum := s1.r_dmy_itfc_n_sum + weight_j * r_dmy_n_j
      ttl_weight := s1.ttl_weight + weight_j }
  else s1

/-- The body of the loop over the contact bodies `k` of `interaction`, lines 544-597. -/
def StandardWallFunctionCorrection.bodyStep (self : StandardWallFunctionCorrection)
    (index_i : Nat) (state : WallFunctionState) (k : Nat) : WallFunctionState :=
  let Vol_k := self.contact_Vol_.getD k []
  let n_k := self.contact_n_.getD k []
  let contact_neighborhood := self.contactNeighborhood k index_i
  let s1 :=
    if contact_neighborhood.current_size_ ≠ 0 then
      { state with
        dist_to_dmy_itfc_ls_ := |self.findSignedDistance (self.pos_.getD index_i 0)| }
    else state
  (List.range contact_neighborhood.current_size_).foldl
    (self.neighborStep Vol_k n_k contact_neighborhood) s1

/-- The state of `interaction` before the loop over the contact bodies, lines 514-537. -/
def WallFunctionState.initial : WallFunctionState :=
  { r_dummy_normal := 0, r_min := 1000, e_i_nearest_tau := 0, e_i_nearest_n := 0,
    ttl_weight := 0, r_dmy_itfc_n_sum := 0, count_average := 0, is_near_wall_P2_ := 0,
    index_nearest := 0, velo_tan_ := 0, dist_to_dmy_interface_ := 0, dist_to_dmy_itfc_ls_ := 0,
    dist_to_dmy_itfc_aver_ := 0, is_near_wall_P1_ := 0, y_p_ := 0 }

/-- The state of `interaction` after the loop over the contact bodies, line 598. -/
def StandardWallFunctionCorrection.nearestInfo (self : StandardWallFunctionCorrection)
    (index_i : Nat) : WallFunctionState :=
  (List.range self.contact_configuration_.length).foldl (self.bodyStep index_i)
    WallFunctionState.initial

/-- The classification of the near wall particles, lines 601-609. -/
def StandardWallFunctionCorrection.classify (self : StandardWallFunctionCorrection)
    (state : WallFunctionState) : WallFunctionState :=
  if state.r_dummy_normal < (self.cutoff_radius_ - 1 / 2 * self.particle_spacing_) +
        self.TinyReal ∧
      state.r_dummy_normal > 0 * self.particle_spacing_ + self.TinyReal then
    let s1 := { state with is_near_wall_P2_ := 10 }
    if s1.r_dummy_normal < 1 * self.particle_spacing_ then { s1 with is_near_wall_P1_ := 1 }
    else s1
  else state

/-- The average of the distance to the wall, lines 612-624. The message of the check is left
out. -/
def StandardWallFunctionCorrection.average (state : WallFunctionState) : WallFunctionState :=
  if state.is_near_wall_P2_ = 10 ∧ state.ttl_weight ≠ 0 then
    let r_dummy_normal := state.r_dmy_itfc_n_sum / state.ttl_weight
    { state with r_dummy_normal := r_dummy_normal, dist_to_dmy_itfc_aver_ := r_dummy_normal }
  else state

/-- Function `StandardWallFunctionCorrection::interaction(index_i)`, lines 512-647: the state
after the assignment of `y_p_`. The messages of the checks are left out, and so is the rest of
the function, which computes the friction velocity from `y_p_` with `sqrt`, `log` and `pow`. -/
def StandardWallFunctionCorrection.interaction (self : StandardWallFunctionCorrection)
    (index_i : Nat) : WallFunctionState :=
  let s1 := self.nearestInfo index_i
  let s2 := self.classify s1
  let s3 := StandardWallFunctionCorrection.average s2
  if s3.is_near_wall_P2_ = 10 then
    { s3 with
      velo_tan_ := |dot s3.e_i_nearest_tau (self.vel_.getD index_i 0)|
      y_p_ := s3.r_dummy_normal + self.offset_dist_ }
  else s3

/-- The entries `(j_[n], W_ij_[n], r_ij_[n], e_ij_[n])`, `n < current_size_`, of a
neighbourhood. -/
def Neighborhood.wallEntries (neighborhood : Neighborhood) : List (Nat × Real × Real × Vecd) :=
  (List.range neighborhood.current_size_).map
    (fun n => (neighborhood.j_.getD n 0, neighborhood.W_ij_.getD n 0,
      neighborhood.r_ij_.getD n 0, neighborhood.e_ij_.getD n 0))

/-- The neighbourhood with the given entries `(j, W_ij, r_ij, e_ij)`. -/
def Neighborhood.ofWallEntries (entries : List (Nat × Real × Real × Vecd)) : Neighborhood :=
  { current_size_ := entries.length
    allocated_size_ := entries.length
    j_ := entries.map (fun e => e.1)
    W_ij_ := entries.map (fun e => e.2.1)
    dW_ij_ := entries.map (fun _ => 0)
    r_ij_ := entries.map (fun e => e.2.2.1)
    e_ij_ := entries.map (fun e => e.2.2.2) }

/-- A fluid particle next to one wall body of three particles with the normal `(0, 1)`, the
particle spacing 1 and the cutoff radius 2.6; the neighbours of the fluid particle are given by
their entries. -/
def exampleWall (entries : List (Nat × Real × Real × Vecd)) : StandardWallFunctionCorrection :=
  { contact_configuration_ := [[Neighborhood.ofWallEntries entries]]
    contact_Vol_ := [[1, 1, 1]]
    contact_n_ := [[(0, 1), (0, 1), (0, 1)]]
    pos_ := [(0, 0)]
    vel_ := [(1, 0)]
    particle_spacing_ := 1
    cutoff_radius_ := 13 / 5
    offset_dist_ := 0
    dimension_ := 2
    TinyReal := 1 / 1000000
    findSignedDistance := fun _ => 1 }

/-- The wall particle 0, straight below the fluid particle at the distance 1. -/
def wallEntryBelow : Nat × Real × Real × Vecd := (0, 1, 1, (0, 1))

/-- The wall particle 1, at the distance 5/4 in the direction `(4/5, 3/5)`. -/
def wallEntryAside : Nat × Real × Real × Vecd := (1, 1, 5 / 4, (4 / 5, 3 / 5))

/-- The wall particle 2, at the distance 1 in the direction `(3/5, 4/5)`. -/
def wallEntryTie : Nat × Real × Real × Vecd := (2, 1, 1, (3 / 5, 4 / 5))

/-- The neighbours of particle `index_i` in the contact body `k`, in the order of the
neighbourhood, each as `(r_ij, r_dmy_n_j, index_j)`. -/
def StandardWallFunctionCorrection.candidates (self : StandardWallFunctionCorrection)
    (index_i k : Nat) : List (Real × Real × Nat) :=
  (self.contactNeighborhood k index_i).wallEntries.map
    (fun e =>
      (e.2.2.1,
        self.distanceToDummyInterface ((self.contact_n_.getD k []).getD e.1 0) e.2.2.1 e.2.2.2,
        e.1))

/-- The neighbours of particle `index_i` in all contact bodies that qualify as the nearest wall
particle, `r_dmy_n_j > 0 + TinyReal`, each as `(r_ij, r_dmy_n_j, index_j)`. -/
def StandardWallFunctionCorrection.qualifying (self : StandardWallFunctionCorrection)
    (index_i : Nat) : List (Real × Real × Nat) :=
  ((List.range self.contact_configuration_.length).flatMap (self.candidates index_i)).filter
    (fun c => decide (c.2.1 > 0 + self.TinyReal))

/-- The search of the nearest wall particle in one step of the loop: the variables `r_min`,
`r_dummy_normal`, `dist_to_dmy_interface_[index_i]` and `index_nearest[index_i]` after the
neighbour `(r_ij, r_dmy_n_j, index_j)`. -/
def nearestStep (tiny : Real) (nearest : Real × Real × Real × Int) (c : Real × Real × Nat) :
    Real × Real × Real × Int :=
  if c.1 < nearest.1 ∧ c.2.1 > 0 + tiny then (c.1, c.2.1, c.2.1, (c.2.2 : Int)) else nearest

/-- The variables `r_min`, `r_dummy_normal`, `dist_to_dmy_interface_[index_i]` and
`index_nearest[index_i]` of a state. -/
def WallFunctionState.nearest (state : WallFunctionState) : Real × Real × Real × Int :=
  (state.r_min, state.r_dummy_normal, state.dist_to_dmy_interface_, state.index_nearest)

/-! ## The lattice in double precision -/

/-- The sum `a + b` of two `double`. -/
def fadd (a b : Real) : Real := roundToDouble (a + b)

/-- The difference `a - b` of two `double`. -/
def fsub (a b : Real) : Real := roundToDouble (a - b)

/-- The integer square root of `n < 4 ^ bit`, bit by bit from the highest: `root` holds the bits
found so far. -/
def sqrtBits : Nat → Nat → Nat → Nat
  | 0, _, root => root
  | bit + 1, n, root =>
    if (root + 2 ^ bit) * (root + 2 ^ bit) ≤ n then sqrtBits bit n (root + 2 ^ bit)
    else sqrtBits bit n root

/-- The square root `sqrt(q)` of a `double`, correctly rounded (IEEE 754, round to nearest, ties
to even): with `4 ^ k ≤ q < 4 ^ (k + 1)` the root lies in `[2 ^ k, 2 ^ (k + 1))`, its significand
of 53 bits is the integer nearest to the root of `t = q / 4 ^ (k - 52)`, and `m` is the integer
part of that root. -/
def roundSqrt (q : Real) : Real :=
  if q ≤ 0 then 0
  else
    let e := Int.log 2 q / 2 - 52
    let t := q / pow2 (2 * e)
    let m : Int := sqrtBits 53 ⌊t⌋.toNat 0
    let half := ((m : Real) + 1 / 2) * ((m : Real) + 1 / 2)
    let rounded : Int :=
      if t < half then m else if half < t then m + 1 else if m % 2 = 0 then m else m + 1
    (rounded : Real) * pow2 e

/-- The length `Vecd::norm()` of a displacement of `double` components: the square root of
`x * x + y * y`, each operation rounded. -/
def fnorm (d : Vecd) : Real := roundSqrt (fadd (fmul d.1 d.1) (fmul d.2 d.2))

/-- The difference of two positions as the scan forms it on `double`, component by component:
the exact difference, rounded. -/
def roundVecd (d : Vecd) : Vecd := (roundToDouble d.1, roundToDouble d.2)

/-- Modelled from the spec: `NeighborRelationInner::operator()` with the arithmetic of `double`.
The displacement `pos_n[num] - list_data.second` that the scan passes is a difference of `double`
positions, so the exact difference of the embedding is rounded first; the cutoff test
"`|displacement| < cutoff_radius`" compares the rounded length `Vecd::norm()` with the cutoff
radius. The record appended is that of `Neighborhood.append`. -/
def NeighborRelationInnerDouble (self : NeighborRelation) : GetNeighborRelation :=
  fun neighborhood displacement i_index j_index =>
    if i_index = j_index then neighborhood
    else if fnorm (roundVecd displacement) < self.cutoff_radius_ then
      Neighborhood.append self.numerics_ self.kernel_ neighborhood (roundVecd displacement) j_index
    else neighborhood

/-- Modelled from the spec: `CellIndexFromPosition`, "per axis: `floor(position / cell_size)`
clamped to domain", with the quotient of `double`. -/
def CellIndexFromPositionDouble (grid_spacing : Real) (number_of_cells : Vecu)
    (position : Vecd) : Vecu :=
  (clampIndex ⌊fdiv position.1 grid_spacing⌋ number_of_cells.1,
    clampIndex ⌊fdiv position.2 grid_spacing⌋ number_of_cells.2)

/-- A grid with empty buckets whose cell index is computed on `double`. -/
def MeshCellLinkedList.newDouble (grid_spacing : Real) (number_of_cells : Vecu) :
    MeshCellLinkedList :=
  { grid_spacing_ := grid_spacing
    number_of_cells_ := number_of_cells
    cell_linked_lists_ := fun _ _ => []
    CellIndexFromPosition := CellIndexFromPositionDouble grid_spacing number_of_cells }

/-- The lattice spacing of the end-to-end scenario: the `double` written `0.1`. -/
def latticeSpacingDouble : Real := roundToDouble (1 / 10)

/-- The end-to-end scenario on `double`: 10 x 10 particles at the centres of the lattice cells of
the box `[0, 1] x [0, 1]`; the coordinates of the particle `k` are the `double` values of
`(k / 10 + 0.5) * dp` and `(k % 10 + 0.5) * dp`. -/
def latticeParticlesDouble : BaseParticles :=
  { pos_n_ := (List.range 100).map (fun k =>
      (fmul (fadd ((k / 10 : Nat) : Real) (1 / 2)) latticeSpacingDouble,
        fmul (fadd ((k % 10 : Nat) : Real) (1 / 2)) latticeSpacingDouble))
    total_real_particles_ := 100
    real_particles_bound_ := 100
    total_ghost_particles_ := 0 }

/-- The cutoff radius `2 * dp` of the lattice, a product of `double`. -/
def latticeCutoffDouble : Real := fmul 2 latticeSpacingDouble

/-- The rebuilt grid of the lattice on `double`: cell size equal to the cutoff radius, 5 x 5
cells. -/
def latticeMeshDouble : MeshCellLinkedList :=
  (MeshCellLinkedList.newDouble latticeCutoffDouble (5, 5)).UpdateCellLists latticeParticlesDouble

/-- The inner relation of the lattice on `double`, cutoff radius `2 * dp`; the distance recorded
is the rounded length. -/
def latticeRelationDouble : NeighborRelation :=
  { kernel_ := exampleKernel latticeCutoffDouble
    cutoff_radius_ := latticeCutoffDouble
    numerics_ := { norm := fnorm, TinyReal := 1 / 1000000 } }

/-- The neighbourhoods of the lattice on `double` after the rebuild and the inner search of
depth 1. -/
def latticeConfigurationDouble : ParticleConfiguration :=
  searchNeighborsByParticles latticeMeshDouble 100 latticeParticlesDouble
    (List.replicate 100 default) (fun num => num) SearchDepthSingleResolution
    (NeighborRelationInnerDouble latticeRelationDouble)

/-- An interior particle of the lattice on `double`: at least `2 * dp` away from every side of
the box `[0, 1] x [0, 1]`. -/
def latticeInteriorDouble (i : Nat) : Prop :=
  latticeCutoffDouble ≤ (latticeParticlesDouble.position i).1 ∧
  (latticeParticlesDouble.position i).1 ≤ fsub 1 latticeCutoffDouble ∧
  latticeCutoffDouble ≤ (latticeParticlesDouble.position i).2 ∧
  (latticeParticlesDouble.position i).2 ≤ fsub 1 latticeCutoffDouble

instance (i : Nat) : Decidable (latticeInteriorDouble i) := by
  unfold latticeInteriorDouble
  exact inferInstance

/-! ## Evaluation of the arithmetic of `double`

The functions of this section return the values of `roundToDouble`, `roundSqrt` and `fnorm`; they
fix the order of the evaluation, so that an intermediate result is computed once. -/

/-- The value `k n`, with `n` evaluated first. -/
def forceNat {α : Type} (n : Nat) (k : Nat → α) : α :=
  match n with
  | 0 => k 0
  | m + 1 => k (m + 1)

/-- The value `k z`, with `z` evaluated first. -/
def forceInt {α : Type} (z : Int) (k : Int → α) : α :=
  match z with
  | Int.ofNat n => forceNat n (fun m => k (Int.ofNat m))
  | Int.negSucc n => forceNat n (fun m => k (Int.negSucc m))

/-- The value `k q`, with the numerator and the denominator of `q` evaluated first. -/
def forceRat {α : Type} (q : Real) (k : Real → α) : α :=
  forceInt q.num (fun n => forceNat q.den (fun d => k (Rat.divInt n d)))

/-- The value of `roundHalfEven`. -/
def roundHalfEvenFast (y : Real) : Int :=
  forceInt ⌊y⌋ (fun f =>
    if y - f < 1 / 2 then f
    else if 1 / 2 < y - f then f + 1
    else if f % 2 = 0 then f else f + 1)

/-- The value of `roundPositive`. -/
def roundPositiveFast (x : Real) : Real :=
  forceInt (Int.log 2 x - 52) (fun e =>
    forceRat (pow2 e) (fun u =>
      forceRat (x / u) (fun y => (roundHalfEvenFast y : Real) * u)))

/-- The value of `roundToDouble`. -/
def roundFast (x : Real) : Real :=
  forceRat x (fun x =>
    if x = 0 then 0 else if 0 < x then roundPositiveFast x else -roundPositiveFast (-x))

/-- The value of `roundSqrt`. -/
def roundSqrtFast (q : Real) : Real :=
  forceRat q (fun q =>
    if q ≤ 0 then 0
    else
      forceInt (Int.log 2 q / 2 - 52) (fun e =>
        forceRat (q / pow2 (2 * e)) (fun t =>
          forceNat (sqrtBits 53 ⌊t⌋.toNat 0) (fun m =>
            forceRat (((m : Real) + 1 / 2) * ((m : Real) + 1 / 2)) (fun half =>
              ((if t < half then (m : Int) else if half < t then (m : Int) + 1
                else if (m : Int) % 2 = 0 then (m : Int) else (m : Int) + 1 : Int) : Real) *
                pow2 e)))))

/-- The value of `fnorm`. -/
def fnormFast (d : Vecd) : Real :=
  forceRat (roundFast (d.1 * d.1)) (fun a =>
    forceRat (roundFast (d.2 * d.2)) (fun b =>
      forceRat (roundFast (a + b)) (fun s => roundSqrtFast s)))

/-- The ten coordinates `(m + 0.5) * dp`, `m = 0, ..., 9`, of the lattice on `double`:
`0.05`, `0.15000000000000002`, `0.25`, `0.35000000000000003`, `0.45`, `0.55`, `0.65`, `0.75`,
`0.8500000000000001`, `0.9500000000000001`. -/
def latticeCoordinates : List Real :=
  [3602879701896397 / 72057594037927936, 1351079888211149 / 9007199254740992, 1 / 4,
    6305039478318695 / 18014398509481984, 8106479329266893 / 18014398509481984,
    2476979795053773 / 4503599627370496, 5854679515581645 / 9007199254740992, 3 / 4,
    1914029841632461 / 2251799813685248, 8556839292003943 / 9007199254740992]

/-- The cutoff test of the lattice on `double` for the particles `i` and `j`, from the table of
coordinates. -/
def latticeKeep (i j : Nat) : Bool :=
  forceRat (roundFast (latticeCoordinates.getD (i / 10) 0 - latticeCoordinates.getD (j / 10) 0))
    (fun dx =>
      forceRat
        (roundFast (latticeCoordinates.getD (i % 10) 0 - latticeCoordinates.getD (j % 10) 0))
        (fun dy => decide (fnormFast (dx, dy) < 3602879701896397 / 18014398509481984)))

/-- The particle `j` lies in a cell of the scan window of depth 1 of the particle `i`: the cell
of the particle `k` is `(k / 20, k % 10 / 2)`. -/
def latticeWindow (i j : Nat) : Bool :=
  decide (|((j / 20 : Nat) : Int) - ((i / 20 : Nat) : Int)| ≤ 1 ∧
    |((j % 10 / 2 : Nat) : Int) - ((i % 10 / 2 : Nat) : Int)| ≤ 1)

/-- The number of particles `j ≠ i` of the scan window of `i` that pass the cutoff test. -/
def latticeCount (i : Nat) : Nat :=
  ((List.range 100).filter (fun j =>
    latticeWindow i j && (decide (i ≠ j) && latticeKeep i j))).length

/-! # Theorems -/

theorem mem_forRange (lo hi x : Int) : x ∈ forRange lo hi ↔ lo ≤ x ∧ x ≤ hi := by
  unfold forRange
  simp only [List.mem_map, List.mem_range]
  constructor
  · rintro ⟨k, hk, rfl⟩
    omega
  · rintro ⟨h1, h2⟩
    exact ⟨(x - lo).toNat, by omega, by omega⟩

theorem nodup_forRange (lo hi : Int) : (forRange lo hi).Nodup := by
  unfold forRange
  refine List.Nodup.map ?_ (List.nodup_range _)
  intro a b h
  simpa using h

theorem le_SMIN_iff (x a b : Int) : x ≤ SMIN a b ↔ x ≤ a ∧ x ≤ b := by
  unfold SMIN
  split <;> omega

theorem SMAX_le_iff (x a b : Int) : SMAX a b ≤ x ↔ a ≤ x ∧ b ≤ x := by
  unfold SMAX
  split <;> omega

theorem nodup_scanWindow (mesh : MeshCellLinkedList) (i j d : Int) :
    (scanWindow mesh i j d).Nodup :=
  List.Nodup.product (nodup_forRange _ _) (nodup_forRange _ _)

theorem mem_scanWindow (mesh : MeshCellLinkedList) (i j d l m : Int) :
    (l, m) ∈ scanWindow mesh i j d ↔
      |l - i| ≤ d ∧ |m - j| ≤ d ∧
      0 ≤ l ∧ l < (mesh.number_of_cells_.1 : Int) ∧
      0 ≤ m ∧ m < (mesh.number_of_cells_.2 : Int) := by
  unfold scanWindow
  rw [List.pair_mem_product, mem_forRange, mem_forRange, le_SMIN_iff, le_SMIN_iff, SMAX_le_iff,
    SMAX_le_iff, abs_le, abs_le]
  omega

theorem searchCell_eq_modify (rel : GetNeighborRelation) (p : Vecd) (index_i : Nat)
    (bucket : CellListDataVector) (cfg : ParticleConfiguration) :
    searchCell rel p index_i bucket cfg =
      cfg.modify (applyRelation rel p index_i bucket) index_i := by
  unfold searchCell applyRelation
  induction bucket generalizing cfg with
  | nil =>
    simp only [List.foldl_nil]
    exact (List.modify_id index_i cfg).symm
  | cons e es ih =>
    simp only [List.foldl_cons]
    rw [ih, List.modify_modify_eq]
    rfl

theorem applyRelation_append (rel : GetNeighborRelation) (p : Vecd) (index_i : Nat)
    (es fs : CellListDataVector) (nb : Neighborhood) :
    applyRelation rel p index_i (es ++ fs) nb =
      applyRelation rel p index_i fs (applyRelation rel p index_i es nb) := by
  unfold applyRelation
  rw [List.foldl_append]

theorem foldl_searchCell_eq_modify {γ : Type} (rel : GetNeighborRelation) (p : Vecd)
    (index_i : Nat) (bucketOf : γ → CellListDataVector) (cs : List γ)
    (cfg : ParticleConfiguration) :
    cs.foldl (fun cfg c => searchCell rel p index_i (bucketOf c) cfg) cfg =
      cfg.modify (applyRelation rel p index_i (cs.flatMap bucketOf)) index_i := by
  induction cs generalizing cfg with
  | nil =>
    simp only [List.foldl_nil, List.flatMap_nil]
    exact (List.modify_id index_i cfg).symm
  | cons c cs ih =>
    simp only [List.foldl_cons, List.flatMap_cons]
    rw [ih, searchCell_eq_modify, List.modify_modify_eq]
    congr 1
    funext nb
    simp [applyRelation_append]

theorem foldl_product {α β σ : Type} (f : σ → α × β → σ) (ls : List α) (ms : List β) (s : σ) :
    ls.foldl (fun s l => ms.foldl (fun s m => f s (l, m)) s) s =
      (List.product ls ms).foldl f s := by
  induction ls generalizing s with
  | nil => rfl
  | cons l ls ih =>
    simp only [List.foldl_cons]
    rw [ih]
    show _ = List.foldl f s (List.flatMap (l :: ls) (fun a => ms.map (Prod.mk a)))
    rw [List.flatMap_cons, List.foldl_append, List.foldl_map]
    rfl

/-- The step of `searchNeighborsByParticles` for the particle number `num` rewrites exactly one
slot of the configuration, that of `get_particle_index num`, with the calls for the scanned
entries. -/
theorem searchParticle_eq_modify (mesh : MeshCellLinkedList) (source_particles : BaseParticles)
    (get_particle_index : Nat → Nat) (get_search_range : Nat → Int)
    (rel : GetNeighborRelation) (cfg : ParticleConfiguration) (num : Nat) :
    searchParticle mesh source_particles get_particle_index get_search_range rel cfg num =
      cfg.modify
        (applyRelation rel (source_particles.pos_n_.getD (get_particle_index num) default)
          (get_particle_index num)
          (scanEntries mesh
            (mesh.CellIndexFromPosition
              (source_particles.pos_n_.getD (get_particle_index num) default)).1
            (mesh.CellIndexFromPosition
              (source_particles.pos_n_.getD (get_particle_index num) default)).2
            (get_search_range (get_particle_index num))))
        (get_particle_index num) := by
  unfold searchParticle scanEntries scanWindow
  simp only []
  rw [foldl_product (fun cfg (c : Int × Int) =>
      searchCell rel (source_particles.pos_n_.getD (get_particle_index num) default)
        (get_particle_index num) (mesh.cell_linked_lists_ c.1.toNat c.2.toNat) cfg)]
  exact foldl_searchCell_eq_modify rel _ _
    (fun c : Int × Int => mesh.cell_linked_lists_ c.1.toNat c.2.toNat) _ cfg

theorem searchNeighborsByParticles_succ (mesh : MeshCellLinkedList) (n : Nat)
    (source_particles : BaseParticles) (cfg : ParticleConfiguration)
    (get_particle_index : Nat → Nat) (get_search_range : Nat → Int)
    (rel : GetNeighborRelation) :
    searchNeighborsByParticles mesh (n + 1) source_particles cfg get_particle_index
        get_search_range rel =
      searchParticle mesh source_particles get_particle_index get_search_range rel
        (searchNeighborsByParticles mesh n source_particles cfg get_particle_index
          get_search_range rel) n := by
  unfold searchNeighborsByParticles
  rw [List.range_succ, List.foldl_append]
  rfl

/-! ## C1: the calls made for one particle -/

theorem toInt32_of_inInt32 (x : Int) (h : inInt32 x) : toInt32 x = x := by
  unfold inInt32 at h
  unfold toInt32
  omega

/-- Where the `int` computations of the scan of a particle do not overflow, the scan with the
arithmetic of `int` is the scan in the integers. -/
theorem searchParticleInt32_eq (mesh : MeshCellLinkedList) (source_particles : BaseParticles)
    (get_particle_index : Nat → Nat) (get_search_range : Nat → Int)
    (rel : GetNeighborRelation) (cfg : ParticleConfiguration) (num : Nat)
    (h : scanInInt32 mesh source_particles get_particle_index get_search_range num) :
    searchParticleInt32 mesh source_particles get_particle_index get_search_range rel cfg num =
      searchParticle mesh source_particles get_particle_index get_search_range rel cfg num := by
  obtain ⟨hi, hj, hn0, hn1, hd, hil, hiu, hjl, hju⟩ := h
  have hm0 : inInt32 ((mesh.number_of_cells_.1 : Int) - 1) := by
    unfold inInt32 at hn0 ⊢
    omega
  have hm1 : inInt32 ((mesh.number_of_cells_.2 : Int) - 1) := by
    unfold inInt32 at hn1 ⊢
    omega
  unfold searchParticleInt32 searchParticle
  simp only []
  rw [toInt32_of_inInt32 _ hi, toInt32_of_inInt32 _ hj, toInt32_of_inInt32 _ hn0,
    toInt32_of_inInt32 _ hn1, toInt32_of_inInt32 _ hd, toInt32_of_inInt32 _ hil,
    toInt32_of_inInt32 _ hiu, toInt32_of_inInt32 _ hjl, toInt32_of_inInt32 _ hju,
    toInt32_of_inInt32 _ hm0, toInt32_of_inInt32 _ hm1]

theorem searchNeighborsByParticlesInt32_succ (mesh : MeshCellLinkedList) (n : Nat)
    (source_particles : BaseParticles) (cfg : ParticleConfiguration)
    (get_particle_index : Nat → Nat) (get_search_range : Nat → Int)
    (rel : GetNeighborRelation) :
    searchNeighborsByParticlesInt32 mesh (n + 1) source_particles cfg get_particle_index
        get_search_range rel =
      searchParticleInt32 mesh source_particles get_particle_index get_search_range rel
        (searchNeighborsByParticlesInt32 mesh n source_particles cfg get_particle_index
          get_search_range rel) n := by
  unfold searchNeighborsByParticlesInt32
  rw [List.range_succ, List.foldl_append, List.foldl_cons, List.foldl_nil]

theorem Neighborhood.isReset.wf {nb : Neighborhood} (h : nb.isReset) : nb.WF := by
  unfold Neighborhood.isReset at h
  unfold Neighborhood.WF
  omega

theorem Neighborhood.isReset.neighbors_eq {nb : Neighborhood} (h : nb.isReset) :
    nb.neighbors = [] := by
  unfold Neighborhood.neighbors
  rw [h.1]
  rfl

theorem take_set_succ {α : Type} (l : List α) (n : Nat) (a : α) (h : n < l.length) :
    (l.set n a).take (n + 1) = l.take n ++ [a] := by
  induction l generalizing n with
  | nil => simp at h
  | cons x xs ih =>
    cases n with
    | zero => simp
    | succ k =>
      simp only [List.set_cons_succ, List.take_succ_cons, List.cons_append, List.cons.injEq,
        true_and]
      exact ih k (by simpa using h)

theorem Neighborhood.reserve_spec (nb : Neighborhood) (h : nb.WF) :
    nb.reserve.current_size_ = nb.current_size_ ∧
    nb.reserve.j_.take nb.current_size_ = nb.j_.take nb.current_size_ ∧
    nb.reserve.j_.length = nb.reserve.allocated_size_ ∧
    nb.current_size_ < nb.reserve.allocated_size_ := by
  obtain ⟨hlen, hle⟩ := h
  unfold Neighborhood.reserve
  by_cases hc : nb.current_size_ = nb.allocated_size_
  · simp only [hc, if_true]
    refine ⟨trivial, ?_, ?_, ?_⟩
    · unfold resize
      rw [List.take_append_of_le_length (by omega)]
    · unfold resize
      simp only [List.length_append, List.length_replicate]
      split <;> omega
    · split <;> omega
  · simp only [hc, if_false]
    refine ⟨trivial, trivial, hlen, ?_⟩
    omega

theorem Neighborhood.append_spec (numerics : Numerics) (kernel : Kernel) (nb : Neighborhood)
    (displacement : Vecd) (j_index : Nat) (h : nb.WF) :
    (Neighborhood.append numerics kernel nb displacement j_index).WF ∧
    (Neighborhood.append numerics kernel nb displacement j_index).neighbors =
      nb.neighbors ++ [j_index] := by
  obtain ⟨h1, h2, h3, h4⟩ := nb.reserve_spec h
  unfold Neighborhood.append Neighborhood.neighbors Neighborhood.WF
  simp only [List.length_set]
  refine ⟨⟨h3, ?_⟩, ?_⟩
  · omega
  · rw [h1, take_set_succ _ _ _ (by omega), h2]

theorem NeighborRelationInner_spec (self : NeighborRelation) (nb : Neighborhood)
    (displacement : Vecd) (i_index j_index : Nat) (h : nb.WF) :
    (NeighborRelationInner self nb displacement i_index j_index).WF ∧
    (NeighborRelationInner self nb displacement i_index j_index).neighbors =
      nb.neighbors ++
        (if i_index ≠ j_index ∧ withinCutoff displacement self.cutoff_radius_ = true
          then [j_index] else []) := by
  unfold NeighborRelationInner
  by_cases hij : i_index = j_index
  · simp [hij, h]
  · by_cases hc : withinCutoff displacement self.cutoff_radius_ = true
    · simp only [hij, hc, if_true, if_false, ne_eq, not_false_eq_true, and_self]
      exact Neighborhood.append_spec _ _ nb displacement j_index h
    · simp [hij, hc, h]

/-- The entries of `entries` that the inner relation records for the particle `index_i` at
`particle_position`. -/
theorem applyRelation_inner (self : NeighborRelation) (p : Vecd) (index_i : Nat)
    (entries : CellListDataVector) (nb : Neighborhood) (h : nb.WF) :
    (applyRelation (NeighborRelationInner self) p index_i entries nb).WF ∧
    (applyRelation (NeighborRelationInner self) p index_i entries nb).neighbors =
      nb.neighbors ++
        (entries.filter (fun e =>
          decide (index_i ≠ e.1) && withinCutoff (p - e.2) self.cutoff_radius_)).map
          (fun e => e.1) := by
  induction entries generalizing nb with
  | nil => simp [applyRelation, h]
  | cons e es ih =>
    obtain ⟨hw, hn⟩ := NeighborRelationInner_spec self nb (p - e.2) index_i e.1 h
    have := ih _ hw
    unfold applyRelation at this ⊢
    simp only [List.foldl_cons]
    refine ⟨this.1, ?_⟩
    rw [this.2, hn]
    by_cases h1 : index_i = e.1 <;>
      by_cases h2 : withinCutoff (p - e.2) self.cutoff_radius_ = true <;>
      simp [List.filter_cons, h1, h2]

/-- The cutoff test on squares is the comparison of the Euclidean length of the displacement
with the cutoff radius. -/
theorem withinCutoff_iff_sqrt_lt (d : Vecd) (c : Real) :
    withinCutoff d c = true ↔
      Real.sqrt ((d.1 : ℝ) * (d.1 : ℝ) + (d.2 : ℝ) * (d.2 : ℝ)) < (c : ℝ) := by
  unfold withinCutoff squaredNorm
  simp only [decide_eq_true_eq]
  constructor
  · rintro ⟨hc, h⟩
    have hc' : (0 : ℝ) < (c : ℝ) := by exact_mod_cast hc
    have h' : (d.1 : ℝ) * (d.1 : ℝ) + (d.2 : ℝ) * (d.2 : ℝ) < (c : ℝ) * (c : ℝ) := by
      exact_mod_cast h
    rw [Real.sqrt_lt' hc', sq]
    exact h'
  · intro h
    have hc' : (0 : ℝ) < (c : ℝ) := lt_of_le_of_lt (Real.sqrt_nonneg _) h
    rw [Real.sqrt_lt' hc', sq] at h
    exact ⟨by exact_mod_cast hc', by exact_mod_cast h⟩

/-! ## Frame and order independence -/

theorem searchParticle_getElem?_ne (mesh : MeshCellLinkedList) (source_particles : BaseParticles)
    (get_particle_index : Nat → Nat) (get_search_range : Nat → Int)
    (rel : GetNeighborRelation) (cfg : ParticleConfiguration) (num k : Nat)
    (h : k ≠ get_particle_index num) :
    (searchParticle mesh source_particles get_particle_index get_search_range rel cfg num)[k]? =
      cfg[k]? := by
  rw [searchParticle_eq_modify]
  exact List.getElem?_modify_ne _ _ (Ne.symm h)

theorem searchParticle_length (mesh : MeshCellLinkedList) (source_particles : BaseParticles)
    (get_particle_index : Nat → Nat) (get_search_range : Nat → Int)
    (rel : GetNeighborRelation) (cfg : ParticleConfiguration) (num : Nat) :
    (searchParticle mesh source_particles get_particle_index get_search_range rel cfg
      num).length = cfg.length := by
  rw [searchParticle_eq_modify]
  exact List.length_modify _ _ _

theorem searchParticle_comm (mesh : MeshCellLinkedList) (source_particles : BaseParticles)
    (get_particle_index : Nat → Nat) (get_search_range : Nat → Int)
    (rel : GetNeighborRelation) (cfg : ParticleConfiguration) (a b : Nat)
    (h : get_particle_index a ≠ get_particle_index b) :
    searchParticle mesh source_particles get_particle_index get_search_range rel
        (searchParticle mesh source_particles get_particle_index get_search_range rel cfg a) b =
      searchParticle mesh source_particles get_particle_index get_search_range rel
        (searchParticle mesh source_particles get_particle_index get_search_range rel cfg b) a := by
  simp only [searchParticle_eq_modify]
  exact List.modify_modify_ne _ _ _ h

/-- C5: the search keeps the length of the particle configuration and every slot
`particle_configuration[k]` whose index `k` is not `get_particle_index num` for a processed
number `num < total_real_particles`; and the step for one particle number, from any
configuration, changes no slot other than that of `get_particle_index num`: the neighbour-relation
function is handed that neighbourhood only. The cell buckets and the positions are inputs of the
search and are not part of what it returns. -/
theorem searchNeighborsByParticles_frame (mesh : MeshCellLinkedList) (total_real_particles : Nat)
    (source_particles : BaseParticles) (particle_configuration : ParticleConfiguration)
    (get_particle_index : Nat → Nat) (get_search_range : Nat → Int)
    (get_neighbor_relation : GetNeighborRelation) :
    (searchNeighborsByParticles mesh total_real_particles source_particles
        particle_configuration get_particle_index get_search_range
        get_neighbor_relation).length = particle_configuration.length ∧
    (∀ k : Nat, (∀ num : Nat, num < total_real_particles → get_particle_index num ≠ k) →
      (searchNeighborsByParticles mesh total_real_particles source_particles
        particle_configuration get_particle_index get_search_range get_neighbor_relation)[k]? =
        particle_configuration[k]?) ∧
    (∀ (cfg : ParticleConfiguration) (num k : Nat), k ≠ get_particle_index num →
      (searchParticle mesh source_particles get_particle_index get_search_range
        get_neighbor_relation cfg num)[k]? = cfg[k]?) := by
  refine ⟨?_, ?_, fun cfg num k h => searchParticle_getElem?_ne mesh _ _ _ _ cfg num k h⟩
  · induction total_real_particles with
    | zero => rfl
    | succ n ih => rw [searchNeighborsByParticles_succ, searchParticle_length, ih]
  · induction total_real_particles with
    | zero => intro k _; rfl
    | succ n ih =>
      intro k hk
      rw [searchNeighborsByParticles_succ,
        searchParticle_getElem?_ne _ _ _ _ _ _ _ _ (Ne.symm (hk n (Nat.lt_succ_self n)))]
      exact ih k (fun num hnum => hk num (Nat.lt_succ_of_lt hnum))

/-- C6: if `get_particle_index` is injective on `[0, total_real_particles)`, processing the
particle numbers `0 .. total_real_particles - 1` in any order (any permutation `order` of them)
produces the particle configuration that `searchNeighborsByParticles` produces. -/
theorem searchNeighborsByParticles_order_independent (mesh : MeshCellLinkedList)
    (total_real_particles : Nat) (source_particles : BaseParticles)
    (particle_configuration : ParticleConfiguration)
    (get_particle_index : Nat → Nat) (get_search_range : Nat → Int)
    (get_neighbor_relation : GetNeighborRelation)
    (hinj : ∀ a b : Nat, a < total_real_particles → b < total_real_particles →
      get_particle_index a = get_particle_index b → a = b)
    (order : List Nat) (horder : order.Perm (List.range total_real_particles)) :
    order.foldl
        (searchParticle mesh source_particles get_particle_index get_search_range
          get_neighbor_relation)
        particle_configuration =
      searchNeighborsByParticles mesh total_real_particles source_particles
        particle_configuration get_particle_index get_search_range get_neighbor_relation := by
  unfold searchNeighborsByParticles
  refine List.Perm.foldl_eq' horder ?_ particle_configuration
  intro x hx y hy cfg
  by_cases hxy : x = y
  · rw [hxy]
  · have hx' : x < total_real_particles := List.mem_range.mp (horder.mem_iff.mp hx)
    have hy' : y < total_real_particles := List.mem_range.mp (horder.mem_iff.mp hy)
    exact searchParticle_comm mesh _ _ _ _ cfg x y (fun h => hxy (hinj x y hx' hy' h))

/-! ## C3: no self-pairs -/

theorem searchParticle_inner_no_self (mesh : MeshCellLinkedList)
    (source_particles : BaseParticles) (get_particle_index : Nat → Nat)
    (get_search_range : Nat → Int) (self : NeighborRelation) (cfg : ParticleConfiguration)
    (num : Nat)
    (h : ∀ (k : Nat) (nb : Neighborhood), cfg[k]? = some nb → nb.WF ∧ k ∉ nb.neighbors) :
    ∀ (k : Nat) (nb : Neighborhood),
      (searchParticle mesh source_particles get_particle_index get_search_range
        (NeighborRelationInner self) cfg num)[k]? = some nb → nb.WF ∧ k ∉ nb.neighbors := by
  intro k nb hk
  rw [searchParticle_eq_modify, List.getElem?_modify] at hk
  cases hc : cfg[k]? with
  | none => rw [hc] at hk; simp at hk
  | some nb0 =>
    rw [hc] at hk
    obtain ⟨hw, hn⟩ := h k nb0 hc
    by_cases hi : get_particle_index num = k
    · simp only [hi, if_true, Option.map_eq_map, Option.map_some', Option.some.injEq] at hk
      subst hk
      obtain ⟨hw', hn'⟩ := applyRelation_inner self
        (source_particles.pos_n_.getD (get_particle_index num) default) k
        (scanEntries mesh
          (mesh.CellIndexFromPosition
            (source_particles.pos_n_.getD (get_particle_index num) default)).1
          (mesh.CellIndexFromPosition
            (source_particles.pos_n_.getD (get_particle_index num) default)).2
          (get_search_range (get_particle_index num))) nb0 hw
      rw [hi] at hw' hn'
      refine ⟨hw', ?_⟩
      rw [hn']
      simp only [List.mem_append, List.mem_map, List.mem_filter, Bool.and_eq_true,
        decide_eq_true_eq, not_or]
      refine ⟨hn, ?_⟩
      rintro ⟨e, ⟨_, he, _⟩, rfl⟩
      exact he rfl
    · simp only [hi, if_false, Option.map_eq_map, Option.map_some', Option.some.injEq] at hk
      subst hk
      exact ⟨hw, hn⟩

/-- C3: after a neighbour search with the inner neighbour relation, started from neighbourhoods
that were reset (`current_size_ = 0`), no neighbourhood records its own particle: for every
particle `i`, no recorded neighbour index of `neighborhood[i]` equals `i`. -/
theorem searchNeighborsByParticles_inner_no_self (mesh : MeshCellLinkedList)
    (total_real_particles : Nat) (source_particles : BaseParticles)
    (particle_configuration : ParticleConfiguration)
    (get_particle_index : Nat → Nat) (get_search_range : Nat → Int) (self : NeighborRelation)
    (hreset : ∀ nb ∈ particle_configuration, nb.isReset) (i : Nat) :
    i ∉ ((searchNeighborsByParticles mesh total_real_particles source_particles
      particle_configuration get_particle_index get_search_range
      (NeighborRelationInner self)).getD i default).neighbors := by
  have key : ∀ n : Nat, ∀ (k : Nat) (nb : Neighborhood),
      (searchNeighborsByParticles mesh n source_particles particle_configuration
        get_particle_index get_search_range (NeighborRelationInner self))[k]? = some nb →
      nb.WF ∧ k ∉ nb.neighbors := by
    intro n
    induction n with
    | zero =>
      intro k nb hk
      have hmem : nb ∈ particle_configuration := List.getElem?_mem hk
      have hr := hreset nb hmem
      exact ⟨hr.wf, by rw [hr.neighbors_eq]; simp⟩
    | succ n ih =>
      rw [searchNeighborsByParticles_succ]
      exact searchParticle_inner_no_self mesh _ _ _ self _ n ih
  rw [List.getD_eq_getElem?_getD]
  cases hc : (searchNeighborsByParticles mesh total_real_particles source_particles
      particle_configuration get_particle_index get_search_range
      (NeighborRelationInner self))[i]? with
  | none => simp [Neighborhood.neighbors, default]
  | some nb => exact (key total_real_particles i nb hc).2

/-! ## The inner search over all real particles -/

theorem searchNeighborsByParticles_id_getElem? (mesh : MeshCellLinkedList) (n : Nat)
    (particles : BaseParticles) (cfg : ParticleConfiguration) (get_search_range : Nat → Int)
    (rel : GetNeighborRelation) (k : Nat) :
    (searchNeighborsByParticles mesh n particles cfg (fun num => num) get_search_range rel)[k]? =
      if k < n then
        (cfg[k]?).map (applyRelation rel (particles.position k) k
          (scanEntries mesh (cellOf mesh particles k).1 (cellOf mesh particles k).2
            (get_search_range k)))
      else cfg[k]? := by
  induction n with
  | zero => simp [searchNeighborsByParticles]
  | succ n ih =>
    rw [searchNeighborsByParticles_succ, searchParticle_eq_modify, List.getElem?_modify, ih]
    by_cases h1 : n = k
    · subst h1
      simp [BaseParticles.position, cellOf]
    · by_cases h2 : k < n
      · have h3 : k < n + 1 := by omega
        simp [h1, h2, h3]
      · have h3 : ¬ k < n + 1 := by omega
        simp [h1, h2, h3]

/-- The neighbour indices recorded for the particle `i` by the inner search over all real
particles, started from reset neighbourhoods. -/
theorem searchNeighborsByParticles_inner_neighbors (mesh : MeshCellLinkedList) (n : Nat)
    (particles : BaseParticles) (cfg : ParticleConfiguration) (get_search_range : Nat → Int)
    (self : NeighborRelation) (hreset : ∀ nb ∈ cfg, nb.isReset) (i : Nat) (hi : i < n)
    (hlen : i < cfg.length) :
    ((searchNeighborsByParticles mesh n particles cfg (fun num => num) get_search_range
      (NeighborRelationInner self)).getD i default).neighbors =
      ((scanEntries mesh (cellOf mesh particles i).1 (cellOf mesh particles i).2
          (get_search_range i)).filter
        (fun e => decide (i ≠ e.1) &&
          withinCutoff (particles.position i - e.2) self.cutoff_radius_)).map (fun e => e.1) := by
  rw [List.getD_eq_getElem?_getD, searchNeighborsByParticles_id_getElem?]
  simp only [hi, if_true]
  have hget : cfg[i]? = some cfg[i] := List.getElem?_eq_getElem hlen
  rw [hget]
  simp only [Option.map_some', Option.getD_some]
  have hr := hreset cfg[i] (List.getElem_mem hlen)
  rw [(applyRelation_inner self _ i _ cfg[i] hr.wf).2, hr.neighbors_eq]
  rfl

/-- The real particles stored in the cells of the scan window, window cell by window cell. -/
theorem scanEntries_perm (mesh : MeshCellLinkedList) (particles : BaseParticles) (total : Nat)
    (hgrid : mesh.holdsRealParticles particles total) (i j d : Int) :
    (scanEntries mesh i j d).Perm
      (((scanWindow mesh i j d).flatMap
        (fun c => (List.range total).filter (fun k => decide (cellOf mesh particles k = c)))).map
        (fun k => (k, particles.position k))) := by
  unfold scanEntries
  rw [List.map_flatMap]
  refine List.Perm.flatMap_left _ ?_
  rintro ⟨l, m⟩ hc
  obtain ⟨_, _, hl0, hl1, hm0, hm1⟩ := (mem_scanWindow mesh i j d l m).mp hc
  have hp := hgrid.2 l.toNat m.toNat (by omega) (by omega)
  have hfilter : (List.range total).filter
        (fun k => decide (mesh.CellIndexFromPosition (particles.position k) =
          (l.toNat, m.toNat))) =
      (List.range total).filter (fun k => decide (cellOf mesh particles k = (l, m))) := by
    refine List.filter_congr ?_
    intro k _
    simp only [cellOf, decide_eq_decide, Prod.ext_iff]
    constructor
    · rintro ⟨h1, h2⟩
      constructor <;> omega
    · rintro ⟨h1, h2⟩
      constructor <;> omega
  rw [hfilter] at hp
  exact hp

theorem windowParticles_nodup (mesh : MeshCellLinkedList) (particles : BaseParticles)
    (total : Nat) (i j d : Int) :
    ((scanWindow mesh i j d).flatMap
      (fun c => (List.range total).filter
        (fun k => decide (cellOf mesh particles k = c)))).Nodup := by
  rw [List.nodup_flatMap]
  refine ⟨fun c _ => (List.nodup_range total).filter _, ?_⟩
  refine List.Pairwise.imp ?_ (nodup_scanWindow mesh i j d)
  intro a b hab k hka hkb
  simp only [List.mem_filter, decide_eq_true_eq] at hka hkb
  exact hab (hka.2.symm.trans hkb.2)

theorem mem_windowParticles (mesh : MeshCellLinkedList) (particles : BaseParticles)
    (total : Nat) (i j d : Int) (k : Nat) :
    k ∈ (scanWindow mesh i j d).flatMap
      (fun c => (List.range total).filter
        (fun k => decide (cellOf mesh particles k = c))) ↔
    k < total ∧ cellOf mesh particles k ∈ scanWindow mesh i j d := by
  simp only [List.mem_flatMap, List.mem_filter, List.mem_range, decide_eq_true_eq]
  constructor
  · rintro ⟨c, hc, hk, rfl⟩
    exact ⟨hk, hc⟩
  · rintro ⟨hk, hc⟩
    exact ⟨_, hc, hk, rfl⟩

/-- The neighbours recorded for the particle `i` are, up to order, the real particles of the
window cells that differ from `i` and pass the cutoff test; no index is recorded twice. -/
theorem searchNeighborsByParticles_inner_neighbors_perm (mesh : MeshCellLinkedList) (n : Nat)
    (particles : BaseParticles) (cfg : ParticleConfiguration) (get_search_range : Nat → Int)
    (self : NeighborRelation) (hreset : ∀ nb ∈ cfg, nb.isReset)
    (hgrid : mesh.holdsRealParticles particles n) (i : Nat) (hi : i < n)
    (hlen : i < cfg.length) :
    (((searchNeighborsByParticles mesh n particles cfg (fun num => num) get_search_range
      (NeighborRelationInner self)).getD i default).neighbors).Nodup ∧
    ∀ j : Nat, j ∈ ((searchNeighborsByParticles mesh n particles cfg (fun num => num)
        get_search_range (NeighborRelationInner self)).getD i default).neighbors ↔
      j < n ∧ cellOf mesh particles j ∈ scanWindow mesh (cellOf mesh particles i).1
          (cellOf mesh particles i).2 (get_search_range i) ∧
        i ≠ j ∧
        withinCutoff (particles.position i - particles.position j) self.cutoff_radius_ = true := by
  rw [searchNeighborsByParticles_inner_neighbors mesh n particles cfg get_search_range self
    hreset i hi hlen]
  have hperm := ((scanEntries_perm mesh particles n hgrid (cellOf mesh particles i).1
    (cellOf mesh particles i).2 (get_search_range i)).filter
      (fun e => decide (i ≠ e.1) &&
        withinCutoff (particles.position i - e.2) self.cutoff_radius_)).map (fun e => e.1)
  rw [List.filter_map, List.map_map] at hperm
  have hid : ((fun e : ListData => e.1) ∘ fun k => (k, particles.position k)) = id := rfl
  rw [hid, List.map_id] at hperm
  refine ⟨hperm.nodup_iff.mpr ((windowParticles_nodup mesh particles n _ _ _).filter _), ?_⟩
  intro j
  rw [hperm.mem_iff, List.mem_filter, mem_windowParticles]
  simp only [Function.comp, Bool.and_eq_true, decide_eq_true_eq]
  tauto

theorem cellOf_mem_scanWindow (mesh : MeshCellLinkedList) (particles : BaseParticles)
    (total : Nat) (hgrid : mesh.holdsRealParticles particles total) (i j : Nat)
    (hj : j < total) (d : Int) :
    cellOf mesh particles j ∈
        scanWindow mesh (cellOf mesh particles i).1 (cellOf mesh particles i).2 d ↔
      |(cellOf mesh particles j).1 - (cellOf mesh particles i).1| ≤ d ∧
      |(cellOf mesh particles j).2 - (cellOf mesh particles i).2| ≤ d := by
  have h := mem_scanWindow mesh (cellOf mesh particles i).1 (cellOf mesh particles i).2 d
    (cellOf mesh particles j).1 (cellOf mesh particles j).2
  have hg := hgrid.1 j hj
  rw [h]
  simp only [cellOf]
  constructor
  · rintro ⟨h1, h2, _⟩
    exact ⟨h1, h2⟩
  · rintro ⟨h1, h2⟩
    refine ⟨h1, h2, ?_, ?_, ?_, ?_⟩ <;> omega

theorem withinCutoff_swap (a b : Vecd) (c : Real) :
    withinCutoff (a - b) c = withinCutoff (b - a) c := by
  unfold withinCutoff squaredNorm
  have h : (a - b).1 * (a - b).1 + (a - b).2 * (a - b).2 =
      (b - a).1 * (b - a).1 + (b - a).2 * (b - a).2 := by
    simp only [Prod.fst_sub, Prod.snd_sub]
    ring
  rw [h]

/-! ## C2: completeness -/

/-- C4: for a body whose grid holds every real particle once, in the cell of its position,
after the inner search of depth 1 with one cutoff radius from reset neighbourhoods, for every two
real particles `i` and `j`: `j` is recorded in `neighborhood[i]` if and only if `i` is recorded
in `neighborhood[j]`. -/
theorem searchNeighborsByParticles_inner_symmetric (mesh : MeshCellLinkedList)
    (total_real_particles : Nat) (particles : BaseParticles)
    (particle_configuration : ParticleConfiguration) (self : NeighborRelation)
    (hreset : ∀ nb ∈ particle_configuration, nb.isReset)
    (hlen : total_real_particles ≤ particle_configuration.length)
    (hgrid : mesh.holdsRealParticles particles total_real_particles)
    (i j : Nat) (hi : i < total_real_particles) (hj : j < total_real_particles) :
    j ∈ ((searchNeighborsByParticles mesh total_real_particles particles
          particle_configuration (fun num => num) SearchDepthSingleResolution
          (NeighborRelationInner self)).getD i default).neighbors ↔
      i ∈ ((searchNeighborsByParticles mesh total_real_particles particles
          particle_configuration (fun num => num) SearchDepthSingleResolution
          (NeighborRelationInner self)).getD j default).neighbors := by
  rw [(searchNeighborsByParticles_inner_neighbors_perm mesh total_real_particles particles
      particle_configuration SearchDepthSingleResolution self hreset hgrid i hi (by omega)).2 j,
    (searchNeighborsByParticles_inner_neighbors_perm mesh total_real_particles particles
      particle_configuration SearchDepthSingleResolution self hreset hgrid j hj (by omega)).2 i,
    cellOf_mem_scanWindow mesh particles total_real_particles hgrid i j hj,
    cellOf_mem_scanWindow mesh particles total_real_particles hgrid j i hi,
    withinCutoff_swap (particles.position i) (particles.position j),
    abs_sub_comm (cellOf mesh particles j).1, abs_sub_comm (cellOf mesh particles j).2]
  constructor
  · rintro ⟨_, h2, h3, h4⟩
    exact ⟨hi, h2, Ne.symm h3, h4⟩
  · rintro ⟨_, h2, h3, h4⟩
    exact ⟨hj, h2, Ne.symm h3, h4⟩

/-! ## The rebuilt grid -/

theorem foldl_insert_spec (particles : BaseParticles) (indices : List Nat)
    (mesh : MeshCellLinkedList) :
    (indices.foldl (fun mesh index => mesh.insert index (particles.pos_n_.getD index default))
        mesh).CellIndexFromPosition = mesh.CellIndexFromPosition ∧
    (indices.foldl (fun mesh index => mesh.insert index (particles.pos_n_.getD index default))
        mesh).number_of_cells_ = mesh.number_of_cells_ ∧
    ∀ l m : Nat,
      (indices.foldl (fun mesh index => mesh.insert index (particles.pos_n_.getD index default))
          mesh).cell_linked_lists_ l m =
        mesh.cell_linked_lists_ l m ++
          (indices.filter
            (fun j => decide (mesh.CellIndexFromPosition (particles.position j) = (l, m)))).map
            (fun j => (j, particles.position j)) := by
  induction indices generalizing mesh with
  | nil => simp
  | cons a as ih =>
    simp only [List.foldl_cons]
    obtain ⟨h1, h2, h3⟩ := ih (mesh.insert a (particles.pos_n_.getD a default))
    refine ⟨h1, h2, ?_⟩
    intro l m
    rw [h3 l m]
    simp only [MeshCellLinkedList.insert, BaseParticles.position, List.filter_cons]
    by_cases hc : mesh.CellIndexFromPosition (particles.pos_n_.getD a default) = (l, m)
    · have hlm : l = (mesh.CellIndexFromPosition (particles.pos_n_.getD a default)).1 ∧
          m = (mesh.CellIndexFromPosition (particles.pos_n_.getD a default)).2 := by
        rw [hc]
        exact ⟨rfl, rfl⟩
      rw [if_pos hlm, if_pos (decide_eq_true hc), List.map_cons,
        List.append_assoc]
      rfl
    · have hlm : ¬ (l = (mesh.CellIndexFromPosition (particles.pos_n_.getD a default)).1 ∧
          m = (mesh.CellIndexFromPosition (particles.pos_n_.getD a default)).2) := by
        rintro ⟨h1, h2⟩
        exact hc (Prod.ext h1.symm h2.symm)
      rw [if_neg hlm, if_neg (by simpa using hc)]

/-- The rebuild of the cell lists, for a body without ghost particles whose particles fall in
cells of the grid, leaves the grid holding every real particle once, in the cell of its
position. -/
theorem UpdateCellLists_holdsRealParticles (mesh : MeshCellLinkedList)
    (particles : BaseParticles) (hghost : particles.total_ghost_particles_ = 0)
    (hin : ∀ i : Nat, i < particles.total_real_particles_ →
      (mesh.CellIndexFromPosition (particles.position i)).1 < mesh.number_of_cells_.1 ∧
      (mesh.CellIndexFromPosition (particles.position i)).2 < mesh.number_of_cells_.2) :
    (mesh.UpdateCellLists particles).holdsRealParticles particles
      particles.total_real_particles_ := by
  unfold MeshCellLinkedList.UpdateCellLists MeshCellLinkedList.holdsRealParticles
  rw [hghost]
  simp only [List.range_zero, List.map_nil, List.append_nil]
  obtain ⟨h1, h2, h3⟩ := foldl_insert_spec particles
    (List.range particles.total_real_particles_)
    { mesh with cell_linked_lists_ := fun _ _ => [] }
  rw [h1, h2]
  refine ⟨hin, ?_⟩
  intro l m _ _
  rw [h3 l m]
  simp

theorem clampIndex_lt (k : Int) (n : Nat) (hn : 0 < n) : clampIndex k n < n := by
  unfold clampIndex
  omega

theorem clampIndex_sub_le (a b : Int) (n : Nat) (h : |a - b| ≤ 1) :
    |(clampIndex a n : Int) - (clampIndex b n : Int)| ≤ 1 := by
  unfold clampIndex
  rw [abs_le] at h ⊢
  omega

theorem abs_lt_of_withinCutoff (d : Vecd) (c : Real) (h : withinCutoff d c = true) :
    |d.1| < c ∧ |d.2| < c := by
  unfold withinCutoff squaredNorm at h
  simp only [decide_eq_true_eq] at h
  obtain ⟨hc, hlt⟩ := h
  constructor
  · apply abs_lt_of_sq_lt_sq' _ hc.le |> fun h => abs_lt.mpr h
    nlinarith [mul_self_nonneg d.2]
  · apply abs_lt_of_sq_lt_sq' _ hc.le |> fun h => abs_lt.mpr h
    nlinarith [mul_self_nonneg d.1]

theorem floor_div_sub_le (x y g : Real) (hg : 0 < g) (h : |x - y| < g) :
    |⌊x / g⌋ - ⌊y / g⌋| ≤ 1 := by
  rw [abs_lt] at h
  have hx := Int.floor_le (x / g)
  have hx' := Int.lt_floor_add_one (x / g)
  have hy := Int.floor_le (y / g)
  have hy' := Int.lt_floor_add_one (y / g)
  have hd : x / g - y / g < 1 := by
    rw [← sub_div, div_lt_one hg]
    exact h.2
  have hd' : y / g - x / g < 1 := by
    rw [← sub_div, div_lt_one hg]
    linarith [h.1]
  rw [abs_le]
  constructor
  · have : ((⌊y / g⌋ : Int) : Real) < (⌊x / g⌋ : Real) + 2 := by linarith
    have : ⌊y / g⌋ < ⌊x / g⌋ + 2 := by exact_mod_cast this
    omega
  · have : ((⌊x / g⌋ : Int) : Real) < (⌊y / g⌋ : Real) + 2 := by linarith
    have : ⌊x / g⌋ < ⌊y / g⌋ + 2 := by exact_mod_cast this
    omega

/-- With cells at least as large as the cutoff radius, two positions closer than the cutoff fall
in cells whose indices differ by at most 1 per axis. -/
theorem CellIndexFromPositionSpec_adjacent (grid_spacing : Real) (number_of_cells : Vecu)
    (cutoff_radius : Real) (hg : 0 < grid_spacing) (hc : cutoff_radius ≤ grid_spacing)
    (p q : Vecd) (h : withinCutoff (p - q) cutoff_radius = true) :
    |((CellIndexFromPositionSpec grid_spacing number_of_cells q).1 : Int) -
        ((CellIndexFromPositionSpec grid_spacing number_of_cells p).1 : Int)| ≤ 1 ∧
    |((CellIndexFromPositionSpec grid_spacing number_of_cells q).2 : Int) -
        ((CellIndexFromPositionSpec grid_spacing number_of_cells p).2 : Int)| ≤ 1 := by
  obtain ⟨h1, h2⟩ := abs_lt_of_withinCutoff _ _ h
  simp only [Prod.fst_sub, Prod.snd_sub] at h1 h2
  unfold CellIndexFromPositionSpec
  constructor
  · apply clampIndex_sub_le
    apply floor_div_sub_le _ _ _ hg
    rw [abs_sub_comm]
    exact lt_of_lt_of_le h1 hc
  · apply clampIndex_sub_le
    apply floor_div_sub_le _ _ _ hg
    rw [abs_sub_comm]
    exact lt_of_lt_of_le h2 hc

theorem UpdateCellLists_CellIndexFromPosition (mesh : MeshCellLinkedList)
    (particles : BaseParticles) :
    (mesh.UpdateCellLists particles).CellIndexFromPosition = mesh.CellIndexFromPosition ∧
    (mesh.UpdateCellLists particles).number_of_cells_ = mesh.number_of_cells_ := by
  unfold MeshCellLinkedList.UpdateCellLists
  obtain ⟨h1, h2, _⟩ := foldl_insert_spec particles
    (List.range particles.total_real_particles_ ++
      (List.range particles.total_ghost_particles_).map
        (fun g => particles.real_particles_bound_ + g))
    { mesh with cell_linked_lists_ := fun _ _ => [] }
  exact ⟨h1, h2⟩

/-- A fresh grid with at least one cell per axis, rebuilt for a body without ghost particles,
holds every real particle once, in the cell of its position. -/
theorem rebuilt_holdsRealParticles (grid_spacing : Real) (number_of_cells : Vecu)
    (particles : BaseParticles) (hghost : particles.total_ghost_particles_ = 0)
    (h1 : 0 < number_of_cells.1) (h2 : 0 < number_of_cells.2) :
    ((MeshCellLinkedList.new grid_spacing number_of_cells).UpdateCellLists
      particles).holdsRealParticles particles particles.total_real_particles_ :=
  UpdateCellLists_holdsRealParticles _ particles hghost
    (fun _ _ => ⟨clampIndex_lt _ _ h1, clampIndex_lt _ _ h2⟩)

/-- In a rebuilt grid whose cells are at least as large as the cutoff radius, two particles closer
than the cutoff lie in cells whose indices differ by at most 1 per axis. -/
theorem rebuilt_adjacent (grid_spacing : Real) (number_of_cells : Vecu)
    (particles : BaseParticles) (cutoff_radius : Real) (hg : 0 < grid_spacing)
    (hc : cutoff_radius ≤ grid_spacing) (i j : Nat)
    (h : withinCutoff (particles.position i - particles.position j) cutoff_radius = true) :
    |(cellOf ((MeshCellLinkedList.new grid_spacing number_of_cells).UpdateCellLists particles)
          particles j).1 -
        (cellOf ((MeshCellLinkedList.new grid_spacing number_of_cells).UpdateCellLists particles)
          particles i).1| ≤ 1 ∧
    |(cellOf ((MeshCellLinkedList.new grid_spacing number_of_cells).UpdateCellLists particles)
          particles j).2 -
        (cellOf ((MeshCellLinkedList.new grid_spacing number_of_cells).UpdateCellLists particles)
          particles i).2| ≤ 1 := by
  unfold cellOf
  rw [(UpdateCellLists_CellIndexFromPosition _ particles).1]
  exact CellIndexFromPositionSpec_adjacent grid_spacing number_of_cells cutoff_radius hg hc _ _ h

theorem replicate_default_isReset (n : Nat) :
    ∀ nb ∈ List.replicate n (default : Neighborhood), nb.isReset := by
  intro nb h
  rw [List.eq_of_mem_replicate h]
  exact ⟨rfl, rfl⟩

theorem Neighborhood.WF.length_neighbors {nb : Neighborhood} (h : nb.WF) :
    nb.neighbors.length = nb.current_size_ := by
  unfold Neighborhood.neighbors
  rw [List.length_take, h.1]
  exact min_eq_left h.2

theorem searchNeighborsByParticles_inner_wf (mesh : MeshCellLinkedList) (n : Nat)
    (particles : BaseParticles) (cfg : ParticleConfiguration) (get_search_range : Nat → Int)
    (self : NeighborRelation) (hreset : ∀ nb ∈ cfg, nb.isReset) (i : Nat) :
    ((searchNeighborsByParticles mesh n particles cfg (fun num => num) get_search_range
      (NeighborRelationInner self)).getD i default).WF := by
  rw [List.getD_eq_getElem?_getD, searchNeighborsByParticles_id_getElem?]
  cases hc : cfg[i]? with
  | none =>
    simp only [Option.map_none', ite_self, Option.getD_none]
    exact ⟨rfl, le_refl _⟩
  | some nb =>
    have hw := (hreset nb (List.getElem?_mem hc)).wf
    by_cases hi : i < n
    · simp only [hi, if_true, Option.map_some', Option.getD_some]
      exact (applyRelation_inner self _ i _ nb hw).1
    · simp only [hi, if_false, Option.getD_some]
      exact hw

/-- Under the assumptions of the completeness property, the number of neighbours recorded for the
particle `i` is the number of real particles `j ≠ i` that pass the cutoff test. -/
theorem inner_current_size_eq (mesh : MeshCellLinkedList)
    (total_real_particles : Nat) (particles : BaseParticles)
    (particle_configuration : ParticleConfiguration) (self : NeighborRelation)
    (hreset : ∀ nb ∈ particle_configuration, nb.isReset)
    (hlen : total_real_particles ≤ particle_configuration.length)
    (hgrid : mesh.holdsRealParticles particles total_real_particles)
    (hcell : ∀ i j : Nat, i < total_real_particles → j < total_real_particles →
      withinCutoff (particles.position i - particles.position j) self.cutoff_radius_ = true →
      |(cellOf mesh particles j).1 - (cellOf mesh particles i).1| ≤ 1 ∧
      |(cellOf mesh particles j).2 - (cellOf mesh particles i).2| ≤ 1)
    (i : Nat) (hi : i < total_real_particles) :
    ((searchNeighborsByParticles mesh total_real_particles particles
        particle_configuration (fun num => num) SearchDepthSingleResolution
        (NeighborRelationInner self)).getD i default).current_size_ =
      ((List.range total_real_particles).filter (fun j =>
        decide (i ≠ j) &&
          withinCutoff (particles.position i - particles.position j)
            self.cutoff_radius_)).length := by
  obtain ⟨hnodup, hmem⟩ := searchNeighborsByParticles_inner_neighbors_perm mesh
    total_real_particles particles particle_configuration SearchDepthSingleResolution self
    hreset hgrid i hi (by omega)
  rw [← (searchNeighborsByParticles_inner_wf mesh total_real_particles particles
    particle_configuration SearchDepthSingleResolution self hreset i).length_neighbors]
  refine List.Perm.length_eq ?_
  rw [List.perm_ext_iff_of_nodup hnodup ((List.nodup_range _).filter _)]
  intro j
  rw [hmem j, List.mem_filter, List.mem_range]
  simp only [Bool.and_eq_true, decide_eq_true_eq]
  constructor
  · rintro ⟨h1, _, h3, h4⟩
    exact ⟨h1, h3, h4⟩
  · rintro ⟨h1, h3, h4⟩
    refine ⟨h1, ?_, h3, h4⟩
    rw [cellOf_mem_scanWindow mesh particles total_real_particles hgrid i j h1]
    exact hcell i j hi h1 h4

/-! ## Witnesses on the lattice and on the adaptive-depth scenario -/

theorem searchNeighborsByParticles_inner_no_self_witness :
    44 ∉ (latticeConfiguration.getD 44 default).neighbors :=
  searchNeighborsByParticles_inner_no_self latticeMesh 100 latticeParticles
    (List.replicate 100 default) (fun num => num) SearchDepthSingleResolution latticeRelation
    (replicate_default_isReset 100) 44

theorem searchNeighborsByParticles_inner_symmetric_witness :
    45 ∈ (latticeConfiguration.getD 44 default).neighbors ↔
      44 ∈ (latticeConfiguration.getD 45 default).neighbors :=
  searchNeighborsByParticles_inner_symmetric latticeMesh 100 latticeParticles
    (List.replicate 100 default) latticeRelation (replicate_default_isReset 100) (by simp)
    (rebuilt_holdsRealParticles _ _ latticeParticles rfl (by decide) (by decide))
    44 45 (by decide) (by decide)

theorem searchNeighborsByParticles_frame_witness :
    (searchNeighborsByParticles scenarioMesh 3 scenarioParticles (List.replicate 4 default)
        (fun num => num) (SearchDepthAdaptive.new scenarioBody scenarioMesh).call
        (NeighborRelationInner scenarioRelation))[3]? =
      (List.replicate 4 (default : Neighborhood))[3]? :=
  (searchNeighborsByParticles_frame scenarioMesh 3 scenarioParticles (List.replicate 4 default)
    (fun num => num) (SearchDepthAdaptive.new scenarioBody scenarioMesh).call
    (NeighborRelationInner scenarioRelation)).2.1 3 (fun num hnum => by omega)

theorem searchNeighborsByParticles_order_independent_witness :
    [2, 0, 1].foldl
        (searchParticle scenarioMesh scenarioParticles (fun num => num)
          (SearchDepthAdaptive.new scenarioBody scenarioMesh).call
          (NeighborRelationInner scenarioRelation))
        (List.replicate 3 default) =
      scenarioConfiguration :=
  searchNeighborsByParticles_order_independent scenarioMesh 3 scenarioParticles
    (List.replicate 3 default) (fun num => num)
    (SearchDepthAdaptive.new scenarioBody scenarioMesh).call
    (NeighborRelationInner scenarioRelation) (fun _ _ _ _ h => h) [2, 0, 1] (by decide)

/-! ## Rounding to `double` -/

theorem pow2_eq_zpow (e : Int) : pow2 e = (2 : Real) ^ e := by
  unfold pow2
  by_cases h : 0 ≤ e
  · rw [if_pos h]
    obtain ⟨n, rfl⟩ := Int.eq_ofNat_of_zero_le h
    simp
  · rw [if_neg h]
    obtain ⟨n, hn⟩ := Int.eq_ofNat_of_zero_le (show 0 ≤ -e by omega)
    have he : e = -(n : Int) := by omega
    subst he
    simp

theorem pow2_pos (e : Int) : 0 < pow2 e := by
  rw [pow2_eq_zpow]
  positivity

theorem roundHalfEven_error (y : Real) : |(roundHalfEven y : Real) - y| ≤ 1 / 2 := by
  have h1 := Int.floor_le y
  have h2 := Int.lt_floor_add_one y
  unfold roundHalfEven
  rw [abs_le]
  split_ifs with c1 c2 c3
  · constructor <;> linarith
  · push_cast
    constructor <;> linarith
  · have : y - ⌊y⌋ = 1 / 2 := le_antisymm (not_lt.mp c2) (not_lt.mp c1)
    constructor <;> linarith
  · have : y - ⌊y⌋ = 1 / 2 := le_antisymm (not_lt.mp c2) (not_lt.mp c1)
    push_cast
    constructor <;> linarith

theorem roundPositive_error (x : Real) (hx : 0 < x) :
    |roundPositive x - x| ≤ x / 2 ^ 53 := by
  have hlog : (2 : Real) ^ Int.log 2 x ≤ x := Int.zpow_log_le_self (by norm_num) hx
  have hp := pow2_pos (Int.log 2 x - 52)
  have hpe : pow2 (Int.log 2 x - 52) * 2 ^ 52 ≤ x := by
    rw [pow2_eq_zpow, zpow_sub₀ (by norm_num : (2 : Real) ≠ 0)]
    have : (2 : Real) ^ Int.log 2 x / 2 ^ (52 : Int) * 2 ^ 52 = (2 : Real) ^ Int.log 2 x := by
      rw [zpow_ofNat]
      field_simp
    rw [this]
    exact hlog
  have herr := roundHalfEven_error (x / pow2 (Int.log 2 x - 52))
  unfold roundPositive
  have hx' : x = x / pow2 (Int.log 2 x - 52) * pow2 (Int.log 2 x - 52) := by
    field_simp
  have hsub : (roundHalfEven (x / pow2 (Int.log 2 x - 52)) : Real) *
      pow2 (Int.log 2 x - 52) - x =
      ((roundHalfEven (x / pow2 (Int.log 2 x - 52)) : Real) -
        x / pow2 (Int.log 2 x - 52)) * pow2 (Int.log 2 x - 52) := by
    field_simp
  rw [hsub, abs_mul, abs_of_pos hp]
  calc |(roundHalfEven (x / pow2 (Int.log 2 x - 52)) : Real) -
        x / pow2 (Int.log 2 x - 52)| * pow2 (Int.log 2 x - 52)
      ≤ 1 / 2 * pow2 (Int.log 2 x - 52) := mul_le_mul_of_nonneg_right herr (le_of_lt hp)
    _ ≤ x / 2 ^ 53 := by
      rw [le_div_iff₀ (by positivity)]
      have : (1 : Real) / 2 * pow2 (Int.log 2 x - 52) * 2 ^ 53 =
          pow2 (Int.log 2 x - 52) * 2 ^ 52 := by ring
      rw [this]
      exact hpe

/-- The relative error of the rounding to a `double`: at most `2 ^ (-53)`. -/
theorem roundToDouble_error (x : Real) : |roundToDouble x - x| ≤ |x| / 2 ^ 53 := by
  unfold roundToDouble
  by_cases h0 : x = 0
  · rw [if_pos h0, h0]
    simp
  · rw [if_neg h0]
    by_cases hpos : 0 < x
    · rw [if_pos hpos, abs_of_pos hpos]
      exact roundPositive_error x hpos
    · rw [if_neg hpos]
      have hneg : 0 < -x := by
        have : x < 0 := lt_of_le_of_ne (not_lt.mp hpos) h0
        linarith
      have h := roundPositive_error (-x) hneg
      have habs : |x| = -x := abs_of_neg (by linarith)
      rw [habs]
      have h2 : -roundPositive (-x) - x = -(roundPositive (-x) - -x) := by ring
      rw [h2, abs_neg]
      exact h

theorem abs_floor_sub_le_one (a b : Real) (h : |a - b| < 1) : |⌊a⌋ - ⌊b⌋| ≤ 1 := by
  rw [abs_lt] at h
  rw [abs_le]
  have a1 := Int.floor_le a
  have a2 := Int.lt_floor_add_one a
  have b1 := Int.floor_le b
  have b2 := Int.lt_floor_add_one b
  constructor
  · have : (⌊b⌋ : Real) < ⌊a⌋ + 2 := by linarith
    have : ⌊b⌋ < ⌊a⌋ + 2 := by exact_mod_cast this
    omega
  · have : (⌊a⌋ : Real) < ⌊b⌋ + 2 := by linarith
    have : ⌊a⌋ < ⌊b⌋ + 2 := by exact_mod_cast this
    omega

/-- The product of `c` with the rounded inverse of `g`, rounded, is within 1 of `c / g`. -/
theorem fmul_fdiv_error (c g : Real) (hc : 0 ≤ c) (hg : 0 < g) (hq : c / g < 2 ^ 30) :
    |fmul c (fdiv 1 g) - c / g| < 1 := by
  have hx : 0 ≤ c / g := div_nonneg hc (le_of_lt hg)
  have e1 := roundToDouble_error (1 / g)
  have e2 := roundToDouble_error (c * roundToDouble (1 / g))
  have hinv : |1 / g| = 1 / g := abs_of_pos (by positivity)
  rw [hinv] at e1
  have h1 : |c * roundToDouble (1 / g) - c / g| ≤ c / g / 2 ^ 53 := by
    have : c * roundToDouble (1 / g) - c / g = c * (roundToDouble (1 / g) - 1 / g) := by
      ring
    rw [this, abs_mul, abs_of_nonneg hc]
    calc c * |roundToDouble (1 / g) - 1 / g| ≤ c * (1 / g / 2 ^ 53) :=
          mul_le_mul_of_nonneg_left e1 hc
      _ = c / g / 2 ^ 53 := by field_simp
  have h2 : |c * roundToDouble (1 / g)| ≤ c / g + c / g / 2 ^ 53 := by
    have := abs_sub_abs_le_abs_sub (c * roundToDouble (1 / g)) (c / g)
    rw [abs_of_nonneg hx] at this
    linarith
  have h3 : |roundToDouble (c * roundToDouble (1 / g)) - c * roundToDouble (1 / g)| ≤
      (c / g + c / g / 2 ^ 53) / 2 ^ 53 :=
    le_trans e2 (div_le_div_of_nonneg_right h2 (by positivity))
  unfold fmul fdiv
  have htri : |roundToDouble (c * roundToDouble (1 / g)) - c / g| ≤
      |roundToDouble (c * roundToDouble (1 / g)) - c * roundToDouble (1 / g)| +
        |c * roundToDouble (1 / g) - c / g| := abs_sub_le _ _ _
  have hbound : (c / g + c / g / 2 ^ 53) / 2 ^ 53 + c / g / 2 ^ 53 < 1 := by
    have hq' : c / g < 2 ^ 30 := hq
    have : (c / g + c / g / 2 ^ 53) / 2 ^ 53 + c / g / 2 ^ 53 =
        c / g * ((1 + 1 / 2 ^ 53) / 2 ^ 53 + 1 / 2 ^ 53) := by ring
    rw [this]
    have hk : (0 : Real) < (1 + 1 / 2 ^ 53) / 2 ^ 53 + 1 / 2 ^ 53 := by positivity
    calc c / g * ((1 + 1 / 2 ^ 53) / 2 ^ 53 + 1 / 2 ^ 53)
        ≤ 2 ^ 30 * ((1 + 1 / 2 ^ 53) / 2 ^ 53 + 1 / 2 ^ 53) :=
          mul_le_mul_of_nonneg_right (le_of_lt hq') (le_of_lt hk)
      _ < 1 := by norm_num
  linarith

theorem floor_quotient_range (c g : Real) (hc : 0 ≤ c) (hg : 0 < g) (hq : c / g < 2 ^ 30) :
    0 ≤ ⌊c / g⌋ ∧ ⌊c / g⌋ < 2 ^ 30 := by
  refine ⟨Int.floor_nonneg.mpr (div_nonneg hc (le_of_lt hg)), ?_⟩
  rw [Int.floor_lt]
  exact_mod_cast hq

theorem inInt32_of_near_quotient (a b : Int) (h : |a - b| ≤ 1) (hb : 0 ≤ b ∧ b < 2 ^ 30) :
    inInt32 a ∧ inInt32 (1 + a) := by
  rw [abs_le] at h
  unfold inInt32
  constructor <;> constructor <;> omega

/-! ## C7, C8: the search-depth functors -/

/-- C7, as stated, fails: with the cutoff radius of the particle and the grid spacing both the
`double` 1.9 the quotient is 1 and the formula gives the depth 2, but the inverse `1.0 / 1.9` is
rounded, its product with 1.9 is the `double` next below 1, and `SearchDepthAdaptive` returns
1. -/
theorem SearchDepthAdaptive_not_quotient :
    roundingBody.kernel_.CutOffRadiusRatio (roundingBody.h_ratio_.getD 0 default) =
      doubleOnePointNine ∧
    roundingMesh.GridSpacing = doubleOnePointNine ∧
    doubleOnePointNine = 4278419646001971 / 2251799813685248 ∧
    fdiv 1 doubleOnePointNine = 4740631186705785 / 9007199254740992 ∧
    fmul doubleOnePointNine (fdiv 1 doubleOnePointNine) = 9007199254740991 / 9007199254740992 ∧
    (SearchDepthAdaptive.new roundingBody roundingMesh).call 0 = 1 ∧
    1 + ⌊roundingBody.kernel_.CutOffRadiusRatio (roundingBody.h_ratio_.getD 0 default) /
      roundingMesh.GridSpacing⌋ = 2 := by
  refine ⟨?_, ?_, ?_, ?_, ?_, ?_, ?_⟩ <;> decide!

/-- C7, amended: for a target cell linked list of grid spacing `g` in the normal range of
`double`, a cutoff radius `c = CutOffRadius(h_ratio_[i]) ≥ 0` and `c / g < 2 ^ 30`,
`SearchDepthAdaptive` returns for the particle `i` the value `1 + floor(c * inv)`, where `inv` is
the `double` quotient `1.0 / g` and the product is taken in `double`; two particles with the same
smoothing-length ratio get the same depth; the depth differs from `1 + floor(c / g)` by at most
one; grid spacing 1.0 with cutoff radius 2.0 gives the depth 3; and the value converted by
`(int)` and the depth are values of `int`. -/
theorem SearchDepthAdaptive_call_rounded (sph_body : SPHBody)
    (target_cell_linked_list : MeshCellLinkedList) (i : Nat)
    (hg : pow2 (-1022) ≤ target_cell_linked_list.GridSpacing ∧
      target_cell_linked_list.GridSpacing ≤ pow2 1022)
    (hc : 0 ≤ sph_body.kernel_.CutOffRadiusRatio (sph_body.h_ratio_.getD i default))
    (hq : sph_body.kernel_.CutOffRadiusRatio (sph_body.h_ratio_.getD i default) /
      target_cell_linked_list.GridSpacing < 2 ^ 30) :
    (SearchDepthAdaptive.new sph_body target_cell_linked_list).call i =
      1 + ⌊fmul (sph_body.kernel_.CutOffRadiusRatio (sph_body.h_ratio_.getD i default))
        (fdiv 1 target_cell_linked_list.GridSpacing)⌋ ∧
    (∀ k : Nat, sph_body.h_ratio_.getD k default = sph_body.h_ratio_.getD i default →
      (SearchDepthAdaptive.new sph_body target_cell_linked_list).call k =
        (SearchDepthAdaptive.new sph_body target_cell_linked_list).call i) ∧
    |(SearchDepthAdaptive.new sph_body target_cell_linked_list).call i -
      (1 + ⌊sph_body.kernel_.CutOffRadiusRatio (sph_body.h_ratio_.getD i default) /
        target_cell_linked_list.GridSpacing⌋)| ≤ 1 ∧
    (target_cell_linked_list.GridSpacing = 1 →
      sph_body.kernel_.CutOffRadiusRatio (sph_body.h_ratio_.getD i default) = 2 →
      (SearchDepthAdaptive.new sph_body target_cell_linked_list).call i = 3) ∧
    inInt32 ⌊fmul (sph_body.kernel_.CutOffRadiusRatio (sph_body.h_ratio_.getD i default))
      (fdiv 1 target_cell_linked_list.GridSpacing)⌋ ∧
    inInt32 ((SearchDepthAdaptive.new sph_body target_cell_linked_list).call i) := by
  have hpos : 0 < target_cell_linked_list.GridSpacing := lt_of_lt_of_le (pow2_pos _) hg.1
  have herr := abs_floor_sub_le_one _ _ (fmul_fdiv_error _ _ hc hpos hq)
  have hrange := floor_quotient_range _ _ hc hpos hq
  unfold SearchDepthAdaptive.call SearchDepthAdaptive.new
  simp only []
  refine ⟨trivial, ?_, ?_, ?_, ?_, ?_⟩
  · intro k hk
    rw [hk]
  · rw [add_sub_add_left_eq_sub]
    exact herr
  · intro h1 h2
    rw [h1, h2]
    decide!
  · exact (inInt32_of_near_quotient _ _ herr hrange).1
  · exact (inInt32_of_near_quotient _ _ herr hrange).2

theorem SearchDepthAdaptive_call_rounded_witness :
    (SearchDepthAdaptive.new scenarioBody (MeshCellLinkedList.new 1 (10, 10))).call 0 = 3 ∧
    |(SearchDepthAdaptive.new roundingBody roundingMesh).call 0 -
      (1 + ⌊roundingBody.kernel_.CutOffRadiusRatio (roundingBody.h_ratio_.getD 0 default) /
        roundingMesh.GridSpacing⌋)| ≤ 1 :=
  ⟨(SearchDepthAdaptive_call_rounded scenarioBody (MeshCellLinkedList.new 1 (10, 10)) 0
      (by decide!) (by decide!) (by decide!)).2.2.2.1 rfl (by decide!),
    (SearchDepthAdaptive_call_rounded roundingBody roundingMesh 0 (by decide!) (by decide!)
      (by decide!)).2.2.1⟩

/-- C8, as stated, fails: with the cutoff radius `c` and the grid spacing `g` both the `double`
1.9 the formula `1 + floor(c / g)` gives 2, but the product of `c` with the rounded inverse
`1.0 / g` is the `double` next below 1, and `SearchDepthContact` returns 1 for every particle. -/
theorem SearchDepthContact_not_quotient :
    roundingBody.kernel_.CutOffRadius = doubleOnePointNine ∧
    roundingMesh.GridSpacing = doubleOnePointNine ∧
    (SearchDepthContact.new roundingBody roundingMesh).call 0 = 1 ∧
    (SearchDepthContact.new roundingBody roundingMesh).call 7 = 1 ∧
    1 + ⌊roundingBody.kernel_.CutOffRadius / roundingMesh.GridSpacing⌋ = 2 := by
  refine ⟨?_, ?_, ?_, ?_, ?_⟩ <;> decide!

/-- C8, amended: for a source body of kernel cutoff radius `c ≥ 0` and a target cell linked list
of grid spacing `g` in the normal range of `double`, with `c / g < 2 ^ 30`, `SearchDepthContact`
returns `1 + floor(c * inv)` for every particle index, where `inv` is the `double` quotient
`1.0 / g` and the product is taken in `double`: the value is fixed by the constructor from the
spacing of the target grid, whatever the cell linked list of the source body, and is the same
for all particles; it differs from `1 + floor(c / g)` by at most one; the value converted by
`(int)` and the depth are values of `int`. -/
theorem SearchDepthContact_call_rounded (sph_body : SPHBody)
    (target_cell_linked_list : MeshCellLinkedList) (particle_index : Nat)
    (hc : 0 ≤ sph_body.kernel_.CutOffRadius)
    (hg : pow2 (-1022) ≤ target_cell_linked_list.GridSpacing ∧
      target_cell_linked_list.GridSpacing ≤ pow2 1022)
    (hq : sph_body.kernel_.CutOffRadius / target_cell_linked_list.GridSpacing < 2 ^ 30) :
    (SearchDepthContact.new sph_body target_cell_linked_list).call particle_index =
      1 + ⌊fmul sph_body.kernel_.CutOffRadius (fdiv 1 target_cell_linked_list.GridSpacing)⌋ ∧
    (SearchDepthContact.new sph_body target_cell_linked_list).call particle_index =
      (SearchDepthContact.new sph_body target_cell_linked_list).search_depth_ ∧
    |(SearchDepthContact.new sph_body target_cell_linked_list).call particle_index -
      (1 + ⌊sph_body.kernel_.CutOffRadius / target_cell_linked_list.GridSpacing⌋)| ≤ 1 ∧
    inInt32 ⌊fmul sph_body.kernel_.CutOffRadius (fdiv 1 target_cell_linked_list.GridSpacing)⌋ ∧
    inInt32 ((SearchDepthContact.new sph_body target_cell_linked_list).call particle_index) := by
  have hpos : 0 < target_cell_linked_list.GridSpacing := lt_of_lt_of_le (pow2_pos _) hg.1
  have herr := abs_floor_sub_le_one _ _ (fmul_fdiv_error _ _ hc hpos hq)
  have hrange := floor_quotient_range _ _ hc hpos hq
  unfold SearchDepthContact.call SearchDepthContact.new
  simp only []
  refine ⟨trivial, trivial, ?_, ?_, ?_⟩
  · rw [add_sub_add_left_eq_sub]
    exact herr
  · exact (inInt32_of_near_quotient _ _ herr hrange).1
  · exact (inInt32_of_near_quotient _ _ herr hrange).2

theorem SearchDepthContact_call_rounded_witness :
    (SearchDepthContact.new scenarioBody (MeshCellLinkedList.new (1 / 4) (10, 10))).call 7 =
      9 ∧
    |(SearchDepthContact.new roundingBody roundingMesh).call 7 -
      (1 + ⌊roundingBody.kernel_.CutOffRadius / roundingMesh.GridSpacing⌋)| ≤ 1 :=
  ⟨((SearchDepthContact_call_rounded scenarioBody (MeshCellLinkedList.new (1 / 4) (10, 10)) 7
      (by decide!) (by decide!) (by decide!)).1.trans (by decide!)),
    (SearchDepthContact_call_rounded roundingBody roundingMesh 7 (by decide!) (by decide!)
      (by decide!)).2.2.1⟩

/-! ## C9: the adaptive-depth scenario -/

theorem forRange_eq_nil (lo hi : Int) (h : hi < lo) : forRange lo hi = [] := by
  unfold forRange
  have h0 : (hi + 1 - lo).toNat = 0 := by omega
  rw [h0]
  rfl

theorem forRange_self (a : Int) : forRange a a = [a] := by
  unfold forRange
  have h1 : (a + 1 - a).toNat = 1 := by omega
  rw [h1]
  simp [List.range_succ]

theorem scanWindow_negative (mesh : MeshCellLinkedList) (i j d : Int) (hd : d < 0) :
    scanWindow mesh i j d = [] := by
  unfold scanWindow
  rw [forRange_eq_nil]
  · rfl
  · unfold SMAX SMIN
    split <;> split <;> omega

theorem scanWindow_zero (mesh : MeshCellLinkedList) (i j : Nat) :
    scanWindow mesh i j 0 =
      if i < mesh.number_of_cells_.1 ∧ j < mesh.number_of_cells_.2 then [((i : Int), (j : Int))]
      else [] := by
  unfold scanWindow
  have hl : ∀ (a n : Nat),
      forRange (SMAX ((a : Int) - 0) 0) (SMIN ((a : Int) + 0) ((n : Int) - 1)) =
        if a < n then [(a : Int)] else [] := by
    intro a n
    have h1 : SMAX ((a : Int) - 0) 0 = a := by
      unfold SMAX
      split <;> omega
    rw [h1]
    by_cases h : a < n
    · have h2 : SMIN ((a : Int) + 0) ((n : Int) - 1) = a := by
        unfold SMIN
        split <;> omega
      rw [h2, forRange_self, if_pos h]
    · rw [forRange_eq_nil, if_neg h]
      unfold SMIN
      split <;> omega
  rw [hl i, hl j]
  by_cases h1 : i < mesh.number_of_cells_.1 <;> by_cases h2 : j < mesh.number_of_cells_.2 <;>
    simp [h1, h2, List.product]

/-- C11, as stated, fails: with the search depth 0 for every particle the search of the two
particles that share a cell completes and records each as the neighbour of the other, and with the
search depth -1 it completes and records nothing. -/
theorem searchNeighborsByParticles_nonpositive_depth_completes :
    (searchNeighborsByParticles pairMesh 2 pairParticles (List.replicate 2 default)
        (fun num => num) (fun _ => 0) (NeighborRelationInner pairRelation)).map
        Neighborhood.neighbors = [[1], [0]] ∧
    searchNeighborsByParticles pairMesh 2 pairParticles (List.replicate 2 default)
        (fun num => num) (fun _ => -1) (NeighborRelationInner pairRelation) =
      List.replicate 2 default := by
  decide!

/-- C11, amended: a search depth `≤ 0` is not rejected, the scan completes. The step for a
particle number whose search depth is `≤ 0` hands the neighbour-relation function exactly the
entries of the owning cell when the depth is 0 and that cell is in the grid, and nothing
otherwise; with a negative depth it leaves the particle configuration as it was. -/
theorem searchNeighborsByParticles_nonpositive_depth (mesh : MeshCellLinkedList)
    (source_particles : BaseParticles) (particle_configuration : ParticleConfiguration)
    (get_particle_index : Nat → Nat) (get_search_range : Nat → Int)
    (get_neighbor_relation : GetNeighborRelation) (num : Nat)
    (hdepth : get_search_range (get_particle_index num) ≤ 0) :
    searchNeighborsByParticles mesh (num + 1) source_particles particle_configuration
        get_particle_index get_search_range get_neighbor_relation =
      (searchNeighborsByParticles mesh num source_particles particle_configuration
        get_particle_index get_search_range get_neighbor_relation).modify
        (fun neighborhood =>
          (if get_search_range (get_particle_index num) = 0 ∧
              (mesh.CellIndexFromPosition
                (source_particles.pos_n_.getD (get_particle_index num) default)).1 <
                mesh.number_of_cells_.1 ∧
              (mesh.CellIndexFromPosition
                (source_particles.pos_n_.getD (get_particle_index num) default)).2 <
                mesh.number_of_cells_.2
            then mesh.cell_linked_lists_
              (mesh.CellIndexFromPosition
                (source_particles.pos_n_.getD (get_particle_index num) default)).1
              (mesh.CellIndexFromPosition
                (source_particles.pos_n_.getD (get_particle_index num) default)).2
            else []).foldl
            (fun nb list_data =>
              get_neighbor_relation nb
                (source_particles.pos_n_.getD (get_particle_index num) default - list_data.2)
                (get_particle_index num) list_data.1)
            neighborhood)
        (get_particle_index num) ∧
    (get_search_range (get_particle_index num) < 0 →
      searchNeighborsByParticles mesh (num + 1) source_particles particle_configuration
          get_particle_index get_search_range get_neighbor_relation =
        searchNeighborsByParticles mesh num source_particles particle_configuration
          get_particle_index get_search_range get_neighbor_relation) := by
  have hneg : get_search_range (get_particle_index num) < 0 →
      searchNeighborsByParticles mesh (num + 1) source_particles particle_configuration
          get_particle_index get_search_range get_neighbor_relation =
        searchNeighborsByParticles mesh num source_particles particle_configuration
          get_particle_index get_search_range get_neighbor_relation := by
    intro hlt
    rw [searchNeighborsByParticles_succ, searchParticle_eq_modify]
    unfold scanEntries
    rw [scanWindow_negative mesh _ _ _ hlt]
    exact List.modify_id _ _
  refine ⟨?_, hneg⟩
  rcases lt_or_eq_of_le hdepth with hlt | hzero
  · rw [hneg hlt]
    have hne : ¬ get_search_range (get_particle_index num) = 0 := by omega
    simp only [hne, false_and, if_false, List.foldl_nil]
    exact (List.modify_id _ _).symm
  · rw [searchNeighborsByParticles_succ, searchParticle_eq_modify]
    unfold scanEntries
    rw [hzero, scanWindow_zero]
    congr 1
    funext nb
    unfold applyRelation
    simp only [true_and]
    split <;> simp

theorem searchNeighborsByParticles_nonpositive_depth_witness :
    searchNeighborsByParticles pairMesh (1 + 1) pairParticles (List.replicate 2 default)
        (fun num => num) (fun _ => -1) (NeighborRelationInner pairRelation) =
      searchNeighborsByParticles pairMesh 1 pairParticles (List.replicate 2 default)
        (fun num => num) (fun _ => -1) (NeighborRelationInner pairRelation) :=
  (searchNeighborsByParticles_nonpositive_depth pairMesh pairParticles
    (List.replicate 2 default) (fun num => num) (fun _ => -1)
    (NeighborRelationInner pairRelation) 1 (by decide)).2 (by decide)

/-- C12: for `total_real_particles = 0` the search returns the particle configuration it was
given, whatever the particle-index, search-range and neighbour-relation functions are (none of
them is called); neighbourhoods that were reset are still reset. -/
theorem searchNeighborsByParticles_zero_particles (mesh : MeshCellLinkedList)
    (source_particles : BaseParticles) (particle_configuration : ParticleConfiguration)
    (get_particle_index : Nat → Nat) (get_search_range : Nat → Int)
    (get_neighbor_relation : GetNeighborRelation) :
    searchNeighborsByParticles mesh 0 source_particles particle_configuration
        get_particle_index get_search_range get_neighbor_relation = particle_configuration ∧
    ((∀ nb ∈ particle_configuration, nb.isReset) →
      ∀ nb ∈ searchNeighborsByParticles mesh 0 source_particles particle_configuration
        get_particle_index get_search_range get_neighbor_relation, nb.isReset) :=
  ⟨rfl, fun h => h⟩

theorem searchNeighborsByParticles_zero_particles_witness :
    searchNeighborsByParticles pairMesh 0 pairParticles (List.replicate 2 default)
        (fun num => num) SearchDepthSingleResolution (NeighborRelationInner pairRelation) =
      List.replicate 2 default :=
  (searchNeighborsByParticles_zero_particles pairMesh pairParticles (List.replicate 2 default)
    (fun num => num) SearchDepthSingleResolution (NeighborRelationInner pairRelation)).1

/-! ## C13: the region invariant of the particle store -/

theorem fieldsAligned_iff (p : BaseParticles) :
    p.fieldsAligned ↔
      (∀ xs ∈ p.all_particle_data_.reals, xs.length = p.pos_n_.length) ∧
      (∀ xs ∈ p.all_particle_data_.vecds, xs.length = p.pos_n_.length) ∧
      (∀ xs ∈ p.all_particle_data_.matds, xs.length = p.pos_n_.length) ∧
      (∀ xs ∈ p.all_particle_data_.ints, xs.length = p.pos_n_.length) := by
  unfold BaseParticles.fieldsAligned BaseParticles.fieldLengths
  simp only [List.mem_cons, List.mem_append, List.mem_map]
  constructor
  · intro h
    exact ⟨fun xs hx => h _ (Or.inr (Or.inl (Or.inl (Or.inl ⟨xs, hx, rfl⟩)))),
      fun xs hx => h _ (Or.inr (Or.inl (Or.inl (Or.inr ⟨xs, hx, rfl⟩)))),
      fun xs hx => h _ (Or.inr (Or.inl (Or.inr ⟨xs, hx, rfl⟩))),
      fun xs hx => h _ (Or.inr (Or.inr ⟨xs, hx, rfl⟩))⟩
  · rintro ⟨h1, h2, h3, h4⟩
    rintro n (rfl | (((⟨xs, hx, rfl⟩ | ⟨xs, hx, rfl⟩) | ⟨xs, hx, rfl⟩) | ⟨xs, hx, rfl⟩))
    · rfl
    · exact h1 xs hx
    · exact h2 xs hx
    · exact h3 xs hx
    · exact h4 xs hx

theorem length_copyValue {α : Type} [Zero α] (xs : List α) (i j : Nat) :
    (copyValue xs i j).length = xs.length := by
  unfold copyValue
  exact List.length_set _ _ _

theorem forall_length_map {α : Type} (xss : List (List α)) (f : List α → List α) (L L' : Nat)
    (h : ∀ xs ∈ xss, xs.length = L) (hf : ∀ xs : List α, xs.length = L → (f xs).length = L') :
    ∀ xs ∈ xss.map f, xs.length = L' := by
  intro xs hx
  obtain ⟨ys, hy, rfl⟩ := List.mem_map.mp hx
  exact hf ys (h ys hy)

theorem addAParticleEntry_counts (p : BaseParticles) :
    p.addAParticleEntry.total_real_particles_ = p.total_real_particles_ ∧
    p.addAParticleEntry.real_particles_bound_ = p.real_particles_bound_ ∧
    p.addAParticleEntry.total_ghost_particles_ = p.total_ghost_particles_ ∧
    p.addAParticleEntry.pos_n_.length = p.pos_n_.length + 1 :=
  ⟨rfl, rfl, rfl, by simp [BaseParticles.addAParticleEntry, BaseParticles.add_a_particle_value_]⟩

theorem addAParticleEntry_fieldsAligned (p : BaseParticles) (h : p.fieldsAligned) :
    p.addAParticleEntry.fieldsAligned := by
  rw [fieldsAligned_iff] at h ⊢
  obtain ⟨h1, h2, h3, h4⟩ := h
  rw [(addAParticleEntry_counts p).2.2.2]
  refine ⟨?_, ?_, ?_, ?_⟩
  · exact forall_length_map _ _ _ _ h1 (fun xs hx => by simp [hx])
  · exact forall_length_map _ _ _ _ h2 (fun xs hx => by simp [hx])
  · exact forall_length_map _ _ _ _ h3 (fun xs hx => by simp [hx])
  · exact forall_length_map _ _ _ _ h4 (fun xs hx => by simp [hx])

theorem copyFromAnotherParticle_counts (p : BaseParticles) (i j : Nat) :
    (p.copyFromAnotherParticle i j).total_real_particles_ = p.total_real_particles_ ∧
    (p.copyFromAnotherParticle i j).real_particles_bound_ = p.real_particles_bound_ ∧
    (p.copyFromAnotherParticle i j).total_ghost_particles_ = p.total_ghost_particles_ ∧
    (p.copyFromAnotherParticle i j).pos_n_.length = p.pos_n_.length ∧
    (p.copyFromAnotherParticle i j).unsorted_id_ = p.unsorted_id_ ∧
    (p.copyFromAnotherParticle i j).sorted_id_ = p.sorted_id_ ∧
    (p.copyFromAnotherParticle i j).sequence_ = p.sequence_ :=
  ⟨rfl, rfl, rfl, length_copyValue _ _ _, rfl, rfl, rfl⟩

theorem copyFromAnotherParticle_fieldsAligned (p : BaseParticles) (i j : Nat)
    (h : p.fieldsAligned) : (p.copyFromAnotherParticle i j).fieldsAligned := by
  rw [fieldsAligned_iff] at h ⊢
  obtain ⟨h1, h2, h3, h4⟩ := h
  rw [(copyFromAnotherParticle_counts p i j).2.2.2.1]
  refine ⟨?_, ?_, ?_, ?_⟩
  · exact forall_length_map _ _ _ _ h1 (fun xs hx => by rw [length_copyValue, hx])
  · exact forall_length_map _ _ _ _ h2 (fun xs hx => by rw [length_copyValue, hx])
  · exact forall_length_map _ _ _ _ h3 (fun xs hx => by rw [length_copyValue, hx])
  · exact forall_length_map _ _ _ _ h4 (fun xs hx => by rw [length_copyValue, hx])

theorem iterate_addAParticleEntry (p : BaseParticles) (k : Nat) (h : p.fieldsAligned) :
    (Nat.iterate BaseParticles.addAParticleEntry k p).fieldsAligned ∧
    (Nat.iterate BaseParticles.addAParticleEntry k p).total_real_particles_ =
      p.total_real_particles_ ∧
    (Nat.iterate BaseParticles.addAParticleEntry k p).real_particles_bound_ =
      p.real_particles_bound_ ∧
    (Nat.iterate BaseParticles.addAParticleEntry k p).total_ghost_particles_ =
      p.total_ghost_particles_ ∧
    (Nat.iterate BaseParticles.addAParticleEntry k p).pos_n_.length = p.pos_n_.length + k := by
  induction k with
  | zero => exact ⟨h, rfl, rfl, rfl, rfl⟩
  | succ k ih =>
    rw [Function.iterate_succ_apply']
    obtain ⟨i1, i2, i3, i4, i5⟩ := ih
    obtain ⟨e1, e2, e3, e4⟩ :=
      addAParticleEntry_counts (Nat.iterate BaseParticles.addAParticleEntry k p)
    exact ⟨addAParticleEntry_fieldsAligned _ i1, e1.trans i2, e2.trans i3, e3.trans i4,
      by rw [e4, i5]; omega⟩

theorem addBufferParticles_regionInvariant (p : BaseParticles) (k : Nat)
    (h : p.regionInvariant) : (p.addBufferParticles k).regionInvariant := by
  obtain ⟨i1, i2, i3, i4, i5⟩ := iterate_addAParticleEntry p k h.1
  obtain ⟨_, h5, h6⟩ := h
  refine ⟨i1, ?_, ?_⟩
  · show (Nat.iterate BaseParticles.addAParticleEntry k p).total_real_particles_ ≤
      (Nat.iterate BaseParticles.addAParticleEntry k p).real_particles_bound_ + k
    omega
  · show (Nat.iterate BaseParticles.addAParticleEntry k p).real_particles_bound_ + k +
        (Nat.iterate BaseParticles.addAParticleEntry k p).total_ghost_particles_ ≤
      (Nat.iterate BaseParticles.addAParticleEntry k p).pos_n_.length
    omega

/-- The store returned by `insertAGhostParticle`: its counts, its length and its alignment. -/
theorem insertAGhostParticle_counts (p : BaseParticles) (index_i : Nat)
    (hbound : p.real_particles_bound_ + p.total_ghost_particles_ ≤ p.pos_n_.length) :
    (p.insertAGhostParticle index_i).2 = p.real_particles_bound_ + p.total_ghost_particles_ ∧
    (p.insertAGhostParticle index_i).1.total_real_particles_ = p.total_real_particles_ ∧
    (p.insertAGhostParticle index_i).1.real_particles_bound_ = p.real_particles_bound_ ∧
    (p.insertAGhostParticle index_i).1.total_ghost_particles_ = p.total_ghost_particles_ + 1 ∧
    (p.insertAGhostParticle index_i).1.pos_n_.length =
      (if p.real_particles_bound_ + p.total_ghost_particles_ = p.pos_n_.length
        then p.pos_n_.length + 1 else p.pos_n_.length) ∧
    (p.fieldsAligned → (p.insertAGhostParticle index_i).1.fieldsAligned) := by
  unfold BaseParticles.insertAGhostParticle
  by_cases hc : p.real_particles_bound_ + (p.total_ghost_particles_ + 1) ≤ p.pos_n_.length
  · simp only [hc, if_true]
    have hne : ¬ p.real_particles_bound_ + p.total_ghost_particles_ = p.pos_n_.length := by
      omega
    rw [if_neg hne]
    refine ⟨by omega, rfl, rfl, rfl, length_copyValue _ _ _, ?_⟩
    intro ha
    exact copyFromAnotherParticle_fieldsAligned
      { p with total_ghost_particles_ := p.total_ghost_particles_ + 1 } _ _ ha
  · simp only [hc, if_false]
    have he : p.real_particles_bound_ + p.total_ghost_particles_ = p.pos_n_.length := by
      omega
    rw [if_pos he]
    refine ⟨by omega, rfl, rfl, rfl, ?_, ?_⟩
    · exact (length_copyValue _ _ _).trans
        (addAParticleEntry_counts
          { p with total_ghost_particles_ := p.total_ghost_particles_ + 1 }).2.2.2
    · intro ha
      exact copyFromAnotherParticle_fieldsAligned _ _ _
        (addAParticleEntry_fieldsAligned
          { p with total_ghost_particles_ := p.total_ghost_particles_ + 1 } ha)

theorem insertAGhostParticle_regionInvariant (p : BaseParticles) (index_i : Nat)
    (h : p.regionInvariant) : (p.insertAGhostParticle index_i).1.regionInvariant := by
  obtain ⟨ha, h5, h6⟩ := h
  obtain ⟨_, e1, e2, e3, e4, e5⟩ := insertAGhostParticle_counts p index_i h6
  refine ⟨e5 ha, ?_, ?_⟩
  · rw [e1, e2]
    exact h5
  · rw [e2, e3, e4]
    split <;> omega

theorem sizeDecrement_pos (n : Nat) (h : 1 ≤ n) : sizeDecrement n = n - 1 := by
  unfold sizeDecrement
  rw [if_neg (by omega)]

theorem switchToBufferParticle_counts (p : BaseParticles) (index_i : Nat) :
    (p.switchToBufferParticle index_i).total_real_particles_ =
      sizeDecrement p.total_real_particles_ ∧
    (p.switchToBufferParticle index_i).real_particles_bound_ = p.real_particles_bound_ ∧
    (p.switchToBufferParticle index_i).total_ghost_particles_ = p.total_ghost_particles_ ∧
    (p.switchToBufferParticle index_i).pos_n_.length = p.pos_n_.length ∧
    (p.fieldsAligned → (p.switchToBufferParticle index_i).fieldsAligned) := by
  unfold BaseParticles.switchToBufferParticle
  by_cases hc : index_i < sizeDecrement p.total_real_particles_
  · simp only [hc, if_true]
    refine ⟨rfl, rfl, rfl, length_copyValue _ _ _, ?_⟩
    intro ha
    exact copyFromAnotherParticle_fieldsAligned p _ _ ha
  · simp only [hc, if_false]
    exact ⟨trivial, trivial, trivial, trivial, fun ha => ha⟩

theorem switchToBufferParticle_regionInvariant (p : BaseParticles) (index_i : Nat)
    (h : p.regionInvariant) (hreal : 1 ≤ p.total_real_particles_) :
    (p.switchToBufferParticle index_i).regionInvariant := by
  obtain ⟨ha, h5, h6⟩ := h
  obtain ⟨e1, e2, e3, e4, e5⟩ := switchToBufferParticle_counts p index_i
  refine ⟨e5 ha, ?_, ?_⟩
  · rw [e1, e2, sizeDecrement_pos _ hreal]
    omega
  · rw [e2, e3, e4]
    exact h6

/-- C13: the region invariant of the particle store (all registered arrays have one common
length `L`, `total_real_particles_ ≤ real_particles_bound_`,
`real_particles_bound_ + total_ghost_particles_ ≤ L`) is preserved by `addAParticleEntry`,
`addBufferParticles`, `insertAGhostParticle`, `switchToBufferParticle` (called with
`total_real_particles_ ≥ 1`) and by the reset of `total_ghost_particles_` to 0. -/
theorem regionInvariant_preserved (particles : BaseParticles)
    (hinv : particles.regionInvariant) :
    particles.addAParticleEntry.regionInvariant ∧
    (∀ buffer_size : Nat, (particles.addBufferParticles buffer_size).regionInvariant) ∧
    (∀ index_i : Nat, (particles.insertAGhostParticle index_i).1.regionInvariant) ∧
    (∀ index_i : Nat, 1 ≤ particles.total_real_particles_ →
      (particles.switchToBufferParticle index_i).regionInvariant) ∧
    particles.resetTotalGhostParticles.regionInvariant := by
  refine ⟨?_, fun k => addBufferParticles_regionInvariant particles k hinv,
    fun i => insertAGhostParticle_regionInvariant particles i hinv,
    fun i h1 => switchToBufferParticle_regionInvariant particles i hinv h1, ?_⟩
  · obtain ⟨ha, h5, h6⟩ := hinv
    obtain ⟨e1, e2, e3, e4⟩ := addAParticleEntry_counts particles
    refine ⟨addAParticleEntry_fieldsAligned particles ha, ?_, ?_⟩
    · rw [e1, e2]
      exact h5
    · rw [e2, e3, e4]
      omega
  · obtain ⟨ha, h5, h6⟩ := hinv
    refine ⟨ha, h5, ?_⟩
    show particles.real_particles_bound_ + 0 ≤ particles.pos_n_.length
    omega

theorem regionInvariant_preserved_witness :
    exampleStore.regionInvariant ∧
    exampleStore.addAParticleEntry.regionInvariant ∧
    (exampleStore.addBufferParticles 2).regionInvariant ∧
    (exampleStore.insertAGhostParticle 1).1.regionInvariant ∧
    (exampleStore.switchToBufferParticle 0).regionInvariant ∧
    exampleStore.resetTotalGhostParticles.regionInvariant :=
  ⟨by decide, (regionInvariant_preserved exampleStore (by decide)).1,
    (regionInvariant_preserved exampleStore (by decide)).2.1 2,
    (regionInvariant_preserved exampleStore (by decide)).2.2.1 1,
    (regionInvariant_preserved exampleStore (by decide)).2.2.2.1 0 (by decide),
    (regionInvariant_preserved exampleStore (by decide)).2.2.2.2⟩

/-! ## C14: the id arrays under `switchToBufferParticle` -/

theorem getElem?_set_of_ne {α : Type} (l : List α) (i j : Nat) (a : α) (h : i ≠ j) :
    (l.set i a)[j]? = l[j]? := by
  rw [List.getElem?_set]
  simp [h]

theorem getElem?_set_self_of_lt {α : Type} (l : List α) (i : Nat) (a : α) (h : i < l.length) :
    (l.set i a)[i]? = some a := by
  rw [List.getElem?_set]
  simp [h]

theorem lt_length_of_getElem?_eq_some {α : Type} (l : List α) (i : Nat) (a : α)
    (h : l[i]? = some a) : i < l.length := by
  by_contra hc
  rw [List.getElem?_eq_none (by omega)] at h
  exact absurd h (by simp)

theorem getD_of_getElem?_eq_some (l : List Nat) (i a : Nat) (h : l[i]? = some a) :
    l.getD i 0 = a := by
  rw [List.getD_eq_getElem?_getD, h]
  rfl

theorem switchToBufferParticle_ids (p : BaseParticles) (index_i : Nat)
    (hlt : index_i < sizeDecrement p.total_real_particles_) :
    (p.switchToBufferParticle index_i).unsorted_id_ =
      swapValues p.unsorted_id_ index_i (sizeDecrement p.total_real_particles_) ∧
    (p.switchToBufferParticle index_i).sorted_id_ =
      p.sorted_id_.set
        ((swapValues p.unsorted_id_ index_i (sizeDecrement p.total_real_particles_)).getD
          index_i 0) index_i := by
  unfold BaseParticles.switchToBufferParticle
  simp only [hlt, if_true]
  exact ⟨rfl, rfl⟩

theorem switchToBufferParticle_last (p : BaseParticles) (index_i : Nat)
    (hge : ¬ index_i < sizeDecrement p.total_real_particles_) :
    p.switchToBufferParticle index_i =
      { p with total_real_particles_ := sizeDecrement p.total_real_particles_ } := by
  unfold BaseParticles.switchToBufferParticle
  simp only [hge, if_false]

/-- C14: if `sorted_id_[unsorted_id_[k]] = k` holds for every real particle `k` before
`switchToBufferParticle(index_i)`, `index_i < total_real_particles_`, it holds after the call for
every `k` below the new `total_real_particles_`, which is the old one minus 1. -/
theorem switchToBufferParticle_ids_inverse (particles : BaseParticles) (index_i : Nat)
    (hindex : index_i < particles.total_real_particles_)
    (hinverse : ∀ k : Nat, k < particles.total_real_particles_ →
      ∃ u : Nat, particles.unsorted_id_[k]? = some u ∧ particles.sorted_id_[u]? = some k) :
    (particles.switchToBufferParticle index_i).total_real_particles_ =
      particles.total_real_particles_ - 1 ∧
    ∀ k : Nat, k < (particles.switchToBufferParticle index_i).total_real_particles_ →
      ∃ u : Nat, (particles.switchToBufferParticle index_i).unsorted_id_[k]? = some u ∧
        (particles.switchToBufferParticle index_i).sorted_id_[u]? = some k := by
  have hT : sizeDecrement particles.total_real_particles_ =
      particles.total_real_particles_ - 1 := sizeDecrement_pos _ (by omega)
  have hcount := (switchToBufferParticle_counts particles index_i).1
  rw [hT] at hcount
  refine ⟨hcount, ?_⟩
  rw [hcount]
  intro k hk
  by_cases hc : index_i < sizeDecrement particles.total_real_particles_
  · obtain ⟨hu, hs⟩ := switchToBufferParticle_ids particles index_i hc
    rw [hu, hs]
    rw [hT] at hc ⊢
    obtain ⟨ui, hui, _⟩ := hinverse index_i hindex
    obtain ⟨ul, hul, hsl⟩ := hinverse (particles.total_real_particles_ - 1) (by omega)
    have hilen := lt_length_of_getElem?_eq_some _ _ _ hui
    have hullen := lt_length_of_getElem?_eq_some _ _ _ hsl
    have hgetD : (swapValues particles.unsorted_id_ index_i
        (particles.total_real_particles_ - 1)).getD index_i 0 = ul := by
      apply getD_of_getElem?_eq_some
      unfold swapValues
      rw [getElem?_set_of_ne _ _ _ _ (by omega), getElem?_set_self_of_lt _ _ _ hilen,
        getD_of_getElem?_eq_some _ _ _ hul]
    rw [hgetD]
    by_cases hki : k = index_i
    · subst hki
      refine ⟨ul, ?_, getElem?_set_self_of_lt _ _ _ hullen⟩
      unfold swapValues
      rw [getElem?_set_of_ne _ _ _ _ (by omega), getElem?_set_self_of_lt _ _ _ hilen,
        getD_of_getElem?_eq_some _ _ _ hul]
    · obtain ⟨u, hku, hsu⟩ := hinverse k (by omega)
      refine ⟨u, ?_, ?_⟩
      · unfold swapValues
        rw [getElem?_set_of_ne _ _ _ _ (by omega), getElem?_set_of_ne _ _ _ _ (Ne.symm hki)]
        exact hku
      · have hne : ul ≠ u := by
          intro he
          rw [he, hsu] at hsl
          have := Option.some.inj hsl
          omega
        rw [getElem?_set_of_ne _ _ _ _ hne]
        exact hsu
  · rw [switchToBufferParticle_last particles index_i hc]
    exact hinverse k (by omega)

theorem switchToBufferParticle_ids_inverse_witness :
    (exampleStore.switchToBufferParticle 0).total_real_particles_ = 2 ∧
    ∀ k : Nat, k < (exampleStore.switchToBufferParticle 0).total_real_particles_ →
      ∃ u : Nat, (exampleStore.switchToBufferParticle 0).unsorted_id_[k]? = some u ∧
        (exampleStore.switchToBufferParticle 0).sorted_id_[u]? = some k :=
  switchToBufferParticle_ids_inverse exampleStore 0 (by decide)
    (fun k hk => by
      have hk3 : k < 3 := hk
      interval_cases k
      · exact ⟨2, rfl, rfl⟩
      · exact ⟨0, rfl, rfl⟩
      · exact ⟨1, rfl, rfl⟩)
/-! ## C15: removal by swap with the last real particle -/

theorem getD_set_self {α : Type} (l : List α) (i : Nat) (a d : α) (h : i < l.length) :
    (l.set i a).getD i d = a := by
  rw [List.getD_eq_getElem?_getD, getElem?_set_self_of_lt _ _ _ h]
  rfl

theorem getD_set_of_ne {α : Type} (l : List α) (i k : Nat) (a d : α) (h : i ≠ k) :
    (l.set i a).getD k d = l.getD k d := by
  rw [List.getD_eq_getElem?_getD, getElem?_set_of_ne _ _ _ _ h, List.getD_eq_getElem?_getD]

theorem getD_of_length_le {α : Type} (l : List α) (i : Nat) (d : α) (h : l.length ≤ i) :
    l.getD i d = d := by
  rw [List.getD_eq_getElem?_getD, List.getElem?_eq_none h]
  rfl

theorem copyValue_getD_self {α : Type} [Zero α] (xs : List α) (i j : Nat)
    (h : i < xs.length ∨ i ≤ j) : (copyValue xs i j).getD i 0 = xs.getD j 0 := by
  unfold copyValue
  by_cases hi : i < xs.length
  · exact getD_set_self _ _ _ _ hi
  · have hj : xs.length ≤ j := by omega
    rw [getD_of_length_le _ _ _ (by rw [List.length_set]; omega), getD_of_length_le _ _ _ hj]

theorem copyValue_getD_of_ne {α : Type} [Zero α] (xs : List α) (i j k : Nat) (h : k ≠ i) :
    (copyValue xs i j).getD k 0 = xs.getD k 0 := by
  unfold copyValue
  exact getD_set_of_ne _ _ _ _ _ (Ne.symm h)

theorem map_copyValue_getD_self {α : Type} [Zero α] (xss : List (List α)) (i j : Nat)
    (h : (∀ xs ∈ xss, i < xs.length) ∨ i ≤ j) :
    (xss.map (fun xs => copyValue xs i j)).map (fun xs => xs.getD i 0) =
      xss.map (fun xs => xs.getD j 0) := by
  rw [List.map_map]
  refine List.map_congr_left ?_
  intro xs hx
  refine copyValue_getD_self xs i j ?_
  rcases h with h | h
  · exact Or.inl (h xs hx)
  · exact Or.inr h

theorem map_copyValue_getD_of_ne {α : Type} [Zero α] (xss : List (List α)) (i j k : Nat)
    (h : k ≠ i) :
    (xss.map (fun xs => copyValue xs i j)).map (fun xs => xs.getD k 0) =
      xss.map (fun xs => xs.getD k 0) := by
  rw [List.map_map]
  refine List.map_congr_left ?_
  intro xs _
  exact copyValue_getD_of_ne xs i j k h

theorem copyFromAnotherParticle_slot_self (p : BaseParticles) (i j : Nat)
    (h : (i < p.pos_n_.length ∧ p.fieldsAligned) ∨ i ≤ j) :
    (p.copyFromAnotherParticle i j).slot i = p.slot j := by
  unfold BaseParticles.slot BaseParticles.copyFromAnotherParticle
    BaseParticles.updateFromAnotherParticle BaseParticles.copy_a_particle_value_
  simp only
  rcases h with ⟨hi, ha⟩ | h
  · rw [fieldsAligned_iff] at ha
    obtain ⟨h1, h2, h3, h4⟩ := ha
    rw [copyValue_getD_self _ _ _ (Or.inl hi),
      map_copyValue_getD_self _ _ _ (Or.inl (fun xs hx => by rw [h1 xs hx]; exact hi)),
      map_copyValue_getD_self _ _ _ (Or.inl (fun xs hx => by rw [h2 xs hx]; exact hi)),
      map_copyValue_getD_self _ _ _ (Or.inl (fun xs hx => by rw [h3 xs hx]; exact hi)),
      map_copyValue_getD_self _ _ _ (Or.inl (fun xs hx => by rw [h4 xs hx]; exact hi))]
  · rw [copyValue_getD_self _ _ _ (Or.inr h), map_copyValue_getD_self _ _ _ (Or.inr h),
      map_copyValue_getD_self _ _ _ (Or.inr h), map_copyValue_getD_self _ _ _ (Or.inr h),
      map_copyValue_getD_self _ _ _ (Or.inr h)]

theorem copyFromAnotherParticle_slot_of_ne (p : BaseParticles) (i j k : Nat) (h : k ≠ i) :
    (p.copyFromAnotherParticle i j).slot k = p.slot k := by
  unfold BaseParticles.slot BaseParticles.copyFromAnotherParticle
    BaseParticles.updateFromAnotherParticle BaseParticles.copy_a_particle_value_
  simp only
  rw [copyValue_getD_of_ne _ _ _ _ h, map_copyValue_getD_of_ne _ _ _ _ h,
    map_copyValue_getD_of_ne _ _ _ _ h, map_copyValue_getD_of_ne _ _ _ _ h,
    map_copyValue_getD_of_ne _ _ _ _ h]

theorem swapValues_getD_left (xs : List Nat) (i j : Nat) (h : i < j) :
    (swapValues xs i j).getD i 0 = xs.getD j 0 := by
  unfold swapValues
  rw [getD_set_of_ne _ _ _ _ _ (by omega)]
  by_cases hi : i < xs.length
  · exact getD_set_self _ _ _ _ hi
  · rw [getD_of_length_le _ _ _ (by rw [List.length_set]; omega),
      getD_of_length_le _ _ _ (by omega)]

theorem switchToBufferParticle_slots (p : BaseParticles) (index_i : Nat)
    (hlt : index_i < sizeDecrement p.total_real_particles_) :
    (p.switchToBufferParticle index_i).slot index_i =
      p.slot (sizeDecrement p.total_real_particles_) ∧
    ∀ k : Nat, k ≠ index_i → (p.switchToBufferParticle index_i).slot k = p.slot k := by
  have hs : ∀ k : Nat, (p.switchToBufferParticle index_i).slot k =
      (p.copyFromAnotherParticle index_i (sizeDecrement p.total_real_particles_)).slot k := by
    intro k
    unfold BaseParticles.switchToBufferParticle
    simp only [hlt, if_true]
    rfl
  refine ⟨?_, ?_⟩
  · rw [hs]
    exact copyFromAnotherParticle_slot_self p _ _ (Or.inr (by omega))
  · intro k hk
    rw [hs]
    exact copyFromAnotherParticle_slot_of_ne p _ _ k hk

/-- C15: for `index_i < total_real_particles_`, `switchToBufferParticle(index_i)` lowers
`total_real_particles_` by exactly one; afterwards every registered variable at slot `index_i`,
and `unsorted_id_[index_i]`, hold the values that the last real slot held before the call; every
other slot keeps its values; `real_particles_bound_` and `total_ghost_particles_` are unchanged;
and when `index_i` is the last real slot no registered array changes. -/
theorem switchToBufferParticle_swap_with_last (particles : BaseParticles) (index_i : Nat)
    (hindex : index_i < particles.total_real_particles_) :
    (particles.switchToBufferParticle index_i).total_real_particles_ + 1 =
      particles.total_real_particles_ ∧
    (particles.switchToBufferParticle index_i).slot index_i =
      particles.slot (particles.total_real_particles_ - 1) ∧
    (particles.switchToBufferParticle index_i).unsorted_id_.getD index_i 0 =
      particles.unsorted_id_.getD (particles.total_real_particles_ - 1) 0 ∧
    (∀ k : Nat, k ≠ index_i →
      (particles.switchToBufferParticle index_i).slot k = particles.slot k) ∧
    (particles.switchToBufferParticle index_i).real_particles_bound_ =
      particles.real_particles_bound_ ∧
    (particles.switchToBufferParticle index_i).total_ghost_particles_ =
      particles.total_ghost_particles_ ∧
    (index_i = particles.total_real_particles_ - 1 →
      (particles.switchToBufferParticle index_i).pos_n_ = particles.pos_n_ ∧
      (particles.switchToBufferParticle index_i).all_particle_data_ =
        particles.all_particle_data_ ∧
      (particles.switchToBufferParticle index_i).unsorted_id_ = particles.unsorted_id_) := by
  have hT : sizeDecrement particles.total_real_particles_ =
      particles.total_real_particles_ - 1 := sizeDecrement_pos _ (by omega)
  obtain ⟨e1, e2, e3, _, _⟩ := switchToBufferParticle_counts particles index_i
  rw [hT] at e1
  refine ⟨by omega, ?_, ?_, ?_, e2, e3, ?_⟩
  · by_cases hc : index_i < sizeDecrement particles.total_real_particles_
    · rw [← hT]
      exact (switchToBufferParticle_slots particles index_i hc).1
    · rw [switchToBufferParticle_last particles index_i hc]
      have : index_i = particles.total_real_particles_ - 1 := by omega
      rw [this]
      rfl
  · by_cases hc : index_i < sizeDecrement particles.total_real_particles_
    · rw [(switchToBufferParticle_ids particles index_i hc).1, ← hT]
      exact swapValues_getD_left _ _ _ hc
    · rw [switchToBufferParticle_last particles index_i hc]
      have : index_i = particles.total_real_particles_ - 1 := by omega
      rw [this]
  · intro k hk
    by_cases hc : index_i < sizeDecrement particles.total_real_particles_
    · exact (switchToBufferParticle_slots particles index_i hc).2 k hk
    · rw [switchToBufferParticle_last particles index_i hc]
      rfl
  · intro hlast
    have hc : ¬ index_i < sizeDecrement particles.total_real_particles_ := by omega
    rw [switchToBufferParticle_last particles index_i hc]
    exact ⟨rfl, rfl, rfl⟩

theorem switchToBufferParticle_swap_with_last_witness :
    (exampleStore.switchToBufferParticle 0).total_real_particles_ + 1 = 3 ∧
    (exampleStore.switchToBufferParticle 0).slot 0 = exampleStore.slot 2 ∧
    (exampleStore.switchToBufferParticle 0).unsorted_id_.getD 0 0 = 1 :=
  ⟨(switchToBufferParticle_swap_with_last exampleStore 0 (by decide)).1,
    (switchToBufferParticle_swap_with_last exampleStore 0 (by decide)).2.1,
    (switchToBufferParticle_swap_with_last exampleStore 0 (by decide)).2.2.1⟩
/-! ## C16: ghost insertion -/

theorem getD_append_zero {α : Type} [Zero α] (xs : List α) (k : Nat) :
    (xs ++ [0]).getD k 0 = xs.getD k 0 := by
  by_cases h : k < xs.length
  · rw [List.getD_eq_getElem?_getD, List.getD_eq_getElem?_getD, List.getElem?_append_left h]
  · rw [getD_of_length_le xs k 0 (by omega)]
    by_cases h2 : k = xs.length
    · subst h2
      rw [List.getD_eq_getElem?_getD, List.getElem?_append_right (le_refl _)]
      simp
    · exact getD_of_length_le _ _ _ (by rw [List.length_append]; simp; omega)

theorem addAParticleEntry_slot (p : BaseParticles) (k : Nat) :
    p.addAParticleEntry.slot k = p.slot k := by
  have hmap : ∀ {α : Type} [Zero α] (xss : List (List α)),
      (xss.map (fun xs => xs ++ [0])).map (fun xs => xs.getD k 0) =
        xss.map (fun xs => xs.getD k 0) := by
    intro α _ xss
    rw [List.map_map]
    exact List.map_congr_left (fun xs _ => getD_append_zero xs k)
  unfold BaseParticles.slot BaseParticles.addAParticleEntry BaseParticles.add_a_particle_value_
  simp only
  rw [getD_append_zero, hmap, hmap, hmap, hmap]

theorem insertAGhostParticle_returned (p : BaseParticles) (index_i : Nat) :
    (p.insertAGhostParticle index_i).2 = p.real_particles_bound_ + p.total_ghost_particles_ ∧
    (p.insertAGhostParticle index_i).1.real_particles_bound_ = p.real_particles_bound_ ∧
    (p.insertAGhostParticle index_i).1.total_ghost_particles_ =
      p.total_ghost_particles_ + 1 := by
  unfold BaseParticles.insertAGhostParticle
  by_cases hc : p.real_particles_bound_ + (p.total_ghost_particles_ + 1) ≤ p.pos_n_.length
  · simp only [hc, if_true]
    exact ⟨by omega, rfl, rfl⟩
  · simp only [hc, if_false]
    exact ⟨by omega, rfl, rfl⟩

theorem insertAGhostParticle_slots (p : BaseParticles) (index_i : Nat)
    (hinv : p.regionInvariant) (hsorted : p.sorted_id_.length = p.pos_n_.length) :
    (p.insertAGhostParticle index_i).1.slot
        (p.real_particles_bound_ + p.total_ghost_particles_) =
      (p.insertAGhostParticle index_i).1.slot index_i ∧
    (∀ k : Nat, k ≠ p.real_particles_bound_ + p.total_ghost_particles_ →
      (p.insertAGhostParticle index_i).1.slot k = p.slot k) ∧
    (p.insertAGhostParticle index_i).1.sorted_id_[
        p.real_particles_bound_ + p.total_ghost_particles_]? = some index_i ∧
    (p.insertAGhostParticle index_i).1.sorted_id_.length =
      (p.insertAGhostParticle index_i).1.pos_n_.length := by
  obtain ⟨ha, _, hb⟩ := hinv
  have hg : p.real_particles_bound_ + (p.total_ghost_particles_ + 1) - 1 =
      p.real_particles_bound_ + p.total_ghost_particles_ := by omega
  unfold BaseParticles.insertAGhostParticle
  by_cases hc : p.real_particles_bound_ + (p.total_ghost_particles_ + 1) ≤ p.pos_n_.length
  · simp only [hc, if_true, hg]
    have hself := copyFromAnotherParticle_slot_self
      { p with total_ghost_particles_ := p.total_ghost_particles_ + 1 }
      (p.real_particles_bound_ + p.total_ghost_particles_) index_i
      (Or.inl ⟨by show _ < p.pos_n_.length; omega, ha⟩)
    have hne := copyFromAnotherParticle_slot_of_ne
      { p with total_ghost_particles_ := p.total_ghost_particles_ + 1 }
      (p.real_particles_bound_ + p.total_ghost_particles_) index_i
    refine ⟨?_, ?_, ?_, ?_⟩
    · by_cases hi : index_i = p.real_particles_bound_ + p.total_ghost_particles_
      · rw [hi]
      · exact hself.trans (hne index_i hi).symm
    · intro k hk
      exact hne k hk
    · refine getElem?_set_self_of_lt _ _ _ ?_
      show _ < p.sorted_id_.length
      omega
    · rw [List.length_set]
      exact hsorted.trans (length_copyValue _ _ _).symm
  · simp only [hc, if_false, hg]
    have hgL : p.real_particles_bound_ + p.total_ghost_particles_ = p.pos_n_.length := by omega
    have hself := copyFromAnotherParticle_slot_self
      ({ p with total_ghost_particles_ := p.total_ghost_particles_ + 1 }).addAParticleEntry
      (p.real_particles_bound_ + p.total_ghost_particles_) index_i
      (Or.inl ⟨by
          rw [(addAParticleEntry_counts _).2.2.2]
          show _ < p.pos_n_.length + 1
          omega,
        addAParticleEntry_fieldsAligned
          { p with total_ghost_particles_ := p.total_ghost_particles_ + 1 } ha⟩)
    have hne := copyFromAnotherParticle_slot_of_ne
      ({ p with total_ghost_particles_ := p.total_ghost_particles_ + 1 }).addAParticleEntry
      (p.real_particles_bound_ + p.total_ghost_particles_) index_i
    have hadd := addAParticleEntry_slot
      { p with total_ghost_particles_ := p.total_ghost_particles_ + 1 }
    refine ⟨?_, ?_, ?_, ?_⟩
    · by_cases hi : index_i = p.real_particles_bound_ + p.total_ghost_particles_
      · rw [hi]
      · exact hself.trans (hne index_i hi).symm
    · intro k hk
      exact (hne k hk).trans (hadd k)
    · refine getElem?_set_self_of_lt _ _ _ ?_
      show _ < (p.sorted_id_ ++ [p.sequence_.length]).length
      rw [List.length_append]
      simp only [List.length_singleton]
      omega
    · rw [List.length_set]
      show (p.sorted_id_ ++ [p.sequence_.length]).length = _
      rw [List.length_append, hsorted]
      exact ((length_copyValue _ _ _).trans (addAParticleEntry_counts _).2.2.2).symm

theorem foldl_insertAGhostParticle (indices : List Nat) (p : BaseParticles)
    (returned : List Nat) :
    (indices.foldl
        (fun (state : BaseParticles × List Nat) index_i =>
          ((state.1.insertAGhostParticle index_i).1,
            state.2 ++ [(state.1.insertAGhostParticle index_i).2]))
        (p, returned)).2 =
      returned ++ (List.range indices.length).map
        (fun n => p.real_particles_bound_ + p.total_ghost_particles_ + n) := by
  induction indices generalizing p returned with
  | nil => simp
  | cons i is ih =>
    simp only [List.foldl_cons, List.length_cons]
    obtain ⟨e1, e2, e3⟩ := insertAGhostParticle_returned p i
    rw [ih, e1, e2, e3, List.range_succ_eq_map, List.map_cons, List.map_map,
      List.append_assoc]
    congr 1
    simp only [List.singleton_append, Nat.add_zero, List.cons.injEq, true_and]
    refine List.map_congr_left ?_
    intro n _
    simp only [Function.comp]
    omega

/-- C16: on a store that satisfies the region invariant (with `sorted_id_` as long as the
registered arrays), `insertAGhostParticle(index_i)` returns
`g = real_particles_bound_ + total_ghost_particles_` (the count before the call), raises
`total_ghost_particles_` by exactly one, leaves every registered variable at slot `g` equal to
its value at slot `index_i`, sets `sorted_id_[g] = index_i`, grows the arrays by one entry exactly
when `g` equals their length, and leaves `total_real_particles_`, `real_particles_bound_` and the
values of every slot other than `g` unchanged; successive insertions after a reset return
`real_particles_bound_`, `real_particles_bound_ + 1`, ... -/
theorem insertAGhostParticle_spec (particles : BaseParticles) (index_i : Nat)
    (hinv : particles.regionInvariant)
    (hsorted : particles.sorted_id_.length = particles.pos_n_.length) :
    (particles.insertAGhostParticle index_i).2 =
      particles.real_particles_bound_ + particles.total_ghost_particles_ ∧
    (particles.insertAGhostParticle index_i).1.total_ghost_particles_ =
      particles.total_ghost_particles_ + 1 ∧
    (particles.insertAGhostParticle index_i).1.slot (particles.insertAGhostParticle index_i).2 =
      (particles.insertAGhostParticle index_i).1.slot index_i ∧
    (particles.insertAGhostParticle index_i).1.sorted_id_[
      (particles.insertAGhostParticle index_i).2]? = some index_i ∧
    (particles.insertAGhostParticle index_i).1.fieldsAligned ∧
    (particles.insertAGhostParticle index_i).1.sorted_id_.length =
      (particles.insertAGhostParticle index_i).1.pos_n_.length ∧
    (particles.insertAGhostParticle index_i).1.pos_n_.length =
      (if (particles.insertAGhostParticle index_i).2 = particles.pos_n_.length
        then particles.pos_n_.length + 1 else particles.pos_n_.length) ∧
    (particles.insertAGhostParticle index_i).1.total_real_particles_ =
      particles.total_real_particles_ ∧
    (particles.insertAGhostParticle index_i).1.real_particles_bound_ =
      particles.real_particles_bound_ ∧
    (∀ k : Nat, k ≠ (particles.insertAGhostParticle index_i).2 →
      (particles.insertAGhostParticle index_i).1.slot k = particles.slot k) ∧
    (∀ indices : List Nat,
      (particles.resetTotalGhostParticles.insertGhostParticles indices).2 =
        (List.range indices.length).map (fun n => particles.real_particles_bound_ + n)) := by
  obtain ⟨e0, e1, e2, e3, e4, e5⟩ := insertAGhostParticle_counts particles index_i hinv.2.2
  obtain ⟨s1, s2, s3, s4⟩ := insertAGhostParticle_slots particles index_i hinv hsorted
  rw [e0]
  refine ⟨rfl, e3, s1, s3, e5 hinv.1, s4, e4, e1, e2, s2, ?_⟩
  intro indices
  unfold BaseParticles.insertGhostParticles
  rw [foldl_insertAGhostParticle]
  rfl

theorem insertAGhostParticle_spec_witness :
    exampleStore.regionInvariant ∧
    (exampleStore.insertAGhostParticle 1).2 = 4 ∧
    (exampleStore.insertAGhostParticle 1).1.slot 4 =
      (exampleStore.insertAGhostParticle 1).1.slot 1 ∧
    (exampleStore.insertAGhostParticle 1).1.sorted_id_[4]? = some 1 ∧
    (exampleStore.resetTotalGhostParticles.insertGhostParticles [0, 1, 2]).2 = [4, 5, 6] :=
  ⟨by decide,
    (insertAGhostParticle_spec exampleStore 1 (by decide) (by decide)).1,
    (insertAGhostParticle_spec exampleStore 1 (by decide) (by decide)).2.2.1,
    (insertAGhostParticle_spec exampleStore 1 (by decide) (by decide)).2.2.2.1,
    (insertAGhostParticle_spec exampleStore 1 (by decide) (by decide)).2.2.2.2.2.2.2.2.2.2
      [0, 1, 2]⟩

/-! ## C17, C18: the rebuild of the cell lists by `updateCellLinkedList` -/

theorem updateCellLinkedList_of_not_flags (functions : BodyFunctions) (body : RealBody)
    (h : body.newly_moved_ = false ∨ body.to_update_cell_linked_list_ = false) :
    body.updateCellLinkedList functions = body := by
  unfold RealBody.updateCellLinkedList
  rcases h with h | h <;> simp [h]

theorem updateCellLinkedList_of_flags (functions : BodyFunctions) (body : RealBody)
    (h1 : body.newly_moved_ = true) (h2 : body.to_update_cell_linked_list_ = true) :
    body.updateCellLinkedList functions =
      { ({ (if body.iteration_count_ % body.sorting_interval_ = 0
              then body.sortParticles functions else body) with
            iteration_count_ :=
              (if body.iteration_count_ % body.sorting_interval_ = 0
                then body.sortParticles functions else body).iteration_count_ + 1
          } : RealBody).UpdateCellLists functions with
        base_particles_ :=
          (({ (if body.iteration_count_ % body.sorting_interval_ = 0
              then body.sortParticles functions else body) with
            iteration_count_ :=
              (if body.iteration_count_ % body.sorting_interval_ = 0
                then body.sortParticles functions else body).iteration_count_ + 1
          } : RealBody).UpdateCellLists functions).base_particles_.resetTotalGhostParticles
        newly_moved_ := false
        to_update_cell_linked_list_ := false } := by
  unfold RealBody.updateCellLinkedList
  simp only [h1, h2, Bool.and_self, if_true]

theorem getCellLinkedList_fields (functions : BodyFunctions) (body : RealBody) :
    (body.getCellLinkedList functions).base_particles_ = body.base_particles_ ∧
    (body.getCellLinkedList functions).calls_ = body.calls_ ∧
    (body.getCellLinkedList functions).iteration_count_ = body.iteration_count_ ∧
    (body.getCellLinkedList functions).sorting_interval_ = body.sorting_interval_ ∧
    (body.getCellLinkedList functions).newly_moved_ = body.newly_moved_ ∧
    (body.getCellLinkedList functions).to_update_cell_linked_list_ =
      body.to_update_cell_linked_list_ := by
  unfold RealBody.getCellLinkedList
  split <;> exact ⟨rfl, rfl, rfl, rfl, rfl, rfl⟩

/-- What an effective call of `updateCellLinkedList` does when it does not sort. -/
theorem updateCellLinkedList_without_sort (functions : BodyFunctions) (body : RealBody)
    (h1 : body.newly_moved_ = true) (h2 : body.to_update_cell_linked_list_ = true)
    (hs : body.iteration_count_ % body.sorting_interval_ ≠ 0) :
    (body.updateCellLinkedList functions).calls_ =
      body.calls_ ++ [BodyCall.UpdateCellLists body.base_particles_.total_ghost_particles_] ∧
    (body.updateCellLinkedList functions).cell_linked_list_ptr_ =
      functions.UpdateCellLists (body.getCellLinkedList functions).cell_linked_list_ptr_
        body.base_particles_ ∧
    (body.updateCellLinkedList functions).base_particles_ =
      body.base_particles_.resetTotalGhostParticles ∧
    (body.updateCellLinkedList functions).iteration_count_ = body.iteration_count_ + 1 ∧
    (body.updateCellLinkedList functions).sorting_interval_ = body.sorting_interval_ ∧
    (body.updateCellLinkedList functions).newly_moved_ = false ∧
    (body.updateCellLinkedList functions).to_update_cell_linked_list_ = false := by
  rw [updateCellLinkedList_of_flags functions body h1 h2]
  simp only [hs, if_false]
  unfold RealBody.UpdateCellLists
  obtain ⟨g1, g2, g3, g4, _, _⟩ := getCellLinkedList_fields functions
    { body with iteration_count_ := body.iteration_count_ + 1 }
  simp only [g1, g2, g3, g4]
  refine ⟨trivial, ?_, trivial, trivial, trivial, trivial, trivial⟩
  unfold RealBody.getCellLinkedList
  split <;> rfl

/-- What an effective call of `updateCellLinkedList` does when it sorts. -/
theorem updateCellLinkedList_with_sort (functions : BodyFunctions) (body : RealBody)
    (h1 : body.newly_moved_ = true) (h2 : body.to_update_cell_linked_list_ = true)
    (hs : body.iteration_count_ % body.sorting_interval_ = 0) :
    (body.updateCellLinkedList functions).calls_ =
      body.calls_ ++ [BodyCall.sortParticles,
        BodyCall.UpdateCellLists
          (functions.sortParticles (body.getCellLinkedList functions).cell_linked_list_ptr_
            body.base_particles_).total_ghost_particles_] ∧
    (body.updateCellLinkedList functions).cell_linked_list_ptr_ =
      functions.UpdateCellLists (body.getCellLinkedList functions).cell_linked_list_ptr_
        (functions.sortParticles (body.getCellLinkedList functions).cell_linked_list_ptr_
          body.base_particles_) ∧
    (body.updateCellLinkedList functions).base_particles_ =
      (functions.sortParticles (body.getCellLinkedList functions).cell_linked_list_ptr_
        body.base_particles_).resetTotalGhostParticles ∧
    (body.updateCellLinkedList functions).iteration_count_ = body.iteration_count_ + 1 ∧
    (body.updateCellLinkedList functions).sorting_interval_ = body.sorting_interval_ ∧
    (body.updateCellLinkedList functions).newly_moved_ = false ∧
    (body.updateCellLinkedList functions).to_update_cell_linked_list_ = false := by
  rw [updateCellLinkedList_of_flags functions body h1 h2]
  simp only [hs, if_true]
  obtain ⟨g1, g2, g3, g4, _, _⟩ := getCellLinkedList_fields functions body
  have hcreated : (body.getCellLinkedList functions).cell_linked_list_created_ = true := by
    unfold RealBody.getCellLinkedList
    by_cases hb : body.cell_linked_list_created_ = true <;> simp [hb]
  have hget : ∀ (b : RealBody), b.cell_linked_list_created_ = true →
      b.getCellLinkedList functions = b := by
    intro b hb
    unfold RealBody.getCellLinkedList
    simp [hb]
  unfold RealBody.UpdateCellLists RealBody.sortParticles
  rw [hget _ (by exact hcreated)]
  simp only [g1, g2, g3, g4, List.append_assoc, List.singleton_append]
  exact ⟨trivial, trivial, trivial, trivial, trivial, trivial, trivial⟩

/-- C17, as stated, fails: the body holds one ghost particle (slot 2) from the previous step and
does not sort at the iteration 1; the call of `updateCellLinkedList` hands `UpdateCellLists` a
store whose ghost count is 1, so that the rebuilt grid holds the ghost in cell (1,0), and resets
the count to 0 only afterwards. -/
theorem updateCellLinkedList_rebuild_sees_ghosts :
    (exampleBody 1).base_particles_.total_ghost_particles_ = 1 ∧
    ((exampleBody 1).updateCellLinkedList exampleFunctions).calls_ =
      [BodyCall.UpdateCellLists 1] ∧
    ((exampleBody 1).updateCellLinkedList exampleFunctions).cell_linked_list_ptr_.cell_linked_lists_
      1 0 = [(2, (3 / 2, 1 / 2))] ∧
    ((exampleBody 1).updateCellLinkedList exampleFunctions).base_particles_.total_ghost_particles_
      = 0 := by
  decide!

/-- C17, amended: when `updateCellLinkedList` rebuilds the cell lists (both flags set),
`UpdateCellLists` is run on the particle store as the previous step, and the particle sort when
it runs, left it: the ghost count is not reset before the rebuild. `total_ghost_particles_` is
reset to 0 after `UpdateCellLists` has run, and it is 0 when the call returns. -/
theorem updateCellLinkedList_resets_ghosts_after_rebuild (functions : BodyFunctions)
    (body : RealBody) (hmoved : body.newly_moved_ = true)
    (hupdate : body.to_update_cell_linked_list_ = true) :
    (body.updateCellLinkedList functions).base_particles_.total_ghost_particles_ = 0 ∧
    (body.iteration_count_ % body.sorting_interval_ ≠ 0 →
      (body.updateCellLinkedList functions).calls_ =
        body.calls_ ++ [BodyCall.UpdateCellLists body.base_particles_.total_ghost_particles_] ∧
      (body.updateCellLinkedList functions).cell_linked_list_ptr_ =
        functions.UpdateCellLists (body.getCellLinkedList functions).cell_linked_list_ptr_
          body.base_particles_) ∧
    (body.iteration_count_ % body.sorting_interval_ = 0 →
      (body.updateCellLinkedList functions).calls_ =
        body.calls_ ++ [BodyCall.sortParticles,
          BodyCall.UpdateCellLists
            (functions.sortParticles (body.getCellLinkedList functions).cell_linked_list_ptr_
              body.base_particles_).total_ghost_particles_] ∧
      (body.updateCellLinkedList functions).cell_linked_list_ptr_ =
        functions.UpdateCellLists (body.getCellLinkedList functions).cell_linked_list_ptr_
          (functions.sortParticles (body.getCellLinkedList functions).cell_linked_list_ptr_
            body.base_particles_)) := by
  refine ⟨?_, ?_, ?_⟩
  · by_cases hs : body.iteration_count_ % body.sorting_interval_ = 0
    · rw [(updateCellLinkedList_with_sort functions body hmoved hupdate hs).2.2.1]
      rfl
    · rw [(updateCellLinkedList_without_sort functions body hmoved hupdate hs).2.2.1]
      rfl
  · intro hs
    exact ⟨(updateCellLinkedList_without_sort functions body hmoved hupdate hs).1,
      (updateCellLinkedList_without_sort functions body hmoved hupdate hs).2.1⟩
  · intro hs
    exact ⟨(updateCellLinkedList_with_sort functions body hmoved hupdate hs).1,
      (updateCellLinkedList_with_sort functions body hmoved hupdate hs).2.1⟩

theorem updateCellLinkedList_resets_ghosts_after_rebuild_witness :
    ((exampleBody 0).updateCellLinkedList exampleFunctions).base_particles_.total_ghost_particles_
        = 0 ∧
    ((exampleBody 0).updateCellLinkedList exampleFunctions).calls_ =
      [BodyCall.sortParticles, BodyCall.UpdateCellLists 1] :=
  ⟨(updateCellLinkedList_resets_ghosts_after_rebuild exampleFunctions (exampleBody 0) rfl
      rfl).1,
    ((updateCellLinkedList_resets_ghosts_after_rebuild exampleFunctions (exampleBody 0) rfl
      rfl).2.2 (by decide)).1⟩

theorem rebuildCount_append (calls more : List BodyCall) :
    (( calls ++ more).filter (fun call => decide (call ≠ BodyCall.sortParticles))).length =
      (calls.filter (fun call => decide (call ≠ BodyCall.sortParticles))).length +
        (more.filter (fun call => decide (call ≠ BodyCall.sortParticles))).length := by
  rw [List.filter_append, List.length_append]

theorem updateCellLinkedListChecked_eq (functions : BodyFunctions) (body : RealBody)
    (hinterval : 1 ≤ body.sorting_interval_) :
    body.updateCellLinkedListChecked functions = some (body.updateCellLinkedList functions) := by
  unfold RealBody.updateCellLinkedListChecked RealBody.updateCellLinkedList
  have h0 : ¬ body.sorting_interval_ = 0 := by omega
  split_ifs <;> rfl

theorem updateCellLinkedListChecked_of_not_flags (functions : BodyFunctions) (body : RealBody)
    (h : body.newly_moved_ = false ∨ body.to_update_cell_linked_list_ = false) :
    body.updateCellLinkedListChecked functions = some body := by
  unfold RealBody.updateCellLinkedListChecked
  rcases h with h | h <;> simp [h]

/-- C18: `updateCellLinkedList` changes nothing when `newly_moved_` or
`to_update_cell_linked_list_` is false. When both are true and `sorting_interval_ ≥ 1` it runs
`UpdateCellLists` exactly once and clears both flags; with `sorting_interval_ = 0` the remainder
`iteration_count_ % sorting_interval_` stops the program. Calling it twice in a row is the same
as calling it once. -/
theorem updateCellLinkedList_idempotent (functions : BodyFunctions) (body : RealBody) :
    ((body.newly_moved_ = false ∨ body.to_update_cell_linked_list_ = false) →
      body.updateCellLinkedListChecked functions = some body) ∧
    ((body.newly_moved_ = true ∧ body.to_update_cell_linked_list_ = true) →
      1 ≤ body.sorting_interval_ →
      body.updateCellLinkedListChecked functions =
        some (body.updateCellLinkedList functions) ∧
      (body.updateCellLinkedList functions).rebuildCount = body.rebuildCount + 1 ∧
      (body.updateCellLinkedList functions).newly_moved_ = false ∧
      (body.updateCellLinkedList functions).to_update_cell_linked_list_ = false) ∧
    ((body.newly_moved_ = true ∧ body.to_update_cell_linked_list_ = true) →
      body.sorting_interval_ = 0 → body.updateCellLinkedListChecked functions = none) ∧
    (body.updateCellLinkedListChecked functions).bind
        (fun updated => updated.updateCellLinkedListChecked functions) =
      body.updateCellLinkedListChecked functions := by
  have hflags : (body.newly_moved_ = true ∧ body.to_update_cell_linked_list_ = true) →
      (body.updateCellLinkedList functions).rebuildCount = body.rebuildCount + 1 ∧
      (body.updateCellLinkedList functions).newly_moved_ = false ∧
      (body.updateCellLinkedList functions).to_update_cell_linked_list_ = false := by
    rintro ⟨h1, h2⟩
    by_cases hs : body.iteration_count_ % body.sorting_interval_ = 0
    · obtain ⟨c, _, _, _, _, m, u⟩ := updateCellLinkedList_with_sort functions body h1 h2 hs
      refine ⟨?_, m, u⟩
      unfold RealBody.rebuildCount
      rw [c, rebuildCount_append]
      rfl
    · obtain ⟨c, _, _, _, _, m, u⟩ := updateCellLinkedList_without_sort functions body h1 h2 hs
      refine ⟨?_, m, u⟩
      unfold RealBody.rebuildCount
      rw [c, rebuildCount_append]
      rfl
  have hstop : (body.newly_moved_ = true ∧ body.to_update_cell_linked_list_ = true) →
      body.sorting_interval_ = 0 → body.updateCellLinkedListChecked functions = none := by
    rintro ⟨h1, h2⟩ h0
    unfold RealBody.updateCellLinkedListChecked
    simp [h1, h2, h0]
  refine ⟨updateCellLinkedListChecked_of_not_flags functions body,
    fun h hinterval => ⟨updateCellLinkedListChecked_eq functions body hinterval, hflags h⟩,
    hstop, ?_⟩
  by_cases h : body.newly_moved_ = true ∧ body.to_update_cell_linked_list_ = true
  · by_cases h0 : body.sorting_interval_ = 0
    · rw [hstop h h0]
      rfl
    · rw [updateCellLinkedListChecked_eq functions body (by omega), Option.some_bind]
      exact updateCellLinkedListChecked_of_not_flags functions _ (Or.inl (hflags h).2.1)
  · have hnot : body.newly_moved_ = false ∨ body.to_update_cell_linked_list_ = false := by
      by_cases h1 : body.newly_moved_ = true
      · right
        by_cases h2 : body.to_update_cell_linked_list_ = true
        · exact absurd ⟨h1, h2⟩ h
        · simpa using h2
      · left
        simpa using h1
    rw [updateCellLinkedListChecked_of_not_flags functions body hnot, Option.some_bind]
    exact updateCellLinkedListChecked_of_not_flags functions body hnot

theorem updateCellLinkedList_idempotent_witness :
    (exampleBody 1).updateCellLinkedListChecked exampleFunctions =
      some ((exampleBody 1).updateCellLinkedList exampleFunctions) ∧
    ((exampleBody 1).updateCellLinkedList exampleFunctions).rebuildCount = 1 ∧
    ((exampleBody 1).updateCellLinkedList exampleFunctions).newly_moved_ = false ∧
    ((exampleBody 1).updateCellLinkedList exampleFunctions).to_update_cell_linked_list_ = false :=
  (updateCellLinkedList_idempotent exampleFunctions (exampleBody 1)).2.1 ⟨rfl, rfl⟩ (by decide)

/-! ## C19: the sorting interval -/

theorem sortCount_append (calls more : List BodyCall) :
    (calls ++ more).count BodyCall.sortParticles =
      calls.count BodyCall.sortParticles + more.count BodyCall.sortParticles :=
  List.count_append _ _ _

theorem effective_call_step (functions : BodyFunctions) (body : RealBody) :
    (body.markMoved.updateCellLinkedList functions).sortCount =
      body.sortCount + (if body.iteration_count_ % body.sorting_interval_ = 0 then 1 else 0) ∧
    (body.markMoved.updateCellLinkedList functions).iteration_count_ =
      body.iteration_count_ + 1 ∧
    (body.markMoved.updateCellLinkedList functions).sorting_interval_ =
      body.sorting_interval_ := by
  by_cases hs : body.iteration_count_ % body.sorting_interval_ = 0
  · obtain ⟨c, _, _, i, s, _, _⟩ :=
      updateCellLinkedList_with_sort functions body.markMoved rfl rfl hs
    refine ⟨?_, i, s⟩
    unfold RealBody.sortCount
    rw [c, sortCount_append, if_pos hs]
    rfl
  · obtain ⟨c, _, _, i, s, _, _⟩ :=
      updateCellLinkedList_without_sort functions body.markMoved rfl rfl hs
    refine ⟨?_, i, s⟩
    unfold RealBody.sortCount
    rw [c, sortCount_append, if_neg hs]
    rfl

theorem effectiveCalls_succ (functions : BodyFunctions) (n : Nat) (body : RealBody) :
    body.effectiveCalls functions (n + 1) =
      (body.effectiveCalls functions n).markMoved.updateCellLinkedList functions := by
  unfold RealBody.effectiveCalls
  rw [Function.iterate_succ_apply']

theorem effectiveCalls_spec (functions : BodyFunctions) (n : Nat) (body : RealBody) :
    (body.effectiveCalls functions n).sortCount =
      body.sortCount +
        ((List.range n).filter
          (fun j => decide ((body.iteration_count_ + j) % body.sorting_interval_ = 0))).length ∧
    (body.effectiveCalls functions n).iteration_count_ = body.iteration_count_ + n ∧
    (body.effectiveCalls functions n).sorting_interval_ = body.sorting_interval_ := by
  induction n with
  | zero => exact ⟨rfl, rfl, rfl⟩
  | succ n ih =>
    obtain ⟨i1, i2, i3⟩ := ih
    obtain ⟨e1, e2, e3⟩ := effective_call_step functions (body.effectiveCalls functions n)
    rw [effectiveCalls_succ, e1, e2, e3, i1, i2, i3]
    refine ⟨?_, by omega, rfl⟩
    rw [List.range_succ, List.filter_append, List.length_append, Nat.add_assoc]
    congr 2
    by_cases h : (body.iteration_count_ + n) % body.sorting_interval_ = 0
    · simp [h]
    · simp [h]

/-- Among `s` consecutive numbers exactly one is a multiple of `s`. -/
theorem count_multiples_in_period (s n : Nat) (hs : 1 ≤ s) :
    ((List.range s).filter (fun j => decide ((n + j) % s = 0))).length = 1 := by
  have hmod : n % s < s := Nat.mod_lt _ (by omega)
  have hj0 : (n + (s - n % s) % s) % s = 0 := by
    rw [Nat.add_mod_mod, ← Nat.mod_add_mod]
    have : n % s + (s - n % s) = s := by omega
    rw [this, Nat.mod_self]
  have hj0lt : (s - n % s) % s < s := Nat.mod_lt _ (by omega)
  have hperm : ((List.range s).filter (fun j => decide ((n + j) % s = 0))).Perm
      [(s - n % s) % s] := by
    rw [List.perm_ext_iff_of_nodup ((List.nodup_range s).filter _) (List.nodup_singleton _)]
    intro j
    simp only [List.mem_filter, List.mem_range, decide_eq_true_eq, List.mem_singleton]
    constructor
    · rintro ⟨hj, hjm⟩
      have h1 : (n + j) % s = (n + (s - n % s) % s) % s := by rw [hjm, hj0]
      have h2 : j % s = ((s - n % s) % s) % s := Nat.ModEq.add_left_cancel' n h1
      rw [Nat.mod_eq_of_lt hj, Nat.mod_mod] at h2
      exact h2
    · rintro rfl
      exact ⟨hj0lt, hj0⟩
  rw [hperm.length_eq]
  rfl

/-- C19: with `sorting_interval_ = s ≥ 1`, an effective call of `updateCellLinkedList` (both
flags set) sorts the particles exactly when `iteration_count_` is a multiple of `s` at entry, and
raises `iteration_count_` by exactly one; so `s` consecutive effective calls, from any state of
the body, sort exactly once; and a call that sorts calls `sortParticles` before
`UpdateCellLists`, which is handed the sorted particle store. -/
theorem updateCellLinkedList_sorts_on_interval (functions : BodyFunctions) (body : RealBody)
    (hinterval : 1 ≤ body.sorting_interval_) :
    ((body.newly_moved_ = true ∧ body.to_update_cell_linked_list_ = true) →
      (body.updateCellLinkedList functions).sortCount =
        body.sortCount +
          (if body.iteration_count_ % body.sorting_interval_ = 0 then 1 else 0) ∧
      (body.updateCellLinkedList functions).iteration_count_ = body.iteration_count_ + 1) ∧
    (body.effectiveCalls functions body.sorting_interval_).sortCount = body.sortCount + 1 ∧
    ((body.newly_moved_ = true ∧ body.to_update_cell_linked_list_ = true ∧
        body.iteration_count_ % body.sorting_interval_ = 0) →
      (body.updateCellLinkedList functions).calls_ =
        body.calls_ ++ [BodyCall.sortParticles,
          BodyCall.UpdateCellLists
            (functions.sortParticles (body.getCellLinkedList functions).cell_linked_list_ptr_
              body.base_particles_).total_ghost_particles_] ∧
      (body.updateCellLinkedList functions).cell_linked_list_ptr_ =
        functions.UpdateCellLists (body.getCellLinkedList functions).cell_linked_list_ptr_
          (functions.sortParticles (body.getCellLinkedList functions).cell_linked_list_ptr_
            body.base_particles_)) := by
  refine ⟨?_, ?_, ?_⟩
  · rintro ⟨h1, h2⟩
    by_cases hs : body.iteration_count_ % body.sorting_interval_ = 0
    · obtain ⟨c, _, _, i, _, _, _⟩ := updateCellLinkedList_with_sort functions body h1 h2 hs
      refine ⟨?_, i⟩
      unfold RealBody.sortCount
      rw [c, sortCount_append, if_pos hs]
      rfl
    · obtain ⟨c, _, _, i, _, _, _⟩ := updateCellLinkedList_without_sort functions body h1 h2 hs
      refine ⟨?_, i⟩
      unfold RealBody.sortCount
      rw [c, sortCount_append, if_neg hs]
      rfl
  · rw [(effectiveCalls_spec functions body.sorting_interval_ body).1,
      count_multiples_in_period _ _ hinterval]
  · rintro ⟨h1, h2, hs⟩
    exact ⟨(updateCellLinkedList_with_sort functions body h1 h2 hs).1,
      (updateCellLinkedList_with_sort functions body h1 h2 hs).2.1⟩

theorem updateCellLinkedList_sorts_on_interval_witness :
    1 ≤ (exampleBody 37).sorting_interval_ ∧
    ((exampleBody 37).effectiveCalls exampleFunctions (exampleBody 37).sorting_interval_).sortCount
      = (exampleBody 37).sortCount + 1 :=
  ⟨by decide, (updateCellLinkedList_sorts_on_interval exampleFunctions (exampleBody 37)
    (by decide)).2.1⟩

/-! ## C20: `updateCellLinkedListWithParticleSort` -/

/-- C20 at the failing input: every call of `updateCellLinkedListWithParticleSort` on a moved,
update-requested body raises `iteration_count_` by two, once in the function and once in
`updateCellLinkedList`; with the sorting period 100 and `iteration_count_ = 0`, 100 consecutive
calls sort the particles twice; with the period 2, two consecutive calls both sort when the count
starts at 0 and neither sorts when it starts at 1. -/
theorem updateCellLinkedListWithParticleSort_period_broken :
    (∀ (functions : BodyFunctions) (body : RealBody) (particle_sorting_period : Nat),
      (body.markMoved.updateCellLinkedListWithParticleSort functions
        particle_sorting_period).iteration_count_ = body.iteration_count_ + 2) ∧
    ((exampleBody 0).callsWithParticleSort exampleFunctions 100 100).sortCount = 2 ∧
    ((exampleBody 0).callsWithParticleSort exampleFunctions 2 2).sortCount = 2 ∧
    ((exampleBody 1).callsWithParticleSort exampleFunctions 2 2).sortCount = 0 := by
  refine ⟨?_, by decide!, by decide!, by decide!⟩
  intro functions body p
  unfold RealBody.updateCellLinkedListWithParticleSort
  by_cases hp : body.markMoved.iteration_count_ % p = 0
  · simp only [hp, if_true]
    have h := (effective_call_step functions
      { body.markMoved.sortParticles functions with
        iteration_count_ := (body.markMoved.sortParticles functions).iteration_count_ + 1 }).2.1
    have hi : (body.markMoved.sortParticles functions).iteration_count_ =
        body.iteration_count_ := (getCellLinkedList_fields functions body.markMoved).2.2.1
    rw [hi] at h ⊢
    have hm : ({ body.markMoved.sortParticles functions with
        iteration_count_ := body.iteration_count_ + 1 } : RealBody).markMoved =
        { body.markMoved.sortParticles functions with
          iteration_count_ := body.iteration_count_ + 1 } := by
      unfold RealBody.markMoved RealBody.sortParticles
      have hg := getCellLinkedList_fields functions
        { body with newly_moved_ := true, to_update_cell_linked_list_ := true }
      simp only [hg.2.2.2.2.1, hg.2.2.2.2.2]
    rw [hm] at h
    exact h
  · simp only [hp, if_false]
    exact (effective_call_step functions
      { body with iteration_count_ := body.iteration_count_ + 1 }).2.1

/-! ## C21: the frame of `addBufferParticles` -/

theorem map_append_replicate_succ {α : Type} [Zero α] (xss : List (List α)) (k : Nat) :
    (xss.map (fun xs => xs ++ List.replicate k 0)).map (fun xs => xs ++ [0]) =
      xss.map (fun xs => xs ++ List.replicate (k + 1) 0) := by
  rw [List.map_map]
  refine List.map_congr_left (fun xs _ => ?_)
  simp only [Function.comp, List.append_assoc]
  rw [List.replicate_succ']

/-- The arrays of the store after one call of `addAParticleEntry`. -/
theorem addAParticleEntry_arrays (p : BaseParticles) :
    p.addAParticleEntry.pos_n_ = p.pos_n_ ++ [0] ∧
    p.addAParticleEntry.all_particle_data_.reals =
      p.all_particle_data_.reals.map (fun xs => xs ++ [0]) ∧
    p.addAParticleEntry.all_particle_data_.vecds =
      p.all_particle_data_.vecds.map (fun xs => xs ++ [0]) ∧
    p.addAParticleEntry.all_particle_data_.matds =
      p.all_particle_data_.matds.map (fun xs => xs ++ [0]) ∧
    p.addAParticleEntry.all_particle_data_.ints =
      p.all_particle_data_.ints.map (fun xs => xs ++ [0]) ∧
    p.addAParticleEntry.unsorted_id_ = p.unsorted_id_ ++ [p.sequence_.length] ∧
    p.addAParticleEntry.sorted_id_ = p.sorted_id_ ++ [p.sequence_.length] ∧
    p.addAParticleEntry.sequence_ = p.sequence_ ++ [0] :=
  ⟨rfl, rfl, rfl, rfl, rfl, rfl, rfl, rfl⟩

/-- The arrays of the store after `k` calls of `addAParticleEntry`. -/
theorem iterate_addAParticleEntry_arrays (p : BaseParticles) (k : Nat) :
    (Nat.iterate BaseParticles.addAParticleEntry k p).pos_n_ =
      p.pos_n_ ++ List.replicate k 0 ∧
    (Nat.iterate BaseParticles.addAParticleEntry k p).all_particle_data_.reals =
      p.all_particle_data_.reals.map (fun xs => xs ++ List.replicate k 0) ∧
    (Nat.iterate BaseParticles.addAParticleEntry k p).all_particle_data_.vecds =
      p.all_particle_data_.vecds.map (fun xs => xs ++ List.replicate k 0) ∧
    (Nat.iterate BaseParticles.addAParticleEntry k p).all_particle_data_.matds =
      p.all_particle_data_.matds.map (fun xs => xs ++ List.replicate k 0) ∧
    (Nat.iterate BaseParticles.addAParticleEntry k p).all_particle_data_.ints =
      p.all_particle_data_.ints.map (fun xs => xs ++ List.replicate k 0) ∧
    (Nat.iterate BaseParticles.addAParticleEntry k p).unsorted_id_ =
      p.unsorted_id_ ++ (List.range k).map (fun (i : Nat) => p.sequence_.length + i) ∧
    (Nat.iterate BaseParticles.addAParticleEntry k p).sorted_id_ =
      p.sorted_id_ ++ (List.range k).map (fun (i : Nat) => p.sequence_.length + i) ∧
    (Nat.iterate BaseParticles.addAParticleEntry k p).sequence_ =
      p.sequence_ ++ List.replicate k 0 := by
  induction k with
  | zero => simp
  | succ k ih =>
    rw [Function.iterate_succ_apply']
    obtain ⟨i1, i2, i3, i4, i5, i6, i7, i8⟩ := ih
    obtain ⟨e1, e2, e3, e4, e5, e6, e7, e8⟩ :=
      addAParticleEntry_arrays (Nat.iterate BaseParticles.addAParticleEntry k p)
    rw [e1, e2, e3, e4, e5, e6, e7, e8, i1, i2, i3, i4, i5, i6, i7, i8,
      map_append_replicate_succ, map_append_replicate_succ, map_append_replicate_succ,
      map_append_replicate_succ]
    refine ⟨?_, rfl, rfl, rfl, rfl, ?_, ?_, ?_⟩
    · rw [List.append_assoc, ← List.replicate_succ']
    · rw [List.append_assoc, List.range_succ, List.map_append]
      simp
    · rw [List.append_assoc, List.range_succ, List.map_append]
      simp
    · rw [List.append_assoc, ← List.replicate_succ']

theorem getElem?_append_map_range (xs : List Nat) (k L i : Nat) (hL : xs.length = L)
    (hi : i < k) :
    (xs ++ (List.range k).map (fun (i : Nat) => L + i))[L + i]? = some (L + i) := by
  rw [List.getElem?_append_right (by omega)]
  have h : L + i - xs.length = i := by omega
  rw [h, List.getElem?_map, List.getElem?_range hi]
  rfl

/-- C21: `addBufferParticles(k)` on a store whose id arrays `unsorted_id_`, `sorted_id_` and
`sequence_` have length `L` appends `k` entries to every registered array and to the three id
arrays and changes no earlier entry; the new slots `L + i`, `i < k`, get the id `L + i` in
`unsorted_id_` and in `sorted_id_`; `real_particles_bound_` grows by `k`, and
`total_real_particles_` and `total_ghost_particles_` keep their values. -/
theorem addBufferParticles_frame (particles : BaseParticles) (k L : Nat)
    (hunsorted : particles.unsorted_id_.length = L) (hsorted : particles.sorted_id_.length = L)
    (hsequence : particles.sequence_.length = L) :
    (particles.addBufferParticles k).pos_n_ = particles.pos_n_ ++ List.replicate k 0 ∧
    (particles.addBufferParticles k).all_particle_data_.reals =
      particles.all_particle_data_.reals.map (fun xs => xs ++ List.replicate k 0) ∧
    (particles.addBufferParticles k).all_particle_data_.vecds =
      particles.all_particle_data_.vecds.map (fun xs => xs ++ List.replicate k 0) ∧
    (particles.addBufferParticles k).all_particle_data_.matds =
      particles.all_particle_data_.matds.map (fun xs => xs ++ List.replicate k 0) ∧
    (particles.addBufferParticles k).all_particle_data_.ints =
      particles.all_particle_data_.ints.map (fun xs => xs ++ List.replicate k 0) ∧
    (particles.addBufferParticles k).unsorted_id_ =
      particles.unsorted_id_ ++ (List.range k).map (fun (i : Nat) => L + i) ∧
    (particles.addBufferParticles k).sorted_id_ =
      particles.sorted_id_ ++ (List.range k).map (fun (i : Nat) => L + i) ∧
    (particles.addBufferParticles k).sequence_ = particles.sequence_ ++ List.replicate k 0 ∧
    (∀ i, i < k →
      (particles.addBufferParticles k).unsorted_id_[L + i]? = some (L + i) ∧
      (particles.addBufferParticles k).sorted_id_[L + i]? = some (L + i)) ∧
    (particles.addBufferParticles k).real_particles_bound_ =
      particles.real_particles_bound_ + k ∧
    (particles.addBufferParticles k).total_real_particles_ = particles.total_real_particles_ ∧
    (particles.addBufferParticles k).total_ghost_particles_ =
      particles.total_ghost_particles_ := by
  obtain ⟨i1, i2, i3, i4, i5, i6, i7, i8⟩ := iterate_addAParticleEntry_arrays particles k
  rw [hsequence] at i6 i7
  have hcounts : ∀ n : Nat,
      (Nat.iterate BaseParticles.addAParticleEntry n particles).real_particles_bound_ =
        particles.real_particles_bound_ ∧
      (Nat.iterate BaseParticles.addAParticleEntry n particles).total_real_particles_ =
        particles.total_real_particles_ ∧
      (Nat.iterate BaseParticles.addAParticleEntry n particles).total_ghost_particles_ =
        particles.total_ghost_particles_ := by
    intro n
    induction n with
    | zero => exact ⟨rfl, rfl, rfl⟩
    | succ n ih =>
      rw [Function.iterate_succ_apply']
      exact ih
  obtain ⟨c1, c2, c3⟩ := hcounts k
  refine ⟨i1, i2, i3, i4, i5, i6, i7, i8, ?_, ?_, c2, c3⟩
  · intro i hi
    constructor
    · show (Nat.iterate BaseParticles.addAParticleEntry k particles).unsorted_id_[L + i]? = _
      rw [i6]
      exact getElem?_append_map_range _ k L i hunsorted hi
    · show (Nat.iterate BaseParticles.addAParticleEntry k particles).sorted_id_[L + i]? = _
      rw [i7]
      exact getElem?_append_map_range _ k L i hsorted hi
  · show (Nat.iterate BaseParticles.addAParticleEntry k particles).real_particles_bound_ + k = _
    rw [c1]

theorem addBufferParticles_frame_witness :
    exampleStore.unsorted_id_.length = 4 ∧
    (exampleStore.addBufferParticles 2).unsorted_id_ = [2, 0, 1, 3, 4, 5] ∧
    (exampleStore.addBufferParticles 2).sorted_id_ = [1, 2, 0, 3, 4, 5] ∧
    (exampleStore.addBufferParticles 2).pos_n_ = exampleStore.pos_n_ ++ [0, 0] ∧
    (exampleStore.addBufferParticles 2).real_particles_bound_ = 6 :=
  have h := addBufferParticles_frame exampleStore 2 4 rfl rfl rfl
  ⟨rfl, h.2.2.2.2.2.1, h.2.2.2.2.2.2.1, h.1, h.2.2.2.2.2.2.2.2.2.1⟩

/-! ## C28: the cells read by the scan -/

theorem mem_forRange_clipped (lo hi : Int) (n : Nat) (l : Int)
    (h : l ∈ forRange (SMAX lo 0) (SMIN hi ((n : Int) - 1))) : 0 ≤ l ∧ l < (n : Int) := by
  rw [mem_forRange, le_SMIN_iff, SMAX_le_iff] at h
  omega

/-- C28: the scan of `searchNeighborsByParticles` for a particle reads the cells
`cell_linked_lists_[l][m]` of the list `scanWindow mesh i j d` and no other, where `(i, j)` is the
owning cell and `d` the search range of the particle. Whatever the owning cell (inside the grid
or not), the search range (positive, zero or negative) and the grid size, every cell `(l, m)` of
that list has `0 ≤ l < number_of_cells_[0]` and `0 ≤ m < number_of_cells_[1]`; this holds for any
values `lo`, `hi` the expressions `i - search_range` and `i + search_range` may take, since the
clipping by `SMAX` and `SMIN` comes last. If the clipped range of `l` or of `m` is empty (its
upper bound below its lower bound), the list is empty: no cell is read. -/
theorem searchNeighborsByParticles_cells_in_bounds (mesh : MeshCellLinkedList)
    (source_particles : BaseParticles) (particle_configuration : ParticleConfiguration)
    (get_particle_index : Nat → Nat) (get_search_range : Nat → Int)
    (get_neighbor_relation : GetNeighborRelation) (total_real_particles : Nat) :
    searchNeighborsByParticles mesh total_real_particles source_particles particle_configuration
        get_particle_index get_search_range get_neighbor_relation =
      (List.range total_real_particles).foldl
        (fun cfg num =>
          (scanWindow mesh
              (mesh.CellIndexFromPosition
                (source_particles.pos_n_.getD (get_particle_index num) default)).1
              (mesh.CellIndexFromPosition
                (source_particles.pos_n_.getD (get_particle_index num) default)).2
              (get_search_range (get_particle_index num))).foldl
            (fun cfg c =>
              searchCell get_neighbor_relation
                (source_particles.pos_n_.getD (get_particle_index num) default)
                (get_particle_index num) (mesh.cell_linked_lists_ c.1.toNat c.2.toNat) cfg)
            cfg)
        particle_configuration ∧
    (∀ i j d l m : Int, (l, m) ∈ scanWindow mesh i j d →
      0 ≤ l ∧ l < (mesh.number_of_cells_.1 : Int) ∧ l.toNat < mesh.number_of_cells_.1 ∧
      0 ≤ m ∧ m < (mesh.number_of_cells_.2 : Int) ∧ m.toNat < mesh.number_of_cells_.2) ∧
    (∀ lo hi lo2 hi2 l m : Int,
      (l, m) ∈ List.product
        (forRange (SMAX lo 0) (SMIN hi ((mesh.number_of_cells_.1 : Int) - 1)))
        (forRange (SMAX lo2 0) (SMIN hi2 ((mesh.number_of_cells_.2 : Int) - 1))) →
      0 ≤ l ∧ l < (mesh.number_of_cells_.1 : Int) ∧
      0 ≤ m ∧ m < (mesh.number_of_cells_.2 : Int)) ∧
    (∀ i j d : Int,
      SMIN (i + d) ((mesh.number_of_cells_.1 : Int) - 1) < SMAX (i - d) 0 ∨
      SMIN (j + d) ((mesh.number_of_cells_.2 : Int) - 1) < SMAX (j - d) 0 →
      scanWindow mesh i j d = []) := by
  refine ⟨?_, ?_, ?_, ?_⟩
  · unfold searchNeighborsByParticles
    congr 1
    funext cfg num
    unfold searchParticle scanWindow
    simp only []
    rw [foldl_product (fun cfg (c : Int × Int) =>
      searchCell get_neighbor_relation
        (source_particles.pos_n_.getD (get_particle_index num) default)
        (get_particle_index num) (mesh.cell_linked_lists_ c.1.toNat c.2.toNat) cfg)]
  · intro i j d l m h
    rw [mem_scanWindow] at h
    omega
  · intro lo hi lo2 hi2 l m h
    rw [List.pair_mem_product] at h
    have h1 := mem_forRange_clipped lo hi _ l h.1
    have h2 := mem_forRange_clipped lo2 hi2 _ m h.2
    omega
  · intro i j d h
    unfold scanWindow
    rcases h with h | h
    · rw [forRange_eq_nil _ _ h]
      rfl
    · rw [forRange_eq_nil _ _ h]
      exact List.product_nil _

theorem searchNeighborsByParticles_cells_in_bounds_witness :
    scanWindow pairMesh 7 (-3) 2 = [] ∧ scanWindow pairMesh 0 0 (-1) = [] ∧
    (∀ l m : Int, (l, m) ∈ scanWindow pairMesh 0 0 5 →
      0 ≤ l ∧ l < (pairMesh.number_of_cells_.1 : Int) ∧ l.toNat < pairMesh.number_of_cells_.1 ∧
      0 ≤ m ∧ m < (pairMesh.number_of_cells_.2 : Int) ∧ m.toNat < pairMesh.number_of_cells_.2) :=
  have h := searchNeighborsByParticles_cells_in_bounds pairMesh pairParticles [] id
    (fun _ => 1) (fun neighborhood _ _ _ => neighborhood) 0
  ⟨h.2.2.2 7 (-3) 2 (by decide), h.2.2.2 0 0 (-1) (by decide), fun l m => h.2.1 0 0 5 l m⟩

/-! ## C29: the array accesses of `switchToBufferParticle` -/

theorem readAt_of_lt {α : Type} (xs : List α) (i : Nat) (d : α) (h : i < xs.length) :
    readAt xs i = some (xs.getD i d) := by
  unfold readAt
  rw [if_pos h, List.getD_eq_getElem?_getD, List.getElem?_eq_getElem h]
  rfl

theorem copyValueChecked_of_lt {α : Type} [Zero α] (xs : List α) (i j : Nat)
    (hi : i < xs.length) (hj : j < xs.length) :
    copyValueChecked xs i j = some (copyValue xs i j) := by
  unfold copyValueChecked copyValue writeAt
  rw [readAt_of_lt xs j 0 hj]
  simp [hi]

theorem copyValuesChecked_of_lt {α : Type} [Zero α] (xss : List (List α)) (i j : Nat)
    (h : ∀ xs ∈ xss, i < xs.length ∧ j < xs.length) :
    copyValuesChecked xss i j = some (xss.map (fun xs => copyValue xs i j)) := by
  induction xss with
  | nil => rfl
  | cons xs rest ih =>
    unfold copyValuesChecked
    rw [copyValueChecked_of_lt xs i j (h xs (List.mem_cons_self _ _)).1
      (h xs (List.mem_cons_self _ _)).2,
      ih (fun ys hy => h ys (List.mem_cons_of_mem _ hy))]
    rfl

theorem copy_a_particle_value_checked_of_lt (p : BaseParticles) (i j : Nat)
    (h : ∀ n ∈ p.fieldLengths, i < n ∧ j < n) :
    p.copy_a_particle_value_checked i j = some (p.copy_a_particle_value_ i j) := by
  have hpos : i < p.pos_n_.length ∧ j < p.pos_n_.length :=
    h _ (by unfold BaseParticles.fieldLengths; exact List.mem_cons_self _ _)
  have hmem : ∀ n, n ∈ (p.all_particle_data_.reals.map List.length ++
      p.all_particle_data_.vecds.map List.length ++
      p.all_particle_data_.matds.map List.length ++
      p.all_particle_data_.ints.map List.length) → i < n ∧ j < n :=
    fun n hn => h n (by unfold BaseParticles.fieldLengths; exact List.mem_cons_of_mem _ hn)
  simp only [List.mem_append, List.mem_map] at hmem
  unfold BaseParticles.copy_a_particle_value_checked BaseParticles.copy_a_particle_value_
  rw [copyValueChecked_of_lt _ i j hpos.1 hpos.2,
    copyValuesChecked_of_lt p.all_particle_data_.reals i j
      (fun xs hx => hmem _ (Or.inl (Or.inl (Or.inl ⟨xs, hx, rfl⟩)))),
    copyValuesChecked_of_lt p.all_particle_data_.vecds i j
      (fun xs hx => hmem _ (Or.inl (Or.inl (Or.inr ⟨xs, hx, rfl⟩)))),
    copyValuesChecked_of_lt p.all_particle_data_.matds i j
      (fun xs hx => hmem _ (Or.inl (Or.inr ⟨xs, hx, rfl⟩))),
    copyValuesChecked_of_lt p.all_particle_data_.ints i j
      (fun xs hx => hmem _ (Or.inr ⟨xs, hx, rfl⟩))]
  rfl

theorem swapValuesChecked_of_lt (xs : List Nat) (i j : Nat) (hi : i < xs.length)
    (hj : j < xs.length) : swapValuesChecked xs i j = some (swapValues xs i j) := by
  unfold swapValuesChecked swapValues writeAt
  rw [readAt_of_lt xs i 0 hi, readAt_of_lt xs j 0 hj]
  simp [hi, hj]

/-- C29: on a store with `1 ≤ total_real_particles_`, with every registered array and the array
`unsorted_id_` at least `total_real_particles_` long, with `index_i < total_real_particles_` and
with `unsorted_id_[s]` a valid index of `sorted_id_` for every real slot `s`, the run of `switchToBufferParticle(index_i)` in which every array access and
every decrement is checked completes: no index is outside its array and no decrement wraps. Its
result is that of the unchecked function, and the new `total_real_particles_` is the old one
minus one. -/
theorem switchToBufferParticle_in_bounds (particles : BaseParticles) (index_i : Nat)
    (hone : 1 ≤ particles.total_real_particles_)
    (hfields : ∀ n ∈ particles.fieldLengths, particles.total_real_particles_ ≤ n)
    (hunsorted : particles.total_real_particles_ ≤ particles.unsorted_id_.length)
    (hindex : index_i < particles.total_real_particles_)
    (hids : ∀ s, s < particles.total_real_particles_ →
      particles.unsorted_id_.getD s 0 < particles.sorted_id_.length) :
    particles.switchToBufferParticleChecked index_i =
      some (particles.switchToBufferParticle index_i) ∧
    (particles.switchToBufferParticle index_i).total_real_particles_ + 1 =
      particles.total_real_particles_ := by
  have hdec : sizeDecrementChecked particles.total_real_particles_ =
      some (particles.total_real_particles_ - 1) := by
    unfold sizeDecrementChecked
    rw [if_neg (by omega)]
  have hdec2 : sizeDecrement particles.total_real_particles_ =
      particles.total_real_particles_ - 1 := sizeDecrement_pos _ hone
  constructor
  · unfold BaseParticles.switchToBufferParticleChecked BaseParticles.switchToBufferParticle
    simp only [hdec, hdec2, Option.bind_eq_bind, Option.some_bind]
    by_cases hlt : index_i < particles.total_real_particles_ - 1
    · simp only [if_pos hlt]
      rw [copy_a_particle_value_checked_of_lt particles index_i _
        (fun n hn => ⟨by have := hfields n hn; omega, by have := hfields n hn; omega⟩)]
      simp only [Option.some_bind, BaseParticles.updateFromAnotherParticle]
      have hu : (particles.copy_a_particle_value_ index_i
          (particles.total_real_particles_ - 1)).unsorted_id_ = particles.unsorted_id_ := rfl
      have hs : (particles.copy_a_particle_value_ index_i
          (particles.total_real_particles_ - 1)).sorted_id_ = particles.sorted_id_ := rfl
      have ht : (particles.copy_a_particle_value_ index_i
          (particles.total_real_particles_ - 1)).total_real_particles_ =
            particles.total_real_particles_ := rfl
      rw [hu, hs, swapValuesChecked_of_lt _ _ _ (by omega) (by omega)]
      simp only [Option.some_bind]
      rw [readAt_of_lt _ index_i 0 (by unfold swapValues; simp; omega)]
      simp only [Option.some_bind]
      have hval : (swapValues particles.unsorted_id_ index_i
          (particles.total_real_particles_ - 1)).getD index_i 0 =
            particles.unsorted_id_.getD (particles.total_real_particles_ - 1) 0 :=
        swapValues_getD_left _ _ _ hlt
      unfold writeAt
      rw [if_pos (by rw [hval]; exact hids _ (by omega))]
      simp only [Option.some_bind, ht, hdec]
      rw [hdec2]
    · simp only [if_neg hlt, Option.some_bind, hdec]
      rw [hdec2]
  · have h := (switchToBufferParticle_counts particles index_i).1
    rw [h, hdec2]
    omega

theorem switchToBufferParticle_in_bounds_witness :
    exampleStore.switchToBufferParticleChecked 0 = some (exampleStore.switchToBufferParticle 0) ∧
    (exampleStore.switchToBufferParticle 0).total_real_particles_ + 1 = 3 :=
  switchToBufferParticle_in_bounds exampleStore 0 (by decide) (by decide) (by decide)
    (by decide) (by decide)

/-! ## C30: the uniform range of `getUniformNdRange` -/

/-- C30: for `local_size ≥ 1` and a `global_size` of `size_t` for which a multiple of
`local_size` at or above `global_size` is representable in `size_t`, `getUniformNdRange` returns
the local range `local_size` and a global range `R` that is the least multiple of `local_size`
with `R ≥ global_size`; so `R - global_size < local_size`, and `R = global_size` when
`global_size` is a multiple of `local_size` (0 included). -/
theorem getUniformNdRange_least_multiple (global_size local_size : Nat)
    (hlocal : 1 ≤ local_size) (hglobal : global_size < SIZE_MODULUS)
    (hfit : ∃ M, local_size ∣ M ∧ global_size ≤ M ∧ M < SIZE_MODULUS) :
    ∃ R, getUniformNdRange global_size local_size = some (R, local_size) ∧
      R < SIZE_MODULUS ∧
      local_size ∣ R ∧ global_size ≤ R ∧
      (∀ M, local_size ∣ M → global_size ≤ M → R ≤ M) ∧
      R - global_size < local_size ∧
      (local_size ∣ global_size → R = global_size) := by
  obtain ⟨M, ⟨c, rfl⟩, hM1, hM2⟩ := hfit
  have hdiv := Nat.div_add_mod global_size local_size
  have hmod := Nat.mod_lt global_size hlocal
  unfold getUniformNdRange
  rw [if_neg (by omega)]
  by_cases h0 : global_size % local_size = 0
  · refine ⟨global_size, by simp [h0], hglobal, Nat.dvd_of_mod_eq_zero h0, le_refl _, ?_, by omega,
      fun _ => rfl⟩
    intro M _ hM
    exact hM
  · have hmul : (global_size / local_size + 1) * local_size =
        local_size * (global_size / local_size) + local_size := by ring
    have hle : ∀ c' : Nat, global_size ≤ local_size * c' →
        (global_size / local_size + 1) * local_size ≤ local_size * c' := by
      intro c' hc'
      have h1 : global_size / local_size < c' := by
        by_contra hcon
        have h2 : c' ≤ global_size / local_size := by omega
        have h3 : local_size * c' ≤ local_size * (global_size / local_size) :=
          Nat.mul_le_mul_left _ h2
        omega
      have h4 : local_size * (global_size / local_size + 1) ≤ local_size * c' :=
        Nat.mul_le_mul_left _ h1
      rw [Nat.mul_comm]
      exact h4
    have hR : (global_size / local_size + 1) * local_size < SIZE_MODULUS :=
      lt_of_le_of_lt (hle c hM1) hM2
    have hq : global_size / local_size + 1 < SIZE_MODULUS := by
      have h5 : global_size / local_size + 1 ≤ (global_size / local_size + 1) * local_size :=
        Nat.le_mul_of_pos_right _ hlocal
      omega
    refine ⟨(global_size / local_size + 1) * local_size, ?_, hR, Dvd.intro_left _ rfl, by omega,
      ?_, by omega, ?_⟩
    · rw [if_pos h0, Nat.mod_eq_of_lt hq, Nat.mod_eq_of_lt hR]
    · rintro M ⟨c', rfl⟩ hM
      exact hle c' hM
    · intro hd
      exact absurd (Nat.mod_eq_zero_of_dvd hd) h0

theorem getUniformNdRange_least_multiple_witness :
    ∃ R, getUniformNdRange 100 32 = some (R, 32) ∧ R < SIZE_MODULUS ∧ 32 ∣ R ∧ 100 ≤ R ∧
      (∀ M, 32 ∣ M → 100 ≤ M → R ≤ M) ∧ R - 100 < 32 ∧ (32 ∣ 100 → R = 100) :=
  getUniformNdRange_least_multiple 100 32 (by decide) (by unfold SIZE_MODULUS; omega)
    ⟨128, by decide, by decide, by unfold SIZE_MODULUS; omega⟩

/-! ## C27: registration of a discrete variable by name -/

theorem determineIndexLoop_spec (name : String) (container : VariableContainer) (i : Nat) :
    (name ∉ container → determineIndexLoop name container i = i + container.length) ∧
    (name ∈ container →
      i ≤ determineIndexLoop name container i ∧
      determineIndexLoop name container i < i + container.length ∧
      container[determineIndexLoop name container i - i]? = some name) := by
  induction container generalizing i with
  | nil => exact ⟨fun _ => rfl, fun h => absurd h (List.not_mem_nil _)⟩
  | cons entry rest ih =>
    unfold determineIndexLoop
    by_cases he : entry = name
    · rw [if_pos he]
      refine ⟨fun h => absurd (he ▸ List.mem_cons_self _ _) h, fun _ => ⟨le_refl _, ?_, ?_⟩⟩
      · rw [List.length_cons]
        omega
      · rw [Nat.sub_self, he]
        simp
    · rw [if_neg he]
      obtain ⟨ih1, ih2⟩ := ih (i + 1)
      constructor
      · intro h
        rw [ih1 (fun hm => h (List.mem_cons_of_mem _ hm)), List.length_cons]
        omega
      · intro h
        have hm : name ∈ rest := by
          rcases List.mem_cons.mp h with h1 | h1
          · exact absurd h1.symm he
          · exact h1
        obtain ⟨h1, h2, h3⟩ := ih2 hm
        refine ⟨by omega, by rw [List.length_cons]; omega, ?_⟩
        have h4 : determineIndexLoop name rest (i + 1) - i =
            (determineIndexLoop name rest (i + 1) - (i + 1)) + 1 := by omega
        rw [h4, List.getElem?_cons_succ]
        exact h3

theorem determineIndex_of_not_mem (name : String) (container : VariableContainer)
    (h : name ∉ container) : determineIndex name container = container.length := by
  unfold determineIndex
  rw [(determineIndexLoop_spec name container 0).1 h]
  omega

theorem determineIndex_of_mem (name : String) (container : VariableContainer)
    (h : name ∈ container) :
    determineIndex name container < container.length ∧
    container[determineIndex name container]? = some name := by
  unfold determineIndex
  obtain ⟨_, h2, h3⟩ := (determineIndexLoop_spec name container 0).2 h
  exact ⟨by omega, h3⟩

/-- C27: the construction of a variable named `name` of the data type number `type_index`. If
no entry of the container of that data type has the name, the name is appended to that container
(the other containers are kept) and the variable gets `IndexInContainer()` equal to the previous
size of the container. If an entry has the name, the assemble is left unchanged, the construction
fails with an error if and only if `is_shared` is false, and with `is_shared` true the variable
gets the index of an entry of that name. -/
theorem DiscreteVariable_new_spec (variable_assemble : DiscreteVariableAssemble)
    (type_index : Nat) (name : String) (is_shared : Bool) :
    (name ∉ variable_assemble type_index →
      DiscreteVariable.new variable_assemble type_index name is_shared =
        (Function.update variable_assemble type_index (variable_assemble type_index ++ [name]),
          Except.ok
            { name_ := name, type_index := type_index,
              index_in_container_ := (variable_assemble type_index).length })) ∧
    (name ∈ variable_assemble type_index →
      (DiscreteVariable.new variable_assemble type_index name is_shared).1 = variable_assemble ∧
      ((∃ message, (DiscreteVariable.new variable_assemble type_index name is_shared).2 =
          Except.error message) ↔ is_shared = false) ∧
      (is_shared = true →
        ∃ created, (DiscreteVariable.new variable_assemble type_index name is_shared).2 =
            Except.ok created ∧
          created.name_ = name ∧
          created.IndexInContainer < (variable_assemble type_index).length ∧
          (variable_assemble type_index)[created.IndexInContainer]? = some name)) := by
  constructor
  · intro h
    unfold DiscreteVariable.new initializeIndex
    simp only [determineIndex_of_not_mem name _ h, if_true]
  · intro h
    obtain ⟨h1, h2⟩ := determineIndex_of_mem name _ h
    have hne : determineIndex name (variable_assemble type_index) ≠
        (variable_assemble type_index).length := by omega
    unfold DiscreteVariable.new initializeIndex
    simp only [if_neg hne]
    cases is_shared with
    | false => simp
    | true =>
      refine ⟨rfl, ?_, fun _ => ⟨_, rfl, rfl, h1, h2⟩⟩
      simp

theorem DiscreteVariable_new_spec_witness :
    (DiscreteVariable.new (constructAll emptyAssemble exampleConstructions).1 0 "Pressure"
        false).2 =
      Except.ok { name_ := "Pressure", type_index := 0, index_in_container_ := 2 } ∧
    (∃ message, (DiscreteVariable.new (constructAll emptyAssemble exampleConstructions).1 0
        "Mass" false).2 = Except.error message) ∧
    (∃ created, (DiscreteVariable.new (constructAll emptyAssemble exampleConstructions).1 0
        "Mass" true).2 = Except.ok created ∧ created.IndexInContainer = 1) :=
  ⟨congrArg Prod.snd ((DiscreteVariable_new_spec
      (constructAll emptyAssemble exampleConstructions).1 0 "Pressure" false).1 (by decide)),
    (((DiscreteVariable_new_spec (constructAll emptyAssemble exampleConstructions).1 0 "Mass"
      false).2 (by decide)).2.1).2 rfl,
    ⟨_, rfl, rfl⟩⟩

/-! ## C26: the names of a container stay distinct -/

/-- One construction keeps the containers duplicate-free, keeps every entry in place, and hands
out an index whose entry carries the name of the variable constructed. -/
theorem DiscreteVariable_new_step (assemble : DiscreteVariableAssemble) (type_index : Nat)
    (name : String) (is_shared : Bool) (created : DiscreteVariable)
    (hnodup : ∀ t, (assemble t).Nodup)
    (hok : (DiscreteVariable.new assemble type_index name is_shared).2 = Except.ok created) :
    (∀ t, ((DiscreteVariable.new assemble type_index name is_shared).1 t).Nodup) ∧
    (∀ t, assemble t <+: (DiscreteVariable.new assemble type_index name is_shared).1 t) ∧
    created.name_ = name ∧ created.type_index = type_index ∧
    ((DiscreteVariable.new assemble type_index name is_shared).1
      created.type_index)[created.index_in_container_]? = some created.name_ := by
  by_cases hmem : name ∈ assemble type_index
  · obtain ⟨h1, h2⟩ := determineIndex_of_mem name _ hmem
    have hne : determineIndex name (assemble type_index) ≠ (assemble type_index).length := by
      omega
    unfold DiscreteVariable.new initializeIndex at hok ⊢
    simp only [if_neg hne] at hok ⊢
    cases is_shared with
    | false => simp at hok
    | true =>
      simp only [Bool.not_true, Bool.false_eq_true, if_false, Except.ok.injEq] at hok ⊢
      subst hok
      exact ⟨hnodup, fun t => List.prefix_refl _, rfl, rfl, h2⟩
  · have h0 := determineIndex_of_not_mem name _ hmem
    unfold DiscreteVariable.new initializeIndex at hok ⊢
    simp only [h0, if_true, Except.ok.injEq] at hok ⊢
    subst hok
    refine ⟨?_, ?_, rfl, rfl, ?_⟩
    · intro t
      by_cases ht : t = type_index
      · subst ht
        rw [Function.update_same]
        exact List.Nodup.append (hnodup t) (List.nodup_singleton _)
          (by simpa using hmem)
      · rw [Function.update_noteq ht]
        exact hnodup t
    · intro t
      by_cases ht : t = type_index
      · subst ht
        rw [Function.update_same]
        exact List.prefix_append _ _
      · rw [Function.update_noteq ht]
    · simp only [Function.update_same]
      rw [List.getElem?_append_right (le_refl _)]
      simp

theorem getElem?_extends {α : Type} (xs ys : List α) (i : Nat) (a : α) (h : xs <+: ys)
    (hi : xs[i]? = some a) : ys[i]? = some a := by
  obtain ⟨t, rfl⟩ := h
  rw [List.getElem?_append_left (lt_length_of_getElem?_eq_some xs i a hi)]
  exact hi

theorem constructAll_invariant (requests : List Construction) (assemble : DiscreteVariableAssemble)
    (constructed : List DiscreteVariable) (hnodup : ∀ t, (assemble t).Nodup)
    (hok : (constructAll assemble requests).2 = Except.ok constructed) :
    (∀ t, ((constructAll assemble requests).1 t).Nodup) ∧
    (∀ t, assemble t <+: (constructAll assemble requests).1 t) ∧
    constructed.map (fun v => (v.type_index, v.name_)) =
      requests.map (fun request => (request.type_index, request.name)) ∧
    (∀ v ∈ constructed,
      ((constructAll assemble requests).1 v.type_index)[v.IndexInContainer]? = some v.name_) := by
  induction requests generalizing assemble constructed with
  | nil =>
    unfold constructAll at hok ⊢
    simp only [Except.ok.injEq] at hok
    subst hok
    exact ⟨hnodup, fun t => List.prefix_refl _, rfl, fun v hv => absurd hv (List.not_mem_nil _)⟩
  | cons request rest ih =>
    unfold constructAll at hok ⊢
    rcases hnew : DiscreteVariable.new assemble request.type_index request.name
      request.is_shared with ⟨assemble1, outcome⟩
    rw [hnew] at hok
    cases outcome with
    | error message =>
      simp only at hok
      cases hok
    | ok created =>
      have hnew2 : (DiscreteVariable.new assemble request.type_index request.name
          request.is_shared).2 = Except.ok created := by rw [hnew]
      obtain ⟨s1, s2, s3, s4, s5⟩ := DiscreteVariable_new_step assemble request.type_index
        request.name request.is_shared created hnodup hnew2
      rw [hnew] at s1 s2 s5
      simp only at s1 s2 s5 hok ⊢
      rcases hrest : constructAll assemble1 rest with ⟨final, outcome2⟩
      rw [hrest] at hok
      cases outcome2 with
      | error message =>
        simp only at hok
        cases hok
      | ok others =>
        simp only [Except.ok.injEq] at hok
        subst hok
        have hrest2 : (constructAll assemble1 rest).2 = Except.ok others := by rw [hrest]
        obtain ⟨r1, r2, r3, r4⟩ := ih assemble1 others s1 hrest2
        rw [hrest] at r1 r2 r4
        simp only at r1 r2 r4 ⊢
        refine ⟨r1, fun t => (s2 t).trans (r2 t), ?_, ?_⟩
        · rw [List.map_cons, List.map_cons, r3, s3, s4]
        · intro v hv
          rcases List.mem_cons.mp hv with h | h
          · subst h
            exact getElem?_extends _ _ _ _ (r2 _) s5
          · exact r4 v h

/-- C26: when every construction of a sequence run from the empty assemble succeeds, there is
one constructed variable for each request, with the requested name and data type, the names held
by each container of the assemble are pairwise distinct, and for every constructed variable the
entry at its `IndexInContainer()` in the container of its data type carries the name of that
variable. -/
theorem constructAll_name_addressable (requests : List Construction)
    (constructed : List DiscreteVariable)
    (hok : (constructAll emptyAssemble requests).2 = Except.ok constructed) :
    (∀ t, ((constructAll emptyAssemble requests).1 t).Nodup) ∧
    constructed.map (fun v => (v.type_index, v.name_)) =
      requests.map (fun request => (request.type_index, request.name)) ∧
    (∀ v ∈ constructed,
      ((constructAll emptyAssemble requests).1 v.type_index)[v.IndexInContainer]? =
        some v.name_) := by
  obtain ⟨h1, _, h3, h4⟩ := constructAll_invariant requests emptyAssemble constructed
    (fun _ => List.nodup_nil) hok
  exact ⟨h1, h3, h4⟩

theorem constructAll_name_addressable_witness :
    (constructAll emptyAssemble exampleConstructions).2 =
      Except.ok
        [{ name_ := "Volume", type_index := 0, index_in_container_ := 0 },
          { name_ := "Velocity", type_index := 1, index_in_container_ := 0 },
          { name_ := "Mass", type_index := 0, index_in_container_ := 1 },
          { name_ := "Volume", type_index := 0, index_in_container_ := 0 }] ∧
    (constructAll emptyAssemble exampleConstructions).1 0 = ["Volume", "Mass"] ∧
    (∀ t, ((constructAll emptyAssemble exampleConstructions).1 t).Nodup) :=
  ⟨rfl, rfl, (constructAll_name_addressable exampleConstructions _ rfl).1⟩

/-! ## C23: the divisor of the interpolation -/

theorem foldl_invariant {σ β : Type} (P : σ → Prop) (f : σ → β → σ) (l : List β) (s : σ)
    (h0 : P s) (hstep : ∀ s b, b ∈ l → P s → P (f s b)) : P (l.foldl f s) := by
  induction l generalizing s with
  | nil => exact h0
  | cons b l ih =>
    rw [List.foldl_cons]
    exact ih _ (hstep s b (List.mem_cons_self _ _) h0)
      (fun s' b' hb' hs' => hstep s' b' (List.mem_cons_of_mem _ hb') hs')

theorem getD_nonneg (xs : List Real) (n : Nat) (h : ∀ x ∈ xs, 0 ≤ x) : 0 ≤ xs.getD n 0 := by
  rw [List.getD_eq_getElem?_getD]
  cases hx : xs[n]? with
  | none => exact le_refl _
  | some x => exact h x (List.getElem?_mem hx)

theorem interpolationLoop_nonneg (Vol_k data_k : List Real) (nb : Neighborhood)
    (sums : Real × Real) (hW : ∀ w ∈ nb.W_ij_, 0 ≤ w) (hVol : ∀ v ∈ Vol_k, 0 ≤ v)
    (h : 0 ≤ sums.2) : 0 ≤ (interpolationLoop Vol_k data_k nb sums).2 := by
  unfold interpolationLoop
  refine foldl_invariant (fun s : Real × Real => 0 ≤ s.2) _ _ _ h ?_
  intro s n _ hs
  exact add_nonneg hs (mul_nonneg (getD_nonneg _ _ hW) (getD_nonneg _ _ hVol))

theorem getD_getD_mem_or {α : Type} [Inhabited α] (xss : List (List α)) (k i : Nat) :
    (xss.getD k []).getD i default = default ∨
      ∃ xs ∈ xss, (xss.getD k []).getD i default = xs.getD i default := by
  have hk : xss.getD k [] = (xss[k]?).getD [] := List.getD_eq_getElem?_getD _ _ _
  rw [hk]
  cases hx : xss[k]? with
  | none => exact Or.inl rfl
  | some xs => exact Or.inr ⟨xs, List.getElem?_mem hx, rfl⟩

theorem sums_nonneg (self : InterpolatingAQuantity) (index_i : Nat)
    (hW : ∀ cfg ∈ self.contact_configuration_, ∀ w ∈ (cfg.getD index_i default).W_ij_, 0 ≤ w)
    (hVol : ∀ Vol_k ∈ self.contact_Vol_, ∀ v ∈ Vol_k, 0 ≤ v) :
    0 ≤ (self.sums index_i).2 := by
  unfold InterpolatingAQuantity.sums
  refine foldl_invariant (fun s : Real × Real => 0 ≤ s.2) _ _ _ (le_refl _) ?_
  intro s k _ hs
  refine interpolationLoop_nonneg _ _ _ _ ?_ ?_ hs
  · unfold InterpolatingAQuantity.contactNeighborhood
    rcases getD_getD_mem_or self.contact_configuration_ k index_i with h | ⟨cfg, hc, h⟩
    · rw [h]
      intro w hw
      exact absurd hw (List.not_mem_nil _)
    · rw [h]
      exact hW cfg hc
  · rw [List.getD_eq_getElem?_getD]
    cases hx : self.contact_Vol_[k]? with
    | none =>
      intro v hv
      exact absurd hv (List.not_mem_nil _)
    | some Vol_k => exact hVol Vol_k (List.getElem?_mem hx)

theorem sums_of_no_neighbor (self : InterpolatingAQuantity) (index_i : Nat)
    (h : ∀ k, (self.contactNeighborhood k index_i).current_size_ = 0) :
    self.sums index_i = (0, 0) := by
  unfold InterpolatingAQuantity.sums
  refine foldl_invariant (fun s : Real × Real => s = (0, 0)) _ _ _ rfl ?_
  intro s k _ hs
  unfold interpolationLoop
  rw [h k, hs]
  rfl

/-- C23: with non-negative kernel values `W_ij_` in the contact neighbourhoods of particle
`index_i`, non-negative volumes and `TinyReal > 0`, the divisor `ttl_weight + TinyReal` of
`Interaction(index_i)` is strictly positive, so the division is defined and the quotient
`observed_quantity / (ttl_weight + TinyReal)` is written to `interpolated_quantities_[index_i]`;
for a particle without neighbour in every contact body the value written is 0. -/
theorem Interaction_divisor_positive (self : InterpolatingAQuantity) (index_i : Nat)
    (hW : ∀ cfg ∈ self.contact_configuration_, ∀ w ∈ (cfg.getD index_i default).W_ij_, 0 ≤ w)
    (hVol : ∀ Vol_k ∈ self.contact_Vol_, ∀ v ∈ Vol_k, 0 ≤ v)
    (hTiny : 0 < self.TinyReal) :
    0 < (self.sums index_i).2 + self.TinyReal ∧
    self.Interaction index_i =
      some { self with
        interpolated_quantities_ := self.interpolated_quantities_.set index_i
          ((self.sums index_i).1 / ((self.sums index_i).2 + self.TinyReal)) } ∧
    ((∀ k, (self.contactNeighborhood k index_i).current_size_ = 0) →
      self.Interaction index_i =
        some { self with
          interpolated_quantities_ := self.interpolated_quantities_.set index_i 0 }) := by
  have hpos : 0 < (self.sums index_i).2 + self.TinyReal :=
    add_pos_of_nonneg_of_pos (sums_nonneg self index_i hW hVol) hTiny
  have hrun : self.Interaction index_i =
      some { self with
        interpolated_quantities_ := self.interpolated_quantities_.set index_i
          ((self.sums index_i).1 / ((self.sums index_i).2 + self.TinyReal)) } := by
    unfold InterpolatingAQuantity.Interaction divideChecked
    simp only [if_neg (ne_of_gt hpos)]
    rfl
  refine ⟨hpos, hrun, ?_⟩
  intro hnone
  rw [hrun, sums_of_no_neighbor self index_i hnone]
  simp

theorem Interaction_divisor_positive_witness :
    0 < (exampleObserver.sums 0).2 + exampleObserver.TinyReal ∧
    (lonelyObserver.Interaction 0).map (fun result => result.interpolated_quantities_) =
      some [0] :=
  ⟨(Interaction_divisor_positive exampleObserver 0 (by decide!) (by decide!) (by decide!)).1,
    by
      rw [(Interaction_divisor_positive lonelyObserver 0 (by decide!) (by decide!)
        (by decide!)).2.2 (by
          intro k
          unfold InterpolatingAQuantity.contactNeighborhood
          rcases getD_getD_mem_or lonelyObserver.contact_configuration_ k 0 with h | ⟨cfg, hc, h⟩
          · rw [h]; rfl
          · rw [h]
            have hcfg : cfg = [default] := by
              have : cfg ∈ [[(default : Neighborhood)], [default]] := hc
              simp at this
              exact this
            rw [hcfg]
            rfl)]
      rfl⟩

/-! ## C24: the interpolation does not depend on the order of the neighbours -/

theorem foldl_add_pair (f g : Nat × Real → Real) (entries : List (Nat × Real))
    (sums : Real × Real) :
    entries.foldl (fun s e => (s.1 + f e, s.2 + g e)) sums =
      (sums.1 + (entries.map f).sum, sums.2 + (entries.map g).sum) := by
  induction entries generalizing sums with
  | nil => simp
  | cons e entries ih =>
    rw [List.foldl_cons, ih, List.map_cons, List.map_cons, List.sum_cons, List.sum_cons]
    simp only [add_assoc]

/-- The loop over the neighbours adds, to each of the two sums, the sum of the contributions of
the entries of the neighbourhood. -/
theorem interpolationLoop_eq_sum (Vol_k data_k : List Real) (nb : Neighborhood)
    (sums : Real × Real) :
    interpolationLoop Vol_k data_k nb sums =
      (sums.1 + (nb.entries.map
          (fun e => e.2 * Vol_k.getD e.1 0 * data_k.getD e.1 0)).sum,
        sums.2 + (nb.entries.map (fun e => e.2 * Vol_k.getD e.1 0)).sum) := by
  unfold interpolationLoop Neighborhood.entries
  rw [← foldl_add_pair, List.foldl_map]

theorem interpolationLoop_perm (Vol_k data_k : List Real) (nb nb2 : Neighborhood)
    (sums : Real × Real) (h : nb.entries.Perm nb2.entries) :
    interpolationLoop Vol_k data_k nb sums = interpolationLoop Vol_k data_k nb2 sums := by
  rw [interpolationLoop_eq_sum, interpolationLoop_eq_sum, (h.map _).sum_eq, (h.map _).sum_eq]

/-- C24: two runs of `Interaction(index_i)` that differ only in the order of the entries
`(j_[n], W_ij_[n])` of the contact neighbourhoods of particle `index_i` (for each contact body the
entries of the one are a permutation of the entries of the other) compute the same sums
`observed_quantity` and `ttl_weight` and write the same value. -/
theorem Interaction_order_independent (self other : InterpolatingAQuantity) (index_i : Nat)
    (hVol : other.contact_Vol_ = self.contact_Vol_)
    (hdata : other.contact_data_ = self.contact_data_)
    (hquantities : other.interpolated_quantities_ = self.interpolated_quantities_)
    (hTiny : other.TinyReal = self.TinyReal)
    (hbodies : other.contact_configuration_.length = self.contact_configuration_.length)
    (hperm : ∀ k, k < self.contact_configuration_.length →
      (self.contactNeighborhood k index_i).entries.Perm
        (other.contactNeighborhood k index_i).entries) :
    other.sums index_i = self.sums index_i ∧
    (other.Interaction index_i).map (fun result => result.interpolated_quantities_) =
      (self.Interaction index_i).map (fun result => result.interpolated_quantities_) := by
  have hsums : other.sums index_i = self.sums index_i := by
    unfold InterpolatingAQuantity.sums
    rw [hbodies, hVol, hdata]
    refine List.foldl_ext _ _ _ ?_
    intro sums k hk
    exact (interpolationLoop_perm _ _ _ _ sums (hperm k (List.mem_range.mp hk))).symm
  refine ⟨hsums, ?_⟩
  unfold InterpolatingAQuantity.Interaction
  simp only [hsums, hTiny, hquantities, Option.map_map]
  rfl

theorem Interaction_order_independent_witness :
    exampleObserverPermuted.sums 0 = exampleObserver.sums 0 ∧
    (exampleObserverPermuted.Interaction 0).map (fun result => result.interpolated_quantities_) =
      (exampleObserver.Interaction 0).map (fun result => result.interpolated_quantities_) :=
  Interaction_order_independent exampleObserver exampleObserverPermuted 0 rfl rfl rfl rfl rfl
    (by
      intro k hk
      have hk0 : k = 0 := by
        have : k < 1 := hk
        omega
      subst hk0
      have h1 : (exampleObserver.contactNeighborhood 0 0).entries =
          [(2, 1 / 2), (0, 1 / 4), (1, 1 / 8)] := by decide!
      have h2 : (exampleObserverPermuted.contactNeighborhood 0 0).entries =
          [(1, 1 / 8), (2, 1 / 2), (0, 1 / 4)] := by decide!
      rw [h1, h2]
      exact ((List.Perm.swap _ _ _).trans ((List.Perm.swap _ _ _).cons _)).symm)

/-! ## C22: growth of the configuration memories -/

theorem iterate_addAParticleEntry_bound (p : BaseParticles) (k : Nat) :
    (Nat.iterate BaseParticles.addAParticleEntry k p).real_particles_bound_ =
      p.real_particles_bound_ := by
  induction k with
  | zero => rfl
  | succ k ih =>
    rw [Function.iterate_succ_apply']
    exact ih

theorem addBufferParticles_bound (p : BaseParticles) (k : Nat) :
    (p.addBufferParticles k).real_particles_bound_ = p.real_particles_bound_ + k := by
  show (Nat.iterate BaseParticles.addAParticleEntry k p).real_particles_bound_ + k = _
  rw [iterate_addAParticleEntry_bound]

theorem modify_map_take {α : Type} (f : α → α) (l : List α) (n : Nat) (hn : n < l.length) :
    ((l.take n).map f ++ l.drop n).modify f n = (l.take (n + 1)).map f ++ l.drop (n + 1) := by
  induction l generalizing n with
  | nil => exact absurd hn (Nat.not_lt_zero _)
  | cons a l ih =>
    cases n with
    | zero => simp [List.modify]
    | succ m =>
      have hm : m < l.length := by
        rw [List.length_cons] at hn
        omega
      simp only [List.take_succ_cons, List.map_cons, List.drop_succ_cons, List.cons_append]
      rw [List.modify_succ_cons, ih m hm]

/-- The loop over the first `n` relations. -/
theorem allocate_loop (store : BaseParticles) (n : Nat) (relations : List SPHRelation)
    (updates : List Nat) (hn : n ≤ relations.length) :
    (List.range n).foldl
        (fun (body : SPHBodyRelations) i =>
          { body with
            all_relations_ := body.all_relations_.modify
              (fun relation => relation.updateConfigurationMemories body.base_particles_) i
            memory_updates_ := body.memory_updates_ ++ [i] })
        { base_particles_ := store, all_relations_ := relations, memory_updates_ := updates } =
      { base_particles_ := store
        all_relations_ :=
          (relations.take n).map (fun relation => relation.updateConfigurationMemories store) ++
            relations.drop n
        memory_updates_ := updates ++ List.range n } := by
  induction n with
  | zero => simp
  | succ n ih =>
    rw [List.range_succ, List.foldl_append, ih (by omega)]
    simp only [List.foldl_cons, List.foldl_nil]
    rw [modify_map_take _ _ _ (by omega), List.append_assoc]

theorem allocate_eq_map (body : SPHBodyRelations) :
    body.allocateConfigurationMemoriesForBufferParticles =
      { base_particles_ := body.base_particles_
        all_relations_ := body.all_relations_.map
          (fun relation => relation.updateConfigurationMemories body.base_particles_)
        memory_updates_ := body.memory_updates_ ++ List.range body.all_relations_.length } := by
  unfold SPHBodyRelations.allocateConfigurationMemoriesForBufferParticles
  have h := allocate_loop body.base_particles_ body.all_relations_.length body.all_relations_
    body.memory_updates_ (le_refl _)
  rw [List.take_length, List.drop_length, List.append_nil] at h
  exact h

theorem getElem?_resize {α : Type} (xs : List α) (n p : Nat) (fill : α) (hp : p < n) :
    (resize xs n fill)[p]? = some (xs.getD p fill) := by
  unfold resize
  by_cases h : p < xs.length
  · rw [List.getElem?_append_left h, List.getD_eq_getElem?_getD, List.getElem?_eq_getElem h]
    rfl
  · rw [List.getElem?_append_right (by omega), getD_of_length_le _ _ _ (by omega),
      List.getElem?_replicate]
    rw [if_pos (by omega)]

theorem length_resize {α : Type} (xs : List α) (n : Nat) (fill : α) (h : xs.length ≤ n) :
    (resize xs n fill).length = n := by
  unfold resize
  rw [List.length_append, List.length_replicate]
  omega

theorem configurations_updateConfigurationMemories (store : BaseParticles)
    (relation : SPHRelation) :
    (relation.updateConfigurationMemories store).configurations =
      relation.configurations.map
        (fun configuration => resize configuration store.real_particles_bound_ default) := by
  cases relation with
  | inner cfg => rfl
  | contact cfgs => rfl

/-- C22: on a body whose relations hold at most `real_particles_bound_` neighbourhoods in each of
their arrays, after `addBufferParticles(k)` on the particle store,
`allocateConfigurationMemoriesForBufferParticles` calls `updateConfigurationMemories` once on
each relation of `all_relations_`, in the order of the list. Afterwards every `Neighborhood`
array of every relation has `real_particles_bound_ + k` slots, the new bound; each slot that
existed is unchanged; each added slot holds the empty neighbourhood, with
`current_size_ = allocated_size_ = 0`. -/
theorem allocateConfigurationMemories_growth (body : SPHBodyRelations) (k : Nat)
    (hslots : ∀ relation ∈ body.all_relations_, ∀ configuration ∈ relation.configurations,
      configuration.length ≤ body.base_particles_.real_particles_bound_) :
    ((body.addBufferParticles k).allocateConfigurationMemoriesForBufferParticles).memory_updates_ =
      body.memory_updates_ ++ List.range body.all_relations_.length ∧
    ((body.addBufferParticles k).allocateConfigurationMemoriesForBufferParticles).base_particles_ =
      body.base_particles_.addBufferParticles k ∧
    ((body.addBufferParticles k).allocateConfigurationMemoriesForBufferParticles
      ).base_particles_.real_particles_bound_ = body.base_particles_.real_particles_bound_ + k ∧
    ((body.addBufferParticles k).allocateConfigurationMemoriesForBufferParticles
      ).all_relations_.length = body.all_relations_.length ∧
    (∀ (i : Nat) (relation : SPHRelation), body.all_relations_[i]? = some relation →
      ∃ updated : SPHRelation,
        ((body.addBufferParticles k).allocateConfigurationMemoriesForBufferParticles
          ).all_relations_[i]? = some updated ∧
        updated.configurations.length = relation.configurations.length ∧
        ∀ (c : Nat) (configuration : ParticleConfiguration),
          relation.configurations[c]? = some configuration →
          ∃ grown : ParticleConfiguration, updated.configurations[c]? = some grown ∧
            grown.length = body.base_particles_.real_particles_bound_ + k ∧
            (∀ p : Nat, p < configuration.length → grown[p]? = configuration[p]?) ∧
            (∀ p : Nat, configuration.length ≤ p →
              p < body.base_particles_.real_particles_bound_ + k →
              ∃ neighborhood : Neighborhood, grown[p]? = some neighborhood ∧
                neighborhood.current_size_ = 0 ∧ neighborhood.allocated_size_ = 0 ∧
                neighborhood.neighbors = [])) := by
  rw [allocate_eq_map]
  have hbound := addBufferParticles_bound body.base_particles_ k
  refine ⟨rfl, rfl, hbound, by simp [SPHBodyRelations.addBufferParticles], ?_⟩
  intro i relation hi
  refine ⟨relation.updateConfigurationMemories (body.base_particles_.addBufferParticles k), ?_,
    ?_, ?_⟩
  · show (List.map _ body.all_relations_)[i]? = _
    rw [List.getElem?_map, hi]
    rfl
  · rw [configurations_updateConfigurationMemories, List.length_map]
  · intro c configuration hc
    have hlen : configuration.length ≤ body.base_particles_.real_particles_bound_ :=
      hslots relation (List.getElem?_mem hi) configuration (List.getElem?_mem hc)
    refine ⟨resize configuration (body.base_particles_.real_particles_bound_ + k) default, ?_,
      length_resize _ _ _ (by omega), ?_, ?_⟩
    · rw [configurations_updateConfigurationMemories, List.getElem?_map, hc, hbound]
      rfl
    · intro p hp
      rw [getElem?_resize _ _ _ _ (by omega), List.getD_eq_getElem?_getD,
        List.getElem?_eq_getElem hp]
      rfl
    · intro p hp1 hp2
      refine ⟨default, ?_, rfl, rfl, rfl⟩
      rw [getElem?_resize _ _ _ _ hp2, getD_of_length_le _ _ _ hp1]

theorem allocateConfigurationMemories_growth_witness :
    ((exampleBodyRelations.addBufferParticles 2).allocateConfigurationMemoriesForBufferParticles
      ).memory_updates_ = [0, 1] ∧
    ((exampleBodyRelations.addBufferParticles 2).allocateConfigurationMemoriesForBufferParticles
      ).all_relations_.map
        (fun relation => relation.configurations.map
          (fun configuration => configuration.map (fun nb => nb.current_size_))) =
      [[[0, 1, 0, 0, 0, 0]], [[0, 0, 0, 0, 0, 0], [0, 0, 0, 0, 0, 0]]] :=
  ⟨(allocateConfigurationMemories_growth exampleBodyRelations 2 (by decide)).1, by decide!⟩

/-! ## C25: the wall distances and the order of the neighbours -/

theorem foldl_projection {σ τ β γ : Type} (P : σ → τ) (f : σ → β → σ) (g : τ → γ → τ)
    (h : β → γ) (l : List β) (s : σ) (hstep : ∀ s b, P (f s b) = g (P s) (h b)) :
    P (l.foldl f s) = (l.map h).foldl g (P s) := by
  induction l generalizing s with
  | nil => rfl
  | cons b l ih => rw [List.foldl_cons, ih, hstep, List.map_cons, List.foldl_cons]

theorem foldl_projection_flatMap {σ τ β γ : Type} (P : σ → τ) (f : σ → β → σ) (g : τ → γ → τ)
    (h : β → List γ) (l : List β) (s : σ) (hstep : ∀ s b, P (f s b) = (h b).foldl g (P s)) :
    P (l.foldl f s) = (l.flatMap h).foldl g (P s) := by
  induction l generalizing s with
  | nil => rfl
  | cons b l ih =>
    rw [List.foldl_cons, ih, hstep, List.flatMap_cons, List.foldl_append]

theorem neighborStep_nearest (self : StandardWallFunctionCorrection) (Vol_k : List Real)
    (n_k : List Vecd) (nb : Neighborhood) (s : WallFunctionState) (n : Nat) :
    (self.neighborStep Vol_k n_k nb s n).nearest =
      nearestStep self.TinyReal s.nearest
        (nb.r_ij_.getD n 0,
          self.distanceToDummyInterface (n_k.getD (nb.j_.getD n 0) 0) (nb.r_ij_.getD n 0)
            (nb.e_ij_.getD n 0),
          nb.j_.getD n 0) := by
  unfold StandardWallFunctionCorrection.neighborStep nearestStep WallFunctionState.nearest
  simp only
  split_ifs <;> rfl

theorem neighborStep_flags (self : StandardWallFunctionCorrection) (Vol_k : List Real)
    (n_k : List Vecd) (nb : Neighborhood) (s : WallFunctionState) (n : Nat) :
    (self.neighborStep Vol_k n_k nb s n).is_near_wall_P2_ = s.is_near_wall_P2_ ∧
    (self.neighborStep Vol_k n_k nb s n).is_near_wall_P1_ = s.is_near_wall_P1_ := by
  unfold StandardWallFunctionCorrection.neighborStep
  simp only
  split_ifs <;> exact ⟨rfl, rfl⟩

theorem bodyStep_nearest (self : StandardWallFunctionCorrection) (index_i : Nat)
    (s : WallFunctionState) (k : Nat) :
    (self.bodyStep index_i s k).nearest =
      (self.candidates index_i k).foldl (nearestStep self.TinyReal) s.nearest := by
  unfold StandardWallFunctionCorrection.bodyStep StandardWallFunctionCorrection.candidates
    Neighborhood.wallEntries
  simp only
  rw [foldl_projection WallFunctionState.nearest _ (nearestStep self.TinyReal)
    (fun n =>
      ((self.contactNeighborhood k index_i).r_ij_.getD n 0,
        self.distanceToDummyInterface
          ((self.contact_n_.getD k []).getD ((self.contactNeighborhood k index_i).j_.getD n 0) 0)
          ((self.contactNeighborhood k index_i).r_ij_.getD n 0)
          ((self.contactNeighborhood k index_i).e_ij_.getD n 0),
        (self.contactNeighborhood k index_i).j_.getD n 0)) _ _
    (fun s n => neighborStep_nearest self _ _ _ s n), List.map_map]
  congr 1
  split_ifs <;> rfl

theorem bodyStep_flags (self : StandardWallFunctionCorrection) (index_i : Nat)
    (s : WallFunctionState) (k : Nat) :
    (self.bodyStep index_i s k).is_near_wall_P2_ = s.is_near_wall_P2_ ∧
    (self.bodyStep index_i s k).is_near_wall_P1_ = s.is_near_wall_P1_ := by
  unfold StandardWallFunctionCorrection.bodyStep
  simp only
  refine foldl_invariant
    (fun t : WallFunctionState =>
      t.is_near_wall_P2_ = s.is_near_wall_P2_ ∧ t.is_near_wall_P1_ = s.is_near_wall_P1_)
    _ _ _ ?_ ?_
  · split_ifs <;> exact ⟨rfl, rfl⟩
  · intro t n _ ht
    obtain ⟨h1, h2⟩ := neighborStep_flags self (self.contact_Vol_.getD k [])
      (self.contact_n_.getD k []) (self.contactNeighborhood k index_i) t n
    exact ⟨h1.trans ht.1, h2.trans ht.2⟩

theorem nearestInfo_nearest (self : StandardWallFunctionCorrection) (index_i : Nat) :
    (self.nearestInfo index_i).nearest =
      ((List.range self.contact_configuration_.length).flatMap (self.candidates index_i)).foldl
        (nearestStep self.TinyReal) (1000, 0, 0, 0) := by
  unfold StandardWallFunctionCorrection.nearestInfo
  rw [foldl_projection_flatMap WallFunctionState.nearest _ (nearestStep self.TinyReal)
    (self.candidates index_i) _ _ (fun s k => bodyStep_nearest self index_i s k)]
  rfl

theorem nearestInfo_flags (self : StandardWallFunctionCorrection) (index_i : Nat) :
    (self.nearestInfo index_i).is_near_wall_P2_ = 0 ∧
    (self.nearestInfo index_i).is_near_wall_P1_ = 0 := by
  unfold StandardWallFunctionCorrection.nearestInfo
  refine foldl_invariant
    (fun t : WallFunctionState => t.is_near_wall_P2_ = 0 ∧ t.is_near_wall_P1_ = 0) _ _ _
    ⟨rfl, rfl⟩ ?_
  intro t k _ ht
  obtain ⟨h1, h2⟩ := bodyStep_flags self index_i t k
  exact ⟨h1.trans ht.1, h2.trans ht.2⟩

/-- The result of the search of the nearest wall particle: the start values when no qualifying
neighbour is nearer than `r_min`, otherwise the values of a qualifying neighbour nearer than
`r_min` and at least as near as every qualifying neighbour. -/
theorem foldl_nearestStep_spec (tiny : Real) (l : List (Real × Real × Nat))
    (p : Real × Real × Real × Int) :
    (l.foldl (nearestStep tiny) p = p ∧ ∀ c ∈ l, c.2.1 > 0 + tiny → p.1 ≤ c.1) ∨
    (∃ c ∈ l, c.2.1 > 0 + tiny ∧ c.1 < p.1 ∧
      l.foldl (nearestStep tiny) p = (c.1, c.2.1, c.2.1, (c.2.2 : Int)) ∧
      ∀ c2 ∈ l, c2.2.1 > 0 + tiny → c.1 ≤ c2.1) := by
  induction l generalizing p with
  | nil => exact Or.inl ⟨rfl, fun c hc => absurd hc (List.not_mem_nil _)⟩
  | cons a l ih =>
    rw [List.foldl_cons]
    by_cases ha : a.1 < p.1 ∧ a.2.1 > 0 + tiny
    · have hstep : nearestStep tiny p a = (a.1, a.2.1, a.2.1, (a.2.2 : Int)) := by
        unfold nearestStep
        rw [if_pos ha]
      rw [hstep]
      rcases ih (a.1, a.2.1, a.2.1, (a.2.2 : Int)) with ⟨h1, h2⟩ | ⟨c, hc, hq, hlt, h1, h2⟩
      · refine Or.inr ⟨a, List.mem_cons_self _ _, ha.2, ha.1, h1, ?_⟩
        intro c2 hc2 hq2
        rcases List.mem_cons.mp hc2 with h | h
        · rw [h]
        · exact h2 c2 h hq2
      · refine Or.inr ⟨c, List.mem_cons_of_mem _ hc, hq, lt_trans hlt ha.1, h1, ?_⟩
        intro c2 hc2 hq2
        rcases List.mem_cons.mp hc2 with h | h
        · rw [h]
          exact le_of_lt hlt
        · exact h2 c2 h hq2
    · have hstep : nearestStep tiny p a = p := by
        unfold nearestStep
        rw [if_neg ha]
      rw [hstep]
      have hpa : a.2.1 > 0 + tiny → p.1 ≤ a.1 := by
        intro hq
        by_contra hcon
        exact ha ⟨lt_of_not_le hcon, hq⟩
      rcases ih p with ⟨h1, h2⟩ | ⟨c, hc, hq, hlt, h1, h2⟩
      · refine Or.inl ⟨h1, ?_⟩
        intro c2 hc2 hq2
        rcases List.mem_cons.mp hc2 with h | h
        · subst h
          exact hpa hq2
        · exact h2 c2 h hq2
      · refine Or.inr ⟨c, List.mem_cons_of_mem _ hc, hq, hlt, h1, ?_⟩
        intro c2 hc2 hq2
        rcases List.mem_cons.mp hc2 with h | h
        · subst h
          exact le_trans (le_of_lt hlt) (hpa hq2)
        · exact h2 c2 h hq2

/-- The search of the nearest wall particle gives the same result on two orders of the
neighbours when the qualifying neighbours have pairwise distinct distances. -/
theorem foldl_nearestStep_perm (tiny : Real) (l1 l2 : List (Real × Real × Nat))
    (p : Real × Real × Real × Int) (hperm : l1.Perm l2)
    (hdistinct :
      ((l1.filter (fun c => decide (c.2.1 > 0 + tiny))).map (fun c => c.1)).Nodup) :
    l2.foldl (nearestStep tiny) p = l1.foldl (nearestStep tiny) p := by
  have hinj := List.inj_on_of_nodup_map hdistinct
  have hmem : ∀ c, c ∈ l2 ↔ c ∈ l1 := fun c => hperm.symm.mem_iff
  rcases foldl_nearestStep_spec tiny l1 p with ⟨h1, h2⟩ | ⟨c, hc, hq, hlt, h1, h2⟩
  · rcases foldl_nearestStep_spec tiny l2 p with ⟨k1, _⟩ | ⟨d, hd, hqd, hltd, _, _⟩
    · rw [h1, k1]
    · exact absurd (h2 d ((hmem d).mp hd) hqd) (not_le_of_lt hltd)
  · rcases foldl_nearestStep_spec tiny l2 p with ⟨_, k2⟩ | ⟨d, hd, hqd, _, k1, k2⟩
    · exact absurd (k2 c ((hmem c).mpr hc) hq) (not_le_of_lt hlt)
    · have hkey : c.1 = d.1 :=
        le_antisymm (h2 d ((hmem d).mp hd) hqd) (k2 c ((hmem c).mpr hc) hq)
      have hcd : c = d :=
        hinj (List.mem_filter.mpr ⟨hc, decide_eq_true hq⟩)
          (List.mem_filter.mpr ⟨(hmem d).mp hd, decide_eq_true hqd⟩) hkey
      rw [h1, k1, hcd]

theorem classify_outputs (self : StandardWallFunctionCorrection) (s : WallFunctionState)
    (h2 : s.is_near_wall_P2_ = 0) (h1 : s.is_near_wall_P1_ = 0) :
    (self.classify s).index_nearest = s.index_nearest ∧
    (self.classify s).dist_to_dmy_interface_ = s.dist_to_dmy_interface_ ∧
    (self.classify s).is_near_wall_P2_ =
      (if s.r_dummy_normal <
            (self.cutoff_radius_ - 1 / 2 * self.particle_spacing_) + self.TinyReal ∧
          s.r_dummy_normal > 0 * self.particle_spacing_ + self.TinyReal
        then 10 else 0) ∧
    (self.classify s).is_near_wall_P1_ =
      (if (s.r_dummy_normal <
            (self.cutoff_radius_ - 1 / 2 * self.particle_spacing_) + self.TinyReal ∧
          s.r_dummy_normal > 0 * self.particle_spacing_ + self.TinyReal) ∧
          s.r_dummy_normal < 1 * self.particle_spacing_
        then 1 else 0) := by
  unfold StandardWallFunctionCorrection.classify
  by_cases hc : s.r_dummy_normal <
      (self.cutoff_radius_ - 1 / 2 * self.particle_spacing_) + self.TinyReal ∧
      s.r_dummy_normal > 0 * self.particle_spacing_ + self.TinyReal
  · by_cases hp : s.r_dummy_normal < 1 * self.particle_spacing_
    · simp only [hc, hp, if_true, and_self]
    · simp only [hc, hp, if_true, if_false, and_false, and_self, true_and]
      exact h1
  · simp only [hc, if_false, false_and, true_and]
    exact ⟨h2, h1⟩

theorem average_outputs (s : WallFunctionState) :
    (StandardWallFunctionCorrection.average s).index_nearest = s.index_nearest ∧
    (StandardWallFunctionCorrection.average s).dist_to_dmy_interface_ =
      s.dist_to_dmy_interface_ ∧
    (StandardWallFunctionCorrection.average s).is_near_wall_P2_ = s.is_near_wall_P2_ ∧
    (StandardWallFunctionCorrection.average s).is_near_wall_P1_ = s.is_near_wall_P1_ := by
  unfold StandardWallFunctionCorrection.average
  split_ifs <;> exact ⟨rfl, rfl, rfl, rfl⟩

theorem interaction_outputs (self : StandardWallFunctionCorrection) (index_i : Nat) :
    (self.interaction index_i).index_nearest = (self.nearestInfo index_i).index_nearest ∧
    (self.interaction index_i).dist_to_dmy_interface_ =
      (self.nearestInfo index_i).dist_to_dmy_interface_ ∧
    (self.interaction index_i).is_near_wall_P2_ =
      (if (self.nearestInfo index_i).r_dummy_normal <
            (self.cutoff_radius_ - 1 / 2 * self.particle_spacing_) + self.TinyReal ∧
          (self.nearestInfo index_i).r_dummy_normal > 0 * self.particle_spacing_ + self.TinyReal
        then 10 else 0) ∧
    (self.interaction index_i).is_near_wall_P1_ =
      (if ((self.nearestInfo index_i).r_dummy_normal <
            (self.cutoff_radius_ - 1 / 2 * self.particle_spacing_) + self.TinyReal ∧
          (self.nearestInfo index_i).r_dummy_normal >
            0 * self.particle_spacing_ + self.TinyReal) ∧
          (self.nearestInfo index_i).r_dummy_normal < 1 * self.particle_spacing_
        then 1 else 0) := by
  obtain ⟨f2, f1⟩ := nearestInfo_flags self index_i
  obtain ⟨c1, c2, c3, c4⟩ := classify_outputs self (self.nearestInfo index_i) f2 f1
  obtain ⟨a1, a2, a3, a4⟩ := average_outputs (self.classify (self.nearestInfo index_i))
  have hfinal :
      (self.interaction index_i).index_nearest =
        (StandardWallFunctionCorrection.average
          (self.classify (self.nearestInfo index_i))).index_nearest ∧
      (self.interaction index_i).dist_to_dmy_interface_ =
        (StandardWallFunctionCorrection.average
          (self.classify (self.nearestInfo index_i))).dist_to_dmy_interface_ ∧
      (self.interaction index_i).is_near_wall_P2_ =
        (StandardWallFunctionCorrection.average
          (self.classify (self.nearestInfo index_i))).is_near_wall_P2_ ∧
      (self.interaction index_i).is_near_wall_P1_ =
        (StandardWallFunctionCorrection.average
          (self.classify (self.nearestInfo index_i))).is_near_wall_P1_ := by
    unfold StandardWallFunctionCorrection.interaction
    simp only
    split_ifs <;> exact ⟨rfl, rfl, rfl, rfl⟩
  obtain ⟨e1, e2, e3, e4⟩ := hfinal
  exact ⟨e1.trans (a1.trans c1), e2.trans (a2.trans c2), e3.trans (a3.trans c3),
    e4.trans (a4.trans c4)⟩

/-- C25, as stated, fails. With the neighbours "below" (distance 1, `r_dmy_n_j = 1/2`) and
"aside" (distance 5/4, `r_dmy_n_j = 1/4`) of a fluid particle, the two orders of the neighbour
list give the kernel-averaged distances 1/2 and 3/8 and the same values for `Y_P`. With the
neighbours "below" and "tie", both at the distance 1, the two orders give the nearest-wall indices
0 and 2 and the distances to the dummy interface 1/2 and 3/10. -/
theorem interaction_order_dependent :
    ((exampleWall [wallEntryBelow, wallEntryAside]).contactNeighborhood 0 0).wallEntries =
      [wallEntryBelow, wallEntryAside] ∧
    ((exampleWall [wallEntryAside, wallEntryBelow]).contactNeighborhood 0 0).wallEntries =
      [wallEntryAside, wallEntryBelow] ∧
    ((exampleWall [wallEntryBelow, wallEntryAside]).interaction 0).dist_to_dmy_itfc_aver_ =
      1 / 2 ∧
    ((exampleWall [wallEntryAside, wallEntryBelow]).interaction 0).dist_to_dmy_itfc_aver_ =
      3 / 8 ∧
    ((exampleWall [wallEntryBelow, wallEntryAside]).interaction 0).y_p_ = 1 / 2 ∧
    ((exampleWall [wallEntryAside, wallEntryBelow]).interaction 0).y_p_ = 3 / 8 ∧
    ((exampleWall [wallEntryBelow, wallEntryTie]).interaction 0).index_nearest = 0 ∧
    ((exampleWall [wallEntryTie, wallEntryBelow]).interaction 0).index_nearest = 2 ∧
    ((exampleWall [wallEntryBelow, wallEntryTie]).interaction 0).dist_to_dmy_interface_ =
      1 / 2 ∧
    ((exampleWall [wallEntryTie, wallEntryBelow]).interaction 0).dist_to_dmy_interface_ =
      3 / 10 := by
  refine ⟨?_, ?_, ?_, ?_, ?_, ?_, ?_, ?_, ?_, ?_⟩ <;> decide!

/-- C25, amended: two runs of `interaction(index_i)` that differ only in the order of the entries
`(j_[n], W_ij_[n], r_ij_[n], e_ij_[n])` of the contact neighbourhoods of particle `index_i` give
the same nearest-wall index, the same `DistanceToDummyInterface` and the same flags
`IsNearWallP1` and `IsNearWallP2`, when the neighbours that qualify as the nearest wall particle
(`r_dmy_n_j > 0 + TinyReal`) have pairwise distinct distances `r_ij_`. -/
theorem interaction_nearest_order_independent (self other : StandardWallFunctionCorrection)
    (index_i : Nat)
    (hn : other.contact_n_ = self.contact_n_)
    (hspacing : other.particle_spacing_ = self.particle_spacing_)
    (hcutoff : other.cutoff_radius_ = self.cutoff_radius_)
    (hTiny : other.TinyReal = self.TinyReal)
    (hbodies : other.contact_configuration_.length = self.contact_configuration_.length)
    (hperm : ∀ k, k < self.contact_configuration_.length →
      (self.contactNeighborhood k index_i).wallEntries.Perm
        (other.contactNeighborhood k index_i).wallEntries)
    (hdistinct : ((self.qualifying index_i).map (fun c => c.1)).Nodup) :
    (other.interaction index_i).index_nearest = (self.interaction index_i).index_nearest ∧
    (other.interaction index_i).dist_to_dmy_interface_ =
      (self.interaction index_i).dist_to_dmy_interface_ ∧
    (other.interaction index_i).is_near_wall_P1_ = (self.interaction index_i).is_near_wall_P1_ ∧
    (other.interaction index_i).is_near_wall_P2_ =
      (self.interaction index_i).is_near_wall_P2_ := by
  have hcand : ∀ k ∈ List.range self.contact_configuration_.length,
      (self.candidates index_i k).Perm (other.candidates index_i k) := by
    intro k hk
    unfold StandardWallFunctionCorrection.candidates
      StandardWallFunctionCorrection.distanceToDummyInterface
    rw [hn, hspacing]
    exact (hperm k (List.mem_range.mp hk)).map _
  have hall := List.Perm.flatMap_left (List.range self.contact_configuration_.length) hcand
  have hnearest : (other.nearestInfo index_i).nearest = (self.nearestInfo index_i).nearest := by
    rw [nearestInfo_nearest, nearestInfo_nearest, hbodies, hTiny]
    exact foldl_nearestStep_perm self.TinyReal _ _ _ hall hdistinct
  unfold WallFunctionState.nearest at hnearest
  simp only [Prod.mk.injEq] at hnearest
  obtain ⟨_, hrdn, hdist, hindex⟩ := hnearest
  obtain ⟨s1, s2, s3, s4⟩ := interaction_outputs self index_i
  obtain ⟨o1, o2, o3, o4⟩ := interaction_outputs other index_i
  refine ⟨?_, ?_, ?_, ?_⟩
  · rw [o1, s1, hindex]
  · rw [o2, s2, hdist]
  · rw [o4, s4, hrdn, hspacing, hcutoff, hTiny]
  · rw [o3, s3, hrdn, hspacing, hcutoff, hTiny]

theorem interaction_nearest_order_independent_witness :
    ((exampleWall [wallEntryAside, wallEntryBelow]).interaction 0).index_nearest =
      ((exampleWall [wallEntryBelow, wallEntryAside]).interaction 0).index_nearest ∧
    ((exampleWall [wallEntryAside, wallEntryBelow]).interaction 0).dist_to_dmy_interface_ =
      ((exampleWall [wallEntryBelow, wallEntryAside]).interaction 0).dist_to_dmy_interface_ ∧
    ((exampleWall [wallEntryAside, wallEntryBelow]).interaction 0).is_near_wall_P1_ =
      ((exampleWall [wallEntryBelow, wallEntryAside]).interaction 0).is_near_wall_P1_ ∧
    ((exampleWall [wallEntryAside, wallEntryBelow]).interaction 0).is_near_wall_P2_ =
      ((exampleWall [wallEntryBelow, wallEntryAside]).interaction 0).is_near_wall_P2_ :=
  interaction_nearest_order_independent (exampleWall [wallEntryBelow, wallEntryAside])
    (exampleWall [wallEntryAside, wallEntryBelow]) 0 rfl rfl rfl rfl rfl
    (by
      intro k hk
      have hk0 : k = 0 := by
        have : k < 1 := hk
        omega
      subst hk0
      have h1 : ((exampleWall [wallEntryBelow, wallEntryAside]).contactNeighborhood 0
          0).wallEntries = [wallEntryBelow, wallEntryAside] := by decide!
      have h2 : ((exampleWall [wallEntryAside, wallEntryBelow]).contactNeighborhood 0
          0).wallEntries = [wallEntryAside, wallEntryBelow] := by decide!
      rw [h1, h2]
      exact List.Perm.swap _ _ _)
    (by decide!)

/-! ## C10: the lattice in double precision -/

theorem sqrtBits_spec (bit n root : Nat) (h1 : root * root ≤ n)
    (h2 : n < (root + 2 ^ bit) * (root + 2 ^ bit)) :
    sqrtBits bit n root * sqrtBits bit n root ≤ n ∧
      n < (sqrtBits bit n root + 1) * (sqrtBits bit n root + 1) := by
  induction bit generalizing root with
  | zero =>
    rw [pow_zero] at h2
    exact ⟨h1, h2⟩
  | succ bit ih =>
    unfold sqrtBits
    by_cases h : (root + 2 ^ bit) * (root + 2 ^ bit) ≤ n
    · rw [if_pos h]
      refine ih _ h ?_
      rw [pow_succ] at h2
      rw [add_assoc, ← mul_two]
      exact h2
    · rw [if_neg h]
      exact ih _ h1 (by omega)

/-- The integer square root by bits is the integer part of the square root. -/
theorem sqrtBits_eq_sqrt (n : Nat) (h : n < 2 ^ 106) : sqrtBits 53 n 0 = Nat.sqrt n := by
  rw [Nat.eq_sqrt]
  refine sqrtBits_spec 53 n 0 (Nat.zero_le _) ?_
  rw [Nat.zero_add, ← pow_add]
  exact h

/-- Values of the rounded square root: `sqrt(4.0) = 2.0`, `sqrt(0.25) = 0.5`,
`sqrt(2.0) = 1.4142135623730951` and `sqrt(0.5) = 0.7071067811865476`. -/
theorem roundSqrt_values :
    roundSqrt 4 = 2 ∧ roundSqrt (1 / 4) = 1 / 2 ∧
    roundSqrt 2 = 6369051672525773 / 4503599627370496 ∧
    roundSqrt (1 / 2) = 6369051672525773 / 9007199254740992 := by
  refine ⟨?_, ?_, ?_, ?_⟩ <;> decide!

theorem forceNat_eq {α : Type} (n : Nat) (k : Nat → α) : forceNat n k = k n := by
  cases n <;> rfl

theorem forceInt_eq {α : Type} (z : Int) (k : Int → α) : forceInt z k = k z := by
  cases z <;> simp [forceInt, forceNat_eq]

theorem forceRat_eq {α : Type} (q : Real) (k : Real → α) : forceRat q k = k q := by
  simp [forceRat, forceInt_eq, forceNat_eq, Rat.divInt_self]

theorem roundHalfEvenFast_eq (y : Real) : roundHalfEvenFast y = roundHalfEven y := by
  simp only [roundHalfEvenFast, forceInt_eq, roundHalfEven]

theorem roundPositiveFast_eq (x : Real) : roundPositiveFast x = roundPositive x := by
  simp only [roundPositiveFast, forceInt_eq, forceRat_eq, roundHalfEvenFast_eq, roundPositive]

theorem roundFast_eq (x : Real) : roundFast x = roundToDouble x := by
  simp only [roundFast, forceRat_eq, roundPositiveFast_eq, roundToDouble]

theorem roundSqrtFast_eq (q : Real) : roundSqrtFast q = roundSqrt q := by
  simp only [roundSqrtFast, forceInt_eq, forceRat_eq, forceNat_eq, roundSqrt, Int.cast_natCast]

theorem fnormFast_eq (d : Vecd) : fnormFast d = fnorm d := by
  simp only [fnormFast, forceRat_eq, roundFast_eq, roundSqrtFast_eq, fnorm, fadd, fmul]

theorem NeighborRelationInnerDouble_spec (self : NeighborRelation) (nb : Neighborhood)
    (displacement : Vecd) (i_index j_index : Nat) (h : nb.WF) :
    (NeighborRelationInnerDouble self nb displacement i_index j_index).WF ∧
    (NeighborRelationInnerDouble self nb displacement i_index j_index).neighbors =
      nb.neighbors ++
        (if i_index ≠ j_index ∧ fnorm (roundVecd displacement) < self.cutoff_radius_
          then [j_index] else []) := by
  unfold NeighborRelationInnerDouble
  by_cases hij : i_index = j_index
  · simp [hij, h]
  · by_cases hc : fnorm (roundVecd displacement) < self.cutoff_radius_
    · simp only [hij, hc, if_true, if_false, ne_eq, not_false_eq_true, and_self]
      exact Neighborhood.append_spec _ _ nb (roundVecd displacement) j_index h
    · simp [hij, hc, h]

theorem applyRelation_innerDouble (self : NeighborRelation) (p : Vecd) (index_i : Nat)
    (entries : CellListDataVector) (nb : Neighborhood) (h : nb.WF) :
    (applyRelation (NeighborRelationInnerDouble self) p index_i entries nb).WF ∧
    (applyRelation (NeighborRelationInnerDouble self) p index_i entries nb).neighbors =
      nb.neighbors ++
        (entries.filter (fun e =>
          decide (index_i ≠ e.1) &&
            decide (fnorm (roundVecd (p - e.2)) < self.cutoff_radius_))).map
          (fun e => e.1) := by
  induction entries generalizing nb with
  | nil => simp [applyRelation, h]
  | cons e es ih =>
    obtain ⟨hw, hn⟩ := NeighborRelationInnerDouble_spec self nb (p - e.2) index_i e.1 h
    have := ih _ hw
    unfold applyRelation at this ⊢
    simp only [List.foldl_cons]
    refine ⟨this.1, ?_⟩
    rw [this.2, hn]
    by_cases h1 : index_i = e.1 <;>
      by_cases h2 : fnorm (roundVecd (p - e.2)) < self.cutoff_radius_ <;>
      simp [List.filter_cons, h1, h2]

/-- The number of neighbours recorded for the particle `i` by the inner search on `double` over a
rebuilt grid, started from reset neighbourhoods: the number of the real particles `j ≠ i` of the
window cells that pass the cutoff test. -/
theorem innerDouble_current_size_eq (mesh : MeshCellLinkedList) (n : Nat)
    (particles : BaseParticles) (cfg : ParticleConfiguration) (get_search_range : Nat → Int)
    (self : NeighborRelation) (hreset : ∀ nb ∈ cfg, nb.isReset)
    (hgrid : mesh.holdsRealParticles particles n) (i : Nat) (hi : i < n)
    (hlen : i < cfg.length) :
    ((searchNeighborsByParticles mesh n particles cfg (fun num => num) get_search_range
      (NeighborRelationInnerDouble self)).getD i default).current_size_ =
      ((List.range n).filter (fun j =>
        decide (cellOf mesh particles j ∈ scanWindow mesh (cellOf mesh particles i).1
          (cellOf mesh particles i).2 (get_search_range i)) &&
        (decide (i ≠ j) &&
          decide (fnorm (roundVecd (particles.position i - particles.position j)) <
            self.cutoff_radius_)))).length := by
  have hget : cfg[i]? = some cfg[i] := List.getElem?_eq_getElem hlen
  have hr := hreset cfg[i] (List.getElem_mem hlen)
  have happ := applyRelation_innerDouble self (particles.position i) i
    (scanEntries mesh (cellOf mesh particles i).1 (cellOf mesh particles i).2
      (get_search_range i)) cfg[i] hr.wf
  have hval : (searchNeighborsByParticles mesh n particles cfg (fun num => num)
      get_search_range (NeighborRelationInnerDouble self)).getD i default =
      applyRelation (NeighborRelationInnerDouble self) (particles.position i) i
        (scanEntries mesh (cellOf mesh particles i).1 (cellOf mesh particles i).2
          (get_search_range i)) cfg[i] := by
    rw [List.getD_eq_getElem?_getD, searchNeighborsByParticles_id_getElem?]
    simp only [hi, if_true, hget, Option.map_some', Option.getD_some]
  rw [hval, ← happ.1.length_neighbors, happ.2, hr.neighbors_eq, List.nil_append]
  have hperm := ((scanEntries_perm mesh particles n hgrid (cellOf mesh particles i).1
    (cellOf mesh particles i).2 (get_search_range i)).filter
      (fun e => decide (i ≠ e.1) &&
        decide (fnorm (roundVecd (particles.position i - e.2)) < self.cutoff_radius_))).map
      (fun e => e.1)
  rw [List.filter_map, List.map_map] at hperm
  have hid : ((fun e : ListData => e.1) ∘ fun k => (k, particles.position k)) = id := rfl
  rw [hid, List.map_id] at hperm
  rw [hperm.length_eq]
  refine List.Perm.length_eq ?_
  rw [List.perm_ext_iff_of_nodup ((windowParticles_nodup mesh particles n _ _ _).filter _)
    ((List.nodup_range _).filter _)]
  intro j
  rw [List.mem_filter, mem_windowParticles, List.mem_filter, List.mem_range]
  simp only [Function.comp, Bool.and_eq_true, decide_eq_true_eq]
  tauto

theorem latticeDouble_holds :
    latticeMeshDouble.holdsRealParticles latticeParticlesDouble 100 :=
  UpdateCellLists_holdsRealParticles (MeshCellLinkedList.newDouble latticeCutoffDouble (5, 5))
    latticeParticlesDouble rfl
    (fun _ _ => ⟨clampIndex_lt _ _ (by decide), clampIndex_lt _ _ (by decide)⟩)

theorem latticeDouble_coordinate (m : Nat) (hm : m < 10) :
    fmul (fadd (m : Real) (1 / 2)) latticeSpacingDouble = latticeCoordinates.getD m 0 := by
  have h : ∀ m : Nat, m < 10 →
      roundFast (roundFast ((m : Real) + 1 / 2) * roundFast (1 / 10)) =
        latticeCoordinates.getD m 0 := by
    decide!
  have := h m hm
  simp only [roundFast_eq] at this
  exact this

theorem latticeDouble_position (j : Nat) (hj : j < 100) :
    latticeParticlesDouble.position j =
      (latticeCoordinates.getD (j / 10) 0, latticeCoordinates.getD (j % 10) 0) := by
  have h : latticeParticlesDouble.position j =
      (fmul (fadd ((j / 10 : Nat) : Real) (1 / 2)) latticeSpacingDouble,
        fmul (fadd ((j % 10 : Nat) : Real) (1 / 2)) latticeSpacingDouble) := by
    unfold BaseParticles.position latticeParticlesDouble
    simp only [List.getD_eq_getElem?_getD]
    rw [List.getElem?_map, List.getElem?_range hj]
    rfl
  rw [h, latticeDouble_coordinate _ (by omega), latticeDouble_coordinate _ (by omega)]

theorem latticeDouble_cutoff :
    latticeCutoffDouble = 3602879701896397 / 18014398509481984 := by
  have h : roundFast (2 * roundFast (1 / 10)) = 3602879701896397 / 18014398509481984 := by
    decide!
  simp only [roundFast_eq] at h
  exact h

theorem latticeDouble_cell (m : Nat) (hm : m < 10) :
    clampIndex ⌊fdiv (latticeCoordinates.getD m 0) latticeCutoffDouble⌋ 5 = m / 2 := by
  have h : ∀ m : Nat, m < 10 →
      clampIndex ⌊roundFast (latticeCoordinates.getD m 0 /
        (3602879701896397 / 18014398509481984))⌋ 5 = m / 2 := by
    decide!
  have := h m hm
  simp only [roundFast_eq] at this
  rw [latticeDouble_cutoff]
  exact this

theorem latticeDouble_cellOf (j : Nat) (hj : j < 100) :
    cellOf latticeMeshDouble latticeParticlesDouble j =
      (((j / 20 : Nat) : Int), ((j % 10 / 2 : Nat) : Int)) := by
  unfold cellOf latticeMeshDouble
  rw [(UpdateCellLists_CellIndexFromPosition _ latticeParticlesDouble).1,
    latticeDouble_position j hj]
  show (((clampIndex ⌊fdiv (latticeCoordinates.getD (j / 10) 0) latticeCutoffDouble⌋ 5 : Nat) :
      Int), ((clampIndex ⌊fdiv (latticeCoordinates.getD (j % 10) 0) latticeCutoffDouble⌋ 5 : Nat) :
      Int)) = _
  rw [latticeDouble_cell _ (by omega), latticeDouble_cell _ (by omega), Nat.div_div_eq_div_mul]

theorem latticeDouble_window (i j : Nat) (hi : i < 100) (hj : j < 100) :
    decide (cellOf latticeMeshDouble latticeParticlesDouble j ∈
      scanWindow latticeMeshDouble (cellOf latticeMeshDouble latticeParticlesDouble i).1
        (cellOf latticeMeshDouble latticeParticlesDouble i).2 (SearchDepthSingleResolution i)) =
      latticeWindow i j := by
  rw [latticeDouble_cellOf i hi, latticeDouble_cellOf j hj, latticeWindow, decide_eq_decide,
    mem_scanWindow]
  have hn : latticeMeshDouble.number_of_cells_ = (5, 5) :=
    (UpdateCellLists_CellIndexFromPosition _ latticeParticlesDouble).2
  rw [hn]
  simp only [SearchDepthSingleResolution]
  constructor
  · rintro ⟨h1, h2, _⟩
    exact ⟨h1, h2⟩
  · rintro ⟨h1, h2⟩
    refine ⟨h1, h2, ?_⟩
    simp only [Nat.cast_ofNat]
    omega

theorem latticeDouble_keep (i j : Nat) (hi : i < 100) (hj : j < 100) :
    decide (fnorm (roundVecd (latticeParticlesDouble.position i -
      latticeParticlesDouble.position j)) < latticeRelationDouble.cutoff_radius_) =
      latticeKeep i j := by
  rw [latticeDouble_position i hi, latticeDouble_position j hj]
  simp only [latticeKeep, forceRat_eq, roundFast_eq, fnormFast_eq, latticeRelationDouble,
    latticeDouble_cutoff, roundVecd, Prod.mk_sub_mk]

/-- The number of neighbours of a particle of the lattice on `double` after the rebuild and the
inner search. -/
theorem latticeDouble_count (i : Nat) (hi : i < 100) :
    (latticeConfigurationDouble.getD i default).current_size_ = latticeCount i := by
  unfold latticeConfigurationDouble
  rw [innerDouble_current_size_eq latticeMeshDouble 100 latticeParticlesDouble
    (List.replicate 100 default) SearchDepthSingleResolution latticeRelationDouble
    (replicate_default_isReset 100) latticeDouble_holds i hi (by simpa using hi)]
  unfold latticeCount
  congr 1
  refine List.filter_congr ?_
  intro j hj
  rw [List.mem_range] at hj
  rw [latticeDouble_window i j hi hj, latticeDouble_keep i j hi hj]

theorem latticeDouble_interior (i : Nat) (h : latticeInteriorDouble i) :
    i < 100 ∧ 2 ≤ i / 10 ∧ i / 10 ≤ 7 ∧ 2 ≤ i % 10 ∧ i % 10 ≤ 7 := by
  have hcut : (0 : Real) < latticeCutoffDouble := by
    rw [latticeDouble_cutoff]
    norm_num
  have hi : i < 100 := by
    by_contra hge
    have hpos : latticeParticlesDouble.position i = default := by
      unfold BaseParticles.position latticeParticlesDouble
      rw [List.getD_eq_default]
      simp only [List.length_map, List.length_range]
      omega
    have h1 := h.1
    rw [hpos] at h1
    exact absurd (lt_of_lt_of_le hcut h1) (lt_irrefl _)
  have hrow : ∀ m : Nat, m < 10 →
      3602879701896397 / 18014398509481984 ≤ latticeCoordinates.getD m 0 →
      latticeCoordinates.getD m 0 ≤ roundFast (1 - 3602879701896397 / 18014398509481984) →
      2 ≤ m ∧ m ≤ 7 := by
    decide!
  simp only [roundFast_eq] at hrow
  obtain ⟨h1, h2, h3, h4⟩ := h
  rw [latticeDouble_position i hi] at h1 h2 h3 h4
  unfold fsub at h2 h4
  rw [latticeDouble_cutoff] at h1 h2 h3 h4
  have ha := hrow (i / 10) (by omega) h1 h2
  have hb := hrow (i % 10) (by omega) h3 h4
  exact ⟨hi, ha.1, ha.2, hb.1, hb.2⟩

theorem latticeCount_bounds :
    ∀ k : Nat, k < 36 →
      8 ≤ latticeCount (10 * (k / 6 + 2) + (k % 6 + 2)) ∧
        latticeCount (10 * (k / 6 + 2) + (k % 6 + 2)) ≤ 10 := by
  decide!

/-- The count 12 of the claim C10 fails on `double`: the interior particle 55, at
`(0.55, 0.55)`, has 10 neighbours, and the interior particle 44, at `(0.45, 0.45)`, has 8. -/
theorem lattice_interior_not_twelve :
    latticeInteriorDouble 55 ∧
    (latticeConfigurationDouble.getD 55 default).current_size_ = 10 ∧
    latticeInteriorDouble 44 ∧
    (latticeConfigurationDouble.getD 44 default).current_size_ = 8 ∧
    (latticeConfigurationDouble.getD 55 default).current_size_ ≠ 12 ∧
    (latticeConfigurationDouble.getD 44 default).current_size_ ≠ 12 := by
  have h55 : (latticeConfigurationDouble.getD 55 default).current_size_ = 10 :=
    (latticeDouble_count 55 (by decide)).trans (by decide!)
  have h44 : (latticeConfigurationDouble.getD 44 default).current_size_ = 8 :=
    (latticeDouble_count 44 (by decide)).trans (by decide!)
  have hint : ∀ m : Nat, m = 4 ∨ m = 5 →
      latticeCutoffDouble ≤ latticeCoordinates.getD m 0 ∧
        latticeCoordinates.getD m 0 ≤ fsub 1 latticeCutoffDouble := by
    intro m hm
    rw [latticeDouble_cutoff]
    unfold fsub
    rw [← roundFast_eq]
    rcases hm with rfl | rfl <;> decide!
  refine ⟨?_, h55, ?_, h44, by rw [h55]; decide, by rw [h44]; decide⟩
  · unfold latticeInteriorDouble
    rw [latticeDouble_position 55 (by decide)]
    exact ⟨(hint 5 (Or.inr rfl)).1, (hint 5 (Or.inr rfl)).2, (hint 5 (Or.inr rfl)).1,
      (hint 5 (Or.inr rfl)).2⟩
  · unfold latticeInteriorDouble
    rw [latticeDouble_position 44 (by decide)]
    exact ⟨(hint 4 (Or.inl rfl)).1, (hint 4 (Or.inl rfl)).2, (hint 4 (Or.inl rfl)).1,
      (hint 4 (Or.inl rfl)).2⟩

/-- Claim C10, amended: on the lattice of spacing `dp = 0.1` in the box `1 x 1`, with the
coordinates `(k + 0.5) * dp` and the cutoff radius `2 * dp` computed on `double`, an interior
particle has at least 8 and at most 10 neighbours after the grid rebuild and the inner search. -/
theorem lattice_interior_eight_to_ten (i : Nat) (h : latticeInteriorDouble i) :
    8 ≤ (latticeConfigurationDouble.getD i default).current_size_ ∧
    (latticeConfigurationDouble.getD i default).current_size_ ≤ 10 := by
  obtain ⟨hi, h1, h2, h3, h4⟩ := latticeDouble_interior i h
  rw [latticeDouble_count i hi]
  have hb := latticeCount_bounds (6 * (i / 10 - 2) + (i % 10 - 2)) (by omega)
  have hk : 10 * ((6 * (i / 10 - 2) + (i % 10 - 2)) / 6 + 2) +
      ((6 * (i / 10 - 2) + (i % 10 - 2)) % 6 + 2) = i := by
    omega
  rw [hk] at hb
  exact hb

theorem lattice_interior_eight_to_ten_witness :
    latticeInteriorDouble 57 ∧
    (8 ≤ (latticeConfigurationDouble.getD 57 default).current_size_ ∧
      (latticeConfigurationDouble.getD 57 default).current_size_ ≤ 10) := by
  have h : latticeInteriorDouble 57 := by
    unfold latticeInteriorDouble
    rw [latticeDouble_position 57 (by decide), latticeDouble_cutoff]
    unfold fsub
    rw [← roundFast_eq]
    decide!
  exact ⟨h, lattice_interior_eight_to_ten 57 h⟩

end SPH
